import Mathlib

/-!
# SSD1306 frame buffer: shallow embedding of `Core/Src/SSD1306.c`

The display buffer is a list of bytes (natural numbers below 256) and every
access to it is checked: an index outside the list makes the operation return
`none`.  The C code performs no such check, so `none` stands for an access
outside the allocated buffer.  A second view, `Machine`, follows the
single-pixel functions on the flat memory of the target, where an index
outside the block addresses a byte of the surrounding memory.  `int16_t`
values are integers, narrowed with `wrap16` wherever the C code assigns to an
`int16_t` variable; `uint8_t` values are natural numbers reduced modulo 256 on
assignment.
-/

namespace SSD1306

/-! ## Constants of `Core/Inc/SSD1306.h` -/

/-- Width of the display in pixels (`#define SSD1306_WIDTH 128`). -/
abbrev SSD1306_WIDTH : Int := 128

/-- Height of the display in pixels (`#define SSD1306_HEIGHT 64`). -/
abbrev SSD1306_HEIGHT : Int := 64

/-- Colour that draws "off" pixels. -/
abbrev SSD1306_BLACK : Nat := 0

/-- Colour that draws "on" pixels. -/
abbrev SSD1306_WHITE : Nat := 1

/-- Colour that inverts pixels. -/
abbrev SSD1306_INVERSE : Nat := 2

/-- Number of bytes `SSD1306_init` allocates:
`SSD1306_WIDTH * ((SSD1306_HEIGHT + 7) / 8)`. -/
abbrev BUFFER_SIZE : Nat := 1024

/-! ## Machine integers and the byte buffer -/

/-- Narrowing of an `int` to `int16_t` (two's complement wrap-around). -/
def wrap16 (v : Int) : Int := (v + 32768) % 65536 - 32768

/-- Range of an `int16_t`. -/
def IsInt16 (v : Int) : Prop := -32768 ≤ v ∧ v ≤ 32767

instance (v : Int) : Decidable (IsInt16 v) := by
  unfold IsInt16; infer_instance

/-- The frame buffer `static uint8_t * buffer`, as the list of its bytes. -/
abbrev Buffer := List Nat

/-- A buffer as allocated by `SSD1306_init`: 1024 entries, each one a byte. -/
def IsBuffer (buf : Buffer) : Prop := buf.length = BUFFER_SIZE ∧ ∀ b ∈ buf, b < 256

/-- Read of `buffer[i]`; `none` when `i` is not an index of the buffer. -/
def loadByte (buf : Buffer) (i : Int) : Option Nat :=
  if i < 0 then none else buf[i.toNat]?

/-- Read-modify-write of `buffer[i]` (`buffer[i] op= ...` or `buffer[i] = ...`):
the stored value is truncated to `uint8_t`; `none` when `i` is not an index of
the buffer. -/
def modifyByte (buf : Buffer) (i : Int) (f : Nat → Nat) : Option Buffer :=
  match loadByte buf i with
  | some b => some (buf.set i.toNat (f b % 256))
  | none => none

/-- The statement `switch (color) { case WHITE: *p |= mask; case BLACK:
*p &= ~mask; case INVERSE: *p ^= mask; }` (each case ending in `break`) at
buffer index `p`.  The operand is a byte, so of `~mask` only the low eight
bits matter.  A colour that matches no case executes nothing. -/
def switch_color (color : Nat) (buf : Buffer) (p : Int) (mask : Nat) : Option Buffer :=
  match color with
  | 1 => modifyByte buf p (fun b => b ||| mask)
  | 0 => modifyByte buf p (fun b => b &&& (255 ^^^ mask))
  | 2 => modifyByte buf p (fun b => b ^^^ mask)
  | _ => some buf

/-! ## `SSD1306_draw_pixel` and `SSD1306_get_pixel` -/

/-- The rotation `switch` shared by `SSD1306_draw_pixel` and
`SSD1306_get_pixel`: logical point to the coordinates used for the buffer
access (`ssd1306_swap` exchanges the two variables). -/
def rotate_point (rotation : Nat) (x y : Int) : Int × Int :=
  match rotation with
  | 1 => (wrap16 (SSD1306_WIDTH - y - 1), x)
  | 2 => (wrap16 (SSD1306_WIDTH - x - 1), wrap16 (SSD1306_HEIGHT - y - 1))
  | 3 => (y, wrap16 (SSD1306_HEIGHT - x - 1))
  | _ => (x, y)

/-- Index expression `x + (y / 8) * SSD1306_WIDTH` (C division truncates
towards zero). -/
def byteIndex (x y : Int) : Int := x + (Int.tdiv y 8) * SSD1306_WIDTH

/-- Mask expression `1 << (y & 7)`. -/
def bitMask (y : Int) : Nat := 1 <<< (y % 8).toNat

/-- Function `void SSD1306_draw_pixel(int16_t x, int16_t y, uint16_t color)`. -/
def SSD1306_draw_pixel (rotation : Nat) (buffer : Buffer) (x y : Int) (color : Nat) :
    Option Buffer :=
  if 0 ≤ x ∧ x < SSD1306_WIDTH ∧ 0 ≤ y ∧ y < SSD1306_HEIGHT then
    let p := rotate_point rotation x y
    switch_color color buffer (byteIndex p.1 p.2) (bitMask p.2)
  else
    some buffer

/-- Function `bool SSD1306_get_pixel(int16_t x, int16_t y)`. -/
def SSD1306_get_pixel (rotation : Nat) (buffer : Buffer) (x y : Int) : Option Bool :=
  if 0 ≤ x ∧ x < SSD1306_WIDTH ∧ 0 ≤ y ∧ y < SSD1306_HEIGHT then
    let p := rotate_point rotation x y
    match loadByte buffer (byteIndex p.1 p.2) with
    | some b => some (b &&& bitMask p.2 != 0)
    | none => none
  else
    some false

/-! ## Physical run primitives -/

/-- The two clipping statements of the physical run primitives,
`if (s < 0) { n += s; s = 0; }  if ((s + n) > LIMIT) { n = (LIMIT - s); }`,
with `(s, n, LIMIT)` being `(x, w, SSD1306_WIDTH)` in
`SSD1306_draw_fast_hline_internal` and `(__y, __h, SSD1306_HEIGHT)` in
`SSD1306_draw_fast_vline_internal`.  Returns the clipped start and length. -/
def clip_run (limit s n : Int) : Int × Int :=
  let n1 := if s < 0 then wrap16 (n + s) else n
  let s1 := if s < 0 then 0 else s
  let n2 := if s1 + n1 > limit then wrap16 (limit - s1) else n1
  (s1, n2)

/-- The loops `while (w--) { *pBuf++ op= mask; }` of
`SSD1306_draw_fast_hline_internal`, entered with `w > 0`: `w` consecutive
bytes from index `pBuf` on. -/
def hline_loop (f : Nat → Nat) : Nat → Int → Buffer → Option Buffer
  | 0, _, buf => some buf
  | w + 1, pBuf, buf => (modifyByte buf pBuf f).bind (hline_loop f w (pBuf + 1))

/-- Function `void SSD1306_draw_fast_hline_internal(int16_t x, int16_t y, int16_t w,
uint16_t color)`. -/
def SSD1306_draw_fast_hline_internal (buffer : Buffer) (x y w : Int) (color : Nat) :
    Option Buffer :=
  if 0 ≤ y ∧ y < SSD1306_HEIGHT then
    let c := clip_run SSD1306_WIDTH x w
    let x := c.1
    let w := c.2
    if w > 0 then
      let pBuf := (Int.tdiv y 8) * SSD1306_WIDTH + x
      let mask := bitMask y % 256
      match color with
      | 1 => hline_loop (fun b => b ||| mask) w.toNat pBuf buffer
      | 0 => hline_loop (fun b => b &&& (255 ^^^ mask)) w.toNat pBuf buffer
      | 2 => hline_loop (fun b => b ^^^ mask) w.toNat pBuf buffer
      | _ => some buffer
    else
      some buffer
  else
    some buffer

/-- Lookup table `premask` of `SSD1306_draw_fast_vline_internal`. -/
def premask : List Nat := [0x00, 0x80, 0xC0, 0xE0, 0xF0, 0xF8, 0xFC, 0xFE]

/-- Lookup table `postmask` of `SSD1306_draw_fast_vline_internal`. -/
def postmask : List Nat := [0x00, 0x01, 0x03, 0x07, 0x0F, 0x1F, 0x3F, 0x7F]

/-- The guarded loops `if (h >= 8) { do { *pBuf op; pBuf += SSD1306_WIDTH;
h -= 8; } while (h >= 8); }` of `SSD1306_draw_fast_vline_internal`: one byte
per eight rows while at least eight rows remain.  Returns the buffer, the
advanced `pBuf` and the remaining `h`. -/
def vline_full_loop (f : Nat → Nat) : Nat → Int → Buffer → Option (Buffer × Int × Nat)
  | h + 8, pBuf, buf =>
    (modifyByte buf pBuf f).bind (vline_full_loop f h (pBuf + SSD1306_WIDTH))
  | h, pBuf, buf => some (buf, pBuf, h)

/-- The byte operation of the full-byte loops: `*pBuf ^= 0xFF` for
`SSD1306_INVERSE`, otherwise `*pBuf = val` with
`val = (color != SSD1306_BLACK) ? 255 : 0`. -/
def fullByteOp (color : Nat) : Nat → Nat :=
  if color = SSD1306_INVERSE then fun b => b ^^^ 0xFF
  else fun _ => if color ≠ SSD1306_BLACK then 255 else 0

/-- The block "do the first partial byte, if necessary" of
`SSD1306_draw_fast_vline_internal`, with `uint8_t mod = (y & 7)`.  Returns the
buffer, `pBuf` and `mod` as they stand after the block. -/
def vline_first (color : Nat) (buffer : Buffer) (pBuf : Int) (y h : Nat) :
    Option (Buffer × Int × Nat) :=
  let mod := y % 8
  if mod ≠ 0 then
    -- mask off the high n bits we want to set
    let mod := 8 - mod
    let mask := premask.getD mod 0
    -- adjust the mask if we're not going to reach the end of this byte
    let mask := if h < mod then mask &&& (0xFF >>> (mod - h)) else mask
    (switch_color color buffer pBuf mask).map (fun b => (b, pBuf + SSD1306_WIDTH, mod))
  else
    some (buffer, pBuf, mod)

/-- The block `if (h >= mod) { ... }` of `SSD1306_draw_fast_vline_internal`:
the solid bytes and the final partial byte. -/
def vline_rest (color : Nat) (buffer : Buffer) (pBuf : Int) (h mod : Nat) : Option Buffer :=
  if h ≥ mod then
    let h := h - mod
    (vline_full_loop (fullByteOp color) h pBuf buffer).bind fun r =>
      if r.2.2 ≠ 0 then
        -- do the final partial byte, if necessary
        switch_color color r.1 r.2.1 (postmask.getD (r.2.2 % 8) 0)
      else some r.1
  else
    some buffer

/-- Function `void SSD1306_draw_fast_vline_internal(int16_t x, int16_t __y,
int16_t __h, uint16_t color)`. -/
def SSD1306_draw_fast_vline_internal (buffer : Buffer) (x __y __h : Int) (color : Nat) :
    Option Buffer :=
  if 0 ≤ x ∧ x < SSD1306_WIDTH then
    let c := clip_run SSD1306_HEIGHT __y __h
    let __y := c.1
    let __h := c.2
    if __h > 0 then
      -- uint8_t y = __y, h = __h;
      let y : Nat := (__y % 256).toNat
      let h : Nat := (__h % 256).toNat
      let pBuf : Int := ((y / 8 : Nat) : Int) * SSD1306_WIDTH + x
      (vline_first color buffer pBuf y h).bind fun r =>
        vline_rest color r.1 r.2.1 h r.2.2
    else
      some buffer
  else
    some buffer

/-! ## Public run entry points -/

/-- The rotation `switch` of `SSD1306_draw_fast_hline`: the flag `bSwap` and
the values of `x` and `y` handed to the physical primitive (`w` is passed on
unchanged). -/
def hline_route (rotation : Nat) (x y w : Int) : Bool × Int × Int :=
  match rotation with
  | 1 => (true, wrap16 (SSD1306_WIDTH - y - 1), x)
  | 2 =>
    let x := wrap16 (SSD1306_WIDTH - x - 1)
    let y := wrap16 (SSD1306_HEIGHT - y - 1)
    (false, wrap16 (x - (w - 1)), y)
  | 3 =>
    let y' := wrap16 (SSD1306_HEIGHT - x - 1)
    (true, y, wrap16 (y' - (w - 1)))
  | _ => (false, x, y)

/-- Function `void SSD1306_draw_fast_hline(int16_t x, int16_t y, int16_t w,
uint16_t color)`. -/
def SSD1306_draw_fast_hline (rotation : Nat) (buffer : Buffer) (x y w : Int) (color : Nat) :
    Option Buffer :=
  let r := hline_route rotation x y w
  if r.1 then SSD1306_draw_fast_vline_internal buffer r.2.1 r.2.2 w color
  else SSD1306_draw_fast_hline_internal buffer r.2.1 r.2.2 w color

/-- The rotation `switch` of `SSD1306_draw_fast_vline`: the flag `bSwap` and
the values of `x` and `y` handed to the physical primitive (`h` is passed on
unchanged). -/
def vline_route (rotation : Nat) (x y h : Int) : Bool × Int × Int :=
  match rotation with
  | 1 =>
    let x' := wrap16 (SSD1306_WIDTH - y - 1)
    (true, wrap16 (x' - (h - 1)), x)
  | 2 =>
    let x := wrap16 (SSD1306_WIDTH - x - 1)
    let y := wrap16 (SSD1306_HEIGHT - y - 1)
    (false, x, wrap16 (y - (h - 1)))
  | 3 => (true, y, wrap16 (SSD1306_HEIGHT - x - 1))
  | _ => (false, x, y)

/-- Function `void SSD1306_draw_fast_vline(int16_t x, int16_t y, int16_t h,
uint16_t color)`. -/
def SSD1306_draw_fast_vline (rotation : Nat) (buffer : Buffer) (x y h : Int) (color : Nat) :
    Option Buffer :=
  let r := vline_route rotation x y h
  if r.1 then SSD1306_draw_fast_hline_internal buffer r.2.1 r.2.2 h color
  else SSD1306_draw_fast_vline_internal buffer r.2.1 r.2.2 h color

/-! ## Reference loops: a run drawn one pixel at a time -/

/-- The calls `SSD1306_draw_pixel(x + i, y, color)` for `i = 0 .. n-1`, in
order; the arguments are narrowed to the `int16_t` parameters. -/
def draw_pixels_h (rotation : Nat) (color : Nat) : Nat → Buffer → Int → Int → Option Buffer
  | 0, buf, _, _ => some buf
  | n + 1, buf, x, y =>
    (SSD1306_draw_pixel rotation buf (wrap16 x) (wrap16 y) color).bind
      (fun b => draw_pixels_h rotation color n b (x + 1) y)

/-- The calls `SSD1306_draw_pixel(x, y + i, color)` for `i = 0 .. n-1`, in
order; the arguments are narrowed to the `int16_t` parameters. -/
def draw_pixels_v (rotation : Nat) (color : Nat) : Nat → Buffer → Int → Int → Option Buffer
  | 0, buf, _, _ => some buf
  | n + 1, buf, x, y =>
    (SSD1306_draw_pixel rotation buf (wrap16 x) (wrap16 y) color).bind
      (fun b => draw_pixels_v rotation color n b x (y + 1))

/-- Physical pixel `(px, py)` of a buffer: bit `py & 7` of byte
`px + (py / 8) * 128`. -/
def pixelAt (buf : Buffer) (px py : Nat) : Bool :=
  (buf.getD (px + (py / 8) * 128) 0).testBit (py % 8)

/-- Effect of a paint mode on one bit: `SSD1306_WHITE` sets, `SSD1306_BLACK`
clears, `SSD1306_INVERSE` flips; no other value is a mode. -/
def paint (color : Nat) (old : Bool) : Bool :=
  match color with
  | 1 => true
  | 0 => false
  | 2 => !old
  | _ => old

/-! ## Definitions used to state the properties -/

/-- Effect of the full-byte loops on one bit. -/
def paintFull (color : Nat) (old : Bool) : Bool :=
  if color = SSD1306_INVERSE then !old else decide (color ≠ SSD1306_BLACK)

/-- The all-zero buffer, as left by `SSD1306_display_clear`. -/
def zeroBuffer : Buffer := List.replicate 1024 0

/-- Points of the physical run that starts at `(X, Y)` and has length `L`:
downwards when `vertical` (the run of
`SSD1306_draw_fast_vline_internal`), to the right otherwise (the run of
`SSD1306_draw_fast_hline_internal`). -/
def run_covers (vertical : Bool) (X Y L : Int) (px py : Int) : Prop :=
  if vertical then px = X ∧ Y ≤ py ∧ py < Y + L else py = Y ∧ X ≤ px ∧ px < X + L

/-- The point transform as the specification writes it: identity,
`(127 - y, x)`, `(127 - x, 63 - y)` and `(y, 63 - x)` for the orientations
0, 1, 2 and 3. -/
def specTransform (r : Nat) (x y : Int) : Int × Int :=
  if r = 1 then (127 - y, x)
  else if r = 2 then (127 - x, 63 - y)
  else if r = 3 then (y, 63 - x)
  else (x, y)

/-! ## Driver state: `buffer`, `rotation` and the command channel -/

/-- Function `void SSD1306_display_clear(void)`, that is
`memset(buffer, 0, SSD1306_WIDTH * ((SSD1306_HEIGHT + 7) / 8))`: the first 1024
bytes become 0; `none` when the buffer has fewer bytes than `memset` writes. -/
def SSD1306_display_clear (buffer : Buffer) : Option Buffer :=
  if buffer.length < BUFFER_SIZE then none
  else some (List.replicate BUFFER_SIZE 0 ++ buffer.drop BUFFER_SIZE)

/-- The file-scope state of `SSD1306.c`: `static uint8_t * buffer` (`none` is
the null pointer), `static uint8_t rotation`, and the command bytes handed to
`SSD1306_send_com` so far, oldest first. -/
structure Driver where
  /-- The pointer `buffer`; `none` is the null pointer. -/
  buffer : Option Buffer
  /-- The variable `rotation`. -/
  rotation : Nat
  /-- The bytes written by `SSD1306_send_com`. -/
  sent : List Nat
  deriving DecidableEq

/-- State at program start: both statics are zero-initialised and nothing has
been sent. -/
def Driver.initial : Driver := ⟨none, 0, []⟩

/-- Function `static void SSD1306_send_com(uint8_t c)`: one command byte goes
out on the bus. -/
def SSD1306_send_com (s : Driver) (c : Nat) : Driver :=
  { s with sent := s.sent ++ [c % 256] }

/-- Function `void SSD1306_set_rotation(uint8_t rot)`: `rotation = rot;`. -/
def SSD1306_set_rotation (s : Driver) (rot : Nat) : Driver :=
  { s with rotation := rot % 256 }

/-- Function `uint8_t SSD1306_get_rotation(void)`: `return rotation;`. -/
def SSD1306_get_rotation (s : Driver) : Nat := s.rotation

/-- Constant `SSD1306_HORIZONTAL_MODE2` of `SSD1306.h`. -/
abbrev SSD1306_HORIZONTAL_MODE2 : Nat := 2

/-- Constant `SSD1306_EXTERNALVCC` of `SSD1306.h`. -/
abbrev SSD1306_EXTERNALVCC : Nat := 0x01

/-- Constant `SSD1306_SWITCHCAPVCC` of `SSD1306.h`. -/
abbrev SSD1306_SWITCHCAPVCC : Nat := 0x02

/-- The arguments of the `SSD1306_send_com` calls of `SSD1306_init`, in
order, with `vccstate = SSD1306_SWITCHCAPVCC` and `comPins`, `contrast` as the
`if` chain on the display size sets them. -/
def init_commands : List Nat :=
  let vccstate := SSD1306_SWITCHCAPVCC
  let comPins : Nat :=
    if SSD1306_WIDTH = 128 ∧ SSD1306_HEIGHT = 32 then 0x02
    else if SSD1306_WIDTH = 128 ∧ SSD1306_HEIGHT = 64 then 0x12
    else if SSD1306_WIDTH = 96 ∧ SSD1306_HEIGHT = 16 then 0x2
    else 0x02
  let contrast : Nat :=
    if SSD1306_WIDTH = 128 ∧ SSD1306_HEIGHT = 32 then 0x8F
    else if SSD1306_WIDTH = 128 ∧ SSD1306_HEIGHT = 64 then
      (if vccstate = SSD1306_EXTERNALVCC then 0x9F else 0xCF)
    else if SSD1306_WIDTH = 96 ∧ SSD1306_HEIGHT = 16 then
      (if vccstate = SSD1306_EXTERNALVCC then 0x10 else 0xAF)
    else 0x8F
  [ 0xAE,                                   -- SSD1306_DISPLAYOFF
    0xD5,                                   -- SSD1306_SETDISPLAYCLOCKDIV
    0xE0,
    0xA8,                                   -- SSD1306_SETMULTIPLEX
    (SSD1306_HEIGHT - 1).toNat,
    0xD3,                                   -- SSD1306_SETDISPLAYOFFSET
    0x00,
    0x40 ||| 0x00,                          -- SSD1306_SETSTARTLINE | 0x00
    0x8D,                                   -- SSD1306_CHARGEPUMP
    (if vccstate = SSD1306_EXTERNALVCC then 0x10 else 0x14),
    0x20,                                   -- SSD1306_MEMORYMODE
    0x00,
    0xA0 ||| 0x10,                          -- SSD1306_SEGREMAP | 0x10
    0xC8,                                   -- SSD1306_COMSCANDEC
    0xDA,                                   -- SSD1306_SETCOMPINS
    comPins,
    0x81,                                   -- SSD1306_SETCONTRAST
    contrast,
    0xD9,                                   -- SSD1306_SETPRECHARGE
    (if vccstate = SSD1306_EXTERNALVCC then 0x22 else 0xF1),
    0xDB,                                   -- SSD1306_SETVCOMDETECT
    0x40,
    0xA4,                                   -- SSD1306_DISPLAYALLON_RESUME
    0xA6,                                   -- SSD1306_NORMALDISPLAY
    0x2E,                                   -- SSD1306_DEACTIVATE_SCROLL
    0xAF ]                                  -- SSD1306_DISPLAYON

/-- Function `bool SSD1306_init(void)`.  The result of the `malloc` call is
the argument `malloc` (`none` when the allocation fails); it is consulted only
when `buffer` is null.  Returns the result of the function and the state
after it; `none` when `memset` leaves the buffer. -/
def SSD1306_init (s : Driver) (malloc : Option Buffer) : Option (Bool × Driver) :=
  -- if ((!buffer) && !(buffer = malloc(...))) return false;
  let s1 : Driver :=
    match s.buffer with
    | some _ => s
    | none => { s with buffer := malloc }
  match s1.buffer with
  | none => some (false, s1)
  | some b =>
    match SSD1306_display_clear b with
    | none => none
    | some b0 =>
      let s2 : Driver := { s1 with buffer := some b0 }
      let s3 := init_commands.foldl SSD1306_send_com s2
      some (true, SSD1306_set_rotation s3 SSD1306_HORIZONTAL_MODE2)

/-- A buffer operation run on the global `buffer`.  Through a null pointer
no byte can be accessed, so the operation then runs on the empty byte list:
it succeeds exactly when it performs no access. -/
def Driver.withBuffer (s : Driver) (f : Buffer → Option Buffer) : Option Driver :=
  match s.buffer with
  | some b => (f b).map (fun b1 => { s with buffer := some b1 })
  | none => (f []).map (fun _ => s)

/-- Call `SSD1306_draw_pixel(x, y, color)` on the driver state. -/
def Driver.draw_pixel (s : Driver) (x y : Int) (color : Nat) : Option Driver :=
  s.withBuffer (fun b => SSD1306_draw_pixel s.rotation b x y color)

/-- Call `SSD1306_draw_fast_hline(x, y, w, color)` on the driver state. -/
def Driver.draw_fast_hline (s : Driver) (x y w : Int) (color : Nat) : Option Driver :=
  s.withBuffer (fun b => SSD1306_draw_fast_hline s.rotation b x y w color)

/-- Call `SSD1306_draw_fast_vline(x, y, h, color)` on the driver state. -/
def Driver.draw_fast_vline (s : Driver) (x y h : Int) (color : Nat) : Option Driver :=
  s.withBuffer (fun b => SSD1306_draw_fast_vline s.rotation b x y h color)

/-- Call `SSD1306_display_clear()` on the driver state. -/
def Driver.display_clear (s : Driver) : Option Driver :=
  s.withBuffer SSD1306_display_clear

/-- Call `SSD1306_get_pixel(x, y)` on the driver state. -/
def Driver.get_pixel (s : Driver) (x y : Int) : Option Bool :=
  SSD1306_get_pixel s.rotation (s.buffer.getD []) x y

/-- One call of the public interface, with its arguments; `init` carries the
result of its `malloc` call. -/
inductive Call where
  | draw_pixel (x y : Int) (color : Nat)
  | draw_fast_hline (x y w : Int) (color : Nat)
  | draw_fast_vline (x y h : Int) (color : Nat)
  | display_clear
  | get_pixel (x y : Int)
  | set_rotation (rot : Nat)
  | init (malloc : Option Buffer)

/-- The drawing calls: every call except `set_rotation` and `init`. -/
def Call.isDrawing : Call → Bool
  | Call.set_rotation _ => false
  | Call.init _ => false
  | _ => true

/-- State after one call; the arguments are narrowed to the parameter types
(`int16_t` coordinates and lengths, `uint16_t` colour, `uint8_t` rotation).
`none` when the call accesses memory outside the buffer. -/
def step (s : Driver) : Call → Option Driver
  | Call.draw_pixel x y color => s.draw_pixel (wrap16 x) (wrap16 y) (color % 65536)
  | Call.draw_fast_hline x y w color =>
    s.draw_fast_hline (wrap16 x) (wrap16 y) (wrap16 w) (color % 65536)
  | Call.draw_fast_vline x y h color =>
    s.draw_fast_vline (wrap16 x) (wrap16 y) (wrap16 h) (color % 65536)
  | Call.display_clear => s.display_clear
  | Call.get_pixel x y => (s.get_pixel (wrap16 x) (wrap16 y)).map (fun _ => s)
  | Call.set_rotation rot => some (SSD1306_set_rotation s rot)
  | Call.init malloc => (SSD1306_init s malloc).map (fun r => r.2)

/-- State after a sequence of calls, first call first. -/
def run (s : Driver) : List Call → Option Driver
  | [] => some s
  | c :: cs => (step s c).bind (fun s1 => run s1 cs)

/-! ## `GFX_draw_fill_rect` of `Core/Src/GFX.c` -/

/-- The loop `for (int16_t i = x; i < x + w; i++)
SSD1306_draw_fast_vline(i, y, h, color);` with `bound = x + w`, from the
current `i` on.  `fuel` bounds the number of iterations the model follows;
`none` when it is used up (or when a call leaves the buffer). -/
def fill_rect_loop (rotation : Nat) (y h : Int) (color : Nat) (bound : Int) :
    Nat → Int → Buffer → Option Buffer
  | 0, _, _ => none
  | fuel + 1, i, buf =>
    if i < bound then
      (SSD1306_draw_fast_vline rotation buf i y h color).bind
        (fill_rect_loop rotation y h color bound fuel (wrap16 (i + 1)))
    else some buf

/-- Function `void GFX_draw_fill_rect(int16_t x, int16_t y, int16_t w,
int16_t h, uint16_t color)`, followed for at most `fuel` loop tests. -/
def GFX_draw_fill_rect (fuel : Nat) (rotation : Nat) (buffer : Buffer) (x y w h : Int)
    (color : Nat) : Option Buffer :=
  fill_rect_loop rotation y h color (x + w) fuel x buffer

/-- A physical run that reaches the buffer: its fixed coordinate is inside
the display and its clipped length is positive (`vertical` selects
`SSD1306_draw_fast_vline_internal`, with column `X`, else
`SSD1306_draw_fast_hline_internal`, with row `Y`). -/
def run_drawn (vertical : Bool) (X Y L : Int) : Prop :=
  if vertical then 0 ≤ X ∧ X < 128 ∧ 0 < (clip_run 64 Y L).2
  else 0 ≤ Y ∧ Y < 64 ∧ 0 < (clip_run 128 X L).2

instance (vertical : Bool) (X Y L : Int) : Decidable (run_drawn vertical X Y L) := by
  unfold run_drawn; infer_instance

/-! ## `GFX_draw_string` of `Core/Src/GFX.c` -/

/-- The arguments of one `GFX_draw_char(x, y, c, color, bg, size_x, size_y)`
call. -/
structure CharCall where
  /-- Argument `x`. -/
  x : Int
  /-- Argument `y`. -/
  y : Int
  /-- Argument `c`. -/
  c : Nat
  /-- Argument `color`. -/
  color : Nat
  /-- Argument `bg`. -/
  bg : Nat
  /-- Argument `size_x`. -/
  size_x : Nat
  /-- Argument `size_y`. -/
  size_y : Nat
  deriving DecidableEq

/-- The loop `while (*c) { GFX_draw_char(x + offset, y, *c, color, bg, size_x,
size_y); offset += (5 + 2) * size_x; c++; }` of `GFX_draw_string`, on the
bytes from `c` on and the current `uint8_t offset`.  Returns the
`GFX_draw_char` calls made, in order (`x + offset` narrowed to the `int16_t`
parameter); `none` when the bytes end without a NUL. -/
def draw_string_loop (x y : Int) (color bg size_x size_y : Nat) :
    List Nat → Nat → Option (List CharCall)
  | [], _ => none
  | ch :: rest, offset =>
    if ch = 0 then some []
    else
      (draw_string_loop x y color bg size_x size_y rest
          ((offset + (5 + 2) * size_x) % 256)).map
        (fun calls => ⟨wrap16 (x + offset), y, ch, color, bg, size_x, size_y⟩ :: calls)

/-- Function `void GFX_draw_string(int16_t x, int16_t y, unsigned char * c,
uint16_t color, uint16_t bg, uint8_t size_x, uint8_t size_y)`, as the list of
the `GFX_draw_char` calls it makes (`uint8_t offset = 0`). -/
def GFX_draw_string (x y : Int) (c : List Nat) (color bg size_x size_y : Nat) :
    Option (List CharCall) :=
  draw_string_loop x y color bg size_x size_y c 0

/-! ## The buffer inside the memory of the target -/

/-- The driver state together with the memory around the allocated block.
The target has one flat address space: for an index `i` that is no index of
the block, `buffer[i]` is the byte `outside i` of the surrounding memory, read
and written like any other byte.  The variables `buffer` and `rotation` are
the fields of `driver`; they are kept apart from the bytes of `outside`, the
placement of the variables in memory being no part of the source. -/
structure Machine where
  /-- The file-scope variables of `SSD1306.c`. -/
  driver : Driver
  /-- The bytes that `buffer[i]` addresses outside the allocated block. -/
  outside : Int → Nat

/-- Read of `buffer[i]`: the byte of the block when `i` is one of its
indices, the byte of the surrounding memory otherwise; `none` through a null
pointer. -/
def Machine.load (m : Machine) (i : Int) : Option Nat :=
  match m.driver.buffer with
  | none => none
  | some b =>
    match loadByte b i with
    | some v => some v
    | none => some (m.outside i)

/-- Read-modify-write of `buffer[i]`, the stored value truncated to
`uint8_t`: in the block when `i` is one of its indices, in the surrounding
memory otherwise; `none` through a null pointer. -/
def Machine.modify (m : Machine) (i : Int) (f : Nat → Nat) : Option Machine :=
  match m.driver.buffer with
  | none => none
  | some b =>
    match modifyByte b i f with
    | some b1 => some { m with driver := { m.driver with buffer := some b1 } }
    | none =>
      some { m with outside := fun j => if j = i then f (m.outside i) % 256 else m.outside j }

/-- The colour `switch` of `SSD1306_draw_pixel` at index `p` (see
`switch_color`). -/
def Machine.switch_color (m : Machine) (color : Nat) (p : Int) (mask : Nat) : Option Machine :=
  match color with
  | 1 => m.modify p (fun b => b ||| mask)
  | 0 => m.modify p (fun b => b &&& (255 ^^^ mask))
  | 2 => m.modify p (fun b => b ^^^ mask)
  | _ => some m

/-- Function `void SSD1306_draw_pixel(int16_t x, int16_t y, uint16_t color)`
on the memory of the target. -/
def Machine.draw_pixel (m : Machine) (x y : Int) (color : Nat) : Option Machine :=
  if 0 ≤ x ∧ x < SSD1306_WIDTH ∧ 0 ≤ y ∧ y < SSD1306_HEIGHT then
    let p := rotate_point m.driver.rotation x y
    m.switch_color color (byteIndex p.1 p.2) (bitMask p.2)
  else
    some m

/-- Function `bool SSD1306_get_pixel(int16_t x, int16_t y)` on the memory of
the target. -/
def Machine.get_pixel (m : Machine) (x y : Int) : Option Bool :=
  if 0 ≤ x ∧ x < SSD1306_WIDTH ∧ 0 ≤ y ∧ y < SSD1306_HEIGHT then
    let p := rotate_point m.driver.rotation x y
    match m.load (byteIndex p.1 p.2) with
    | some b => some (b &&& bitMask p.2 != 0)
    | none => none
  else
    some false

/-- The state of the target after a call that was followed on the driver
state: the memory outside the block is as before. -/
def Machine.onDriver (m : Machine) (r : Option Driver) : Option Machine :=
  r.map (fun d => { m with driver := d })

/-- State of the target after one call, the arguments narrowed to the
parameter types.  Single pixels are accessed wherever the index expression
points; the run primitives and `memset` are followed inside the block, which
they do not leave (`none` if they did). -/
def Machine.step (m : Machine) : Call → Option Machine
  | Call.draw_pixel x y color => m.draw_pixel (wrap16 x) (wrap16 y) (color % 65536)
  | Call.draw_fast_hline x y w color =>
    m.onDriver (m.driver.draw_fast_hline (wrap16 x) (wrap16 y) (wrap16 w) (color % 65536))
  | Call.draw_fast_vline x y h color =>
    m.onDriver (m.driver.draw_fast_vline (wrap16 x) (wrap16 y) (wrap16 h) (color % 65536))
  | Call.display_clear => m.onDriver m.driver.display_clear
  | Call.get_pixel x y => (m.get_pixel (wrap16 x) (wrap16 y)).map (fun _ => m)
  | Call.set_rotation rot => some { m with driver := SSD1306_set_rotation m.driver rot }
  | Call.init malloc => m.onDriver ((SSD1306_init m.driver malloc).map (fun r => r.2))

/-- State of the target after a sequence of calls, first call first. -/
def Machine.run (m : Machine) : List Call → Option Machine
  | [] => some m
  | c :: cs => (m.step c).bind (fun m1 => m1.run cs)

/-! # Properties -/

/-! ## Machine arithmetic -/

theorem wrap16_of_isInt16 {v : Int} (h : IsInt16 v) : wrap16 v = v := by
  unfold IsInt16 at h
  unfold wrap16
  omega

theorem isInt16_wrap16 (v : Int) : IsInt16 (wrap16 v) := by
  unfold IsInt16 wrap16
  omega

/-! ## Single byte accesses -/

theorem loadByte_of_lt {buf : Buffer} {i : Int} (h0 : 0 ≤ i) (h1 : i.toNat < buf.length) :
    loadByte buf i = some (buf.getD i.toNat 0) := by
  unfold loadByte
  rw [if_neg (by omega), List.getD_eq_getElem?_getD, List.getElem?_eq_getElem h1]
  rfl

theorem modifyByte_of_lt {buf : Buffer} {i : Int} (f : Nat → Nat) (h0 : 0 ≤ i)
    (h1 : i.toNat < buf.length) :
    modifyByte buf i f = some (buf.set i.toNat (f (buf.getD i.toNat 0) % 256)) := by
  unfold modifyByte
  rw [loadByte_of_lt h0 h1]

theorem isBuffer_set {buf : Buffer} (hb : IsBuffer buf) (k v : Nat) (hv : v < 256) :
    IsBuffer (buf.set k v) := by
  refine ⟨by rw [List.length_set]; exact hb.1, ?_⟩
  intro b hmem
  rcases List.mem_or_eq_of_mem_set hmem with h | h
  · exact hb.2 b h
  · omega

theorem getD_set (buf : Buffer) (k v j : Nat) (hk : k < buf.length) :
    (buf.set k v).getD j 0 = if j = k then v else buf.getD j 0 := by
  rw [List.getD_eq_getElem?_getD, List.getD_eq_getElem?_getD, List.getElem?_set]
  by_cases h : k = j
  · subst h
    simp [hk]
  · have h2 : ¬ j = k := fun e => h e.symm
    simp [h, h2]

theorem getD_lt_of_isBuffer {buf : Buffer} (hb : IsBuffer buf) (k : Nat) :
    buf.getD k 0 < 256 := by
  rw [List.getD_eq_getElem?_getD]
  by_cases h : k < buf.length
  · rw [List.getElem?_eq_getElem h]
    exact hb.2 _ (List.getElem_mem h)
  · rw [List.getElem?_eq_none (by omega)]
    decide

/-- Two buffers with the same pixels are the same buffer. -/
theorem buffer_ext {a b : Buffer} (ha : IsBuffer a) (hb : IsBuffer b)
    (h : ∀ px py, px < 128 → py < 64 → pixelAt a px py = pixelAt b px py) : a = b := by
  apply List.ext_getElem (by rw [ha.1, hb.1])
  intro k hk1 hk2
  have hlen : k < 1024 := by have := ha.1; unfold BUFFER_SIZE at this; omega
  have e1 : a[k] = a.getD k 0 := by
    rw [List.getD_eq_getElem?_getD, List.getElem?_eq_getElem hk1]; rfl
  have e2 : b[k] = b.getD k 0 := by
    rw [List.getD_eq_getElem?_getD, List.getElem?_eq_getElem hk2]; rfl
  rw [e1, e2]
  apply Nat.eq_of_testBit_eq
  intro j
  by_cases hj : j < 8
  · have := h (k % 128) (8 * (k / 128) + j) (by omega) (by omega)
    unfold pixelAt at this
    have i1 : k % 128 + (8 * (k / 128) + j) / 8 * 128 = k := by omega
    have i2 : (8 * (k / 128) + j) % 8 = j := by omega
    rw [i1, i2] at this
    exact this
  · have p : (256 : Nat) ≤ 2 ^ j := by
      have : (2 : Nat) ^ 8 ≤ 2 ^ j := Nat.pow_le_pow_right (by decide) (by omega)
      simpa using this
    rw [Nat.testBit_lt_two_pow (Nat.lt_of_lt_of_le (getD_lt_of_isBuffer ha k) p),
      Nat.testBit_lt_two_pow (Nat.lt_of_lt_of_le (getD_lt_of_isBuffer hb k) p)]

/-- Pixels after a read-modify-write of the byte of column `x` in page `q`. -/
theorem modifyByte_spec {buf : Buffer} (hb : IsBuffer buf) (f : Nat → Nat) {x q : Nat}
    (hx : x < 128) (hq : q < 8) {p : Int} (hp : p = (x : Int) + (q : Int) * 128) :
    ∃ buf', modifyByte buf p f = some buf' ∧ IsBuffer buf' ∧
      ∀ px py, px < 128 → pixelAt buf' px py =
        if px = x ∧ py / 8 = q then (f (buf.getD (x + q * 128) 0) % 256).testBit (py % 8)
        else pixelAt buf px py := by
  have hlen : buf.length = 1024 := hb.1
  have hpn : p.toNat = x + q * 128 := by omega
  refine ⟨_, modifyByte_of_lt f (by omega) (by omega), isBuffer_set hb _ _ (Nat.mod_lt _ (by decide)), ?_⟩
  intro px py hpx
  unfold pixelAt
  rw [getD_set _ _ _ _ (by omega), hpn]
  by_cases hc : px = x ∧ py / 8 = q
  · rw [if_pos hc, if_pos (by omega)]
  · rw [if_neg hc, if_neg (by omega)]

/-! ## Bits of the byte operations -/

theorem testBit_or_byte (b m j : Nat) (hj : j < 8) :
    ((b ||| m) % 256).testBit j = (b.testBit j || m.testBit j) := by
  rw [show (256 : Nat) = 2 ^ 8 from rfl, Nat.testBit_mod_two_pow, Nat.testBit_lor]
  simp [hj]

theorem testBit_andNot_byte (b m j : Nat) (hj : j < 8) :
    ((b &&& (255 ^^^ m)) % 256).testBit j = (b.testBit j && !m.testBit j) := by
  rw [show (256 : Nat) = 2 ^ 8 from rfl, Nat.testBit_mod_two_pow, Nat.testBit_land,
    Nat.testBit_xor, show (255 : Nat) = 2 ^ 8 - 1 from rfl, Nat.testBit_two_pow_sub_one]
  simp [hj]

theorem testBit_xor_byte (b m j : Nat) (hj : j < 8) :
    ((b ^^^ m) % 256).testBit j = (b.testBit j ^^ m.testBit j) := by
  rw [show (256 : Nat) = 2 ^ 8 from rfl, Nat.testBit_mod_two_pow, Nat.testBit_xor]
  simp [hj]

theorem testBit_bitMask (y : Int) (j : Nat) :
    (bitMask y).testBit j = decide ((y % 8).toNat = j) := by
  unfold bitMask
  rw [Nat.one_shiftLeft, Nat.testBit_two_pow]

/-- Pixels after the colour `switch` applied with `mask` to the byte of column
`x` in page `q`. -/
theorem switch_color_spec {buf : Buffer} (hb : IsBuffer buf) (color mask : Nat) {x q : Nat}
    (hx : x < 128) (hq : q < 8) {p : Int} (hp : p = (x : Int) + (q : Int) * 128) :
    ∃ buf', switch_color color buf p mask = some buf' ∧ IsBuffer buf' ∧
      ∀ px py, px < 128 → pixelAt buf' px py =
        if px = x ∧ py / 8 = q ∧ mask.testBit (py % 8) = true then
          paint color (pixelAt buf px py)
        else pixelAt buf px py := by
  have key : ∀ f : Nat → Nat,
      (∀ b j, j < 8 → (f b % 256).testBit j =
        if mask.testBit j = true then paint color (b.testBit j) else b.testBit j) →
      ∃ buf', modifyByte buf p f = some buf' ∧ IsBuffer buf' ∧
      ∀ px py, px < 128 → pixelAt buf' px py =
        if px = x ∧ py / 8 = q ∧ mask.testBit (py % 8) = true then
          paint color (pixelAt buf px py)
        else pixelAt buf px py := by
    intro f hf
    obtain ⟨buf', h1, h2, h3⟩ := modifyByte_spec hb f hx hq hp
    refine ⟨buf', h1, h2, ?_⟩
    intro px py hpx
    rw [h3 px py hpx]
    by_cases hc : px = x ∧ py / 8 = q
    · rw [if_pos hc, hf _ _ (Nat.mod_lt _ (by decide))]
      obtain ⟨hc1, hc2⟩ := hc
      have e : pixelAt buf px py = (buf.getD (x + q * 128) 0).testBit (py % 8) := by
        unfold pixelAt; rw [hc1, hc2]
      rw [e]
      by_cases hm : mask.testBit (py % 8) = true
      · rw [if_pos hm, if_pos ⟨hc1, hc2, hm⟩]
      · rw [if_neg hm, if_neg (fun h => hm h.2.2)]
    · rw [if_neg hc, if_neg (fun h => hc ⟨h.1, h.2.1⟩)]
  match color with
  | 0 =>
    refine key _ ?_
    intro b j hj
    rw [testBit_andNot_byte b mask j hj]
    cases mask.testBit j <;> simp [paint]
  | 1 =>
    refine key _ ?_
    intro b j hj
    rw [testBit_or_byte b mask j hj]
    cases mask.testBit j <;> simp [paint]
  | 2 =>
    refine key _ ?_
    intro b j hj
    rw [testBit_xor_byte b mask j hj]
    cases mask.testBit j <;> simp [paint]
  | n + 3 =>
    refine ⟨buf, rfl, hb, ?_⟩
    intro px py _
    simp [paint]

/-- Effect of `SSD1306_draw_pixel` on the pixels whenever the rotated point
lies inside the physical display. -/
theorem draw_pixel_spec {buf : Buffer} (hb : IsBuffer buf) (rotation color : Nat) {x y : Int}
    (hx0 : 0 ≤ x) (hx1 : x < 128) (hy0 : 0 ≤ y) (hy1 : y < 64)
    (hX0 : 0 ≤ (rotate_point rotation x y).1) (hX1 : (rotate_point rotation x y).1 < 128)
    (hY0 : 0 ≤ (rotate_point rotation x y).2) (hY1 : (rotate_point rotation x y).2 < 64) :
    ∃ buf', SSD1306_draw_pixel rotation buf x y color = some buf' ∧ IsBuffer buf' ∧
      ∀ px py, px < 128 → py < 64 → pixelAt buf' px py =
        if (px : Int) = (rotate_point rotation x y).1 ∧ (py : Int) = (rotate_point rotation x y).2
        then paint color (pixelAt buf px py) else pixelAt buf px py := by
  generalize hP : rotate_point rotation x y = P at hX0 hX1 hY0 hY1
  obtain ⟨X, Y⟩ := P
  simp only at hX0 hX1 hY0 hY1
  have hidx : byteIndex X Y = ((X.toNat : Nat) : Int) + (((Y.toNat / 8 : Nat)) : Int) * 128 := by
    unfold byteIndex
    rw [Int.tdiv_eq_ediv hY0 (by decide)]
    simp only [SSD1306_WIDTH]
    omega
  obtain ⟨buf', h1, h2, h3⟩ := switch_color_spec hb color (bitMask Y)
    (x := X.toNat) (q := Y.toNat / 8) (by omega) (by omega) hidx
  refine ⟨buf', ?_, h2, ?_⟩
  · unfold SSD1306_draw_pixel
    rw [if_pos ⟨hx0, hx1, hy0, hy1⟩, hP]
    exact h1
  · intro px py hpx hpy
    rw [h3 px py hpx, testBit_bitMask]
    simp only [decide_eq_true_eq]
    by_cases hc : (px : Int) = X ∧ (py : Int) = Y
    · rw [if_pos hc, if_pos (by omega)]
    · rw [if_neg hc, if_neg (by omega)]

theorem land_two_pow_ne_zero (b k : Nat) : (b &&& 2 ^ k != 0) = b.testBit k := by
  cases hb : b.testBit k
  · have hz : b &&& 2 ^ k = 0 := by
      apply Nat.eq_of_testBit_eq
      intro i
      rw [Nat.testBit_land, Nat.testBit_two_pow, Nat.zero_testBit]
      by_cases c : k = i
      · subst c
        simp [hb]
      · simp [c]
    rw [hz]
    rfl
  · have hne : b &&& 2 ^ k ≠ 0 := by
      intro hz
      have h1 : (b &&& 2 ^ k).testBit k = true := by
        rw [Nat.testBit_land, Nat.testBit_two_pow, hb]
        simp
      rw [hz, Nat.zero_testBit] at h1
      exact Bool.noConfusion h1
    simp [hne]

/-- Value read by `SSD1306_get_pixel` whenever the rotated point lies inside
the physical display. -/
theorem get_pixel_spec {buf : Buffer} (hb : IsBuffer buf) (rotation : Nat) {x y : Int}
    (hx0 : 0 ≤ x) (hx1 : x < 128) (hy0 : 0 ≤ y) (hy1 : y < 64)
    (hX0 : 0 ≤ (rotate_point rotation x y).1) (hX1 : (rotate_point rotation x y).1 < 128)
    (hY0 : 0 ≤ (rotate_point rotation x y).2) (hY1 : (rotate_point rotation x y).2 < 64) :
    SSD1306_get_pixel rotation buf x y =
      some (pixelAt buf (rotate_point rotation x y).1.toNat
        (rotate_point rotation x y).2.toNat) := by
  generalize hP : rotate_point rotation x y = P at hX0 hX1 hY0 hY1
  obtain ⟨X, Y⟩ := P
  simp only at hX0 hX1 hY0 hY1 ⊢
  have hlen : buf.length = 1024 := hb.1
  have hidx : byteIndex X Y = ((X.toNat + Y.toNat / 8 * 128 : Nat) : Int) := by
    unfold byteIndex
    rw [Int.tdiv_eq_ediv hY0 (by decide)]
    simp only [SSD1306_WIDTH]
    omega
  have hload : loadByte buf (byteIndex X Y) = some (buf.getD (X.toNat + Y.toNat / 8 * 128) 0) := by
    rw [hidx]
    have := @loadByte_of_lt buf ((X.toNat + Y.toNat / 8 * 128 : Nat) : Int)
      (by omega) (by rw [Int.toNat_ofNat]; omega)
    rw [Int.toNat_ofNat] at this
    exact this
  unfold SSD1306_get_pixel
  rw [if_pos ⟨hx0, hx1, hy0, hy1⟩, hP]
  simp only [hload]
  unfold pixelAt bitMask
  rw [Nat.one_shiftLeft, land_two_pow_ne_zero]
  have e : (Y % 8).toNat = Y.toNat % 8 := by omega
  rw [e]

/-- Whenever the rotated point lies inside the physical display,
`SSD1306_get_pixel` after `SSD1306_draw_pixel` at the same point reads the
painted value of the pixel. -/
theorem get_pixel_draw_pixel {buf : Buffer} (hb : IsBuffer buf) (rotation color : Nat)
    {x y : Int} (hx0 : 0 ≤ x) (hx1 : x < 128) (hy0 : 0 ≤ y) (hy1 : y < 64)
    (hX0 : 0 ≤ (rotate_point rotation x y).1) (hX1 : (rotate_point rotation x y).1 < 128)
    (hY0 : 0 ≤ (rotate_point rotation x y).2) (hY1 : (rotate_point rotation x y).2 < 64) :
    ∃ old buf', SSD1306_get_pixel rotation buf x y = some old ∧
      SSD1306_draw_pixel rotation buf x y color = some buf' ∧ IsBuffer buf' ∧
      SSD1306_get_pixel rotation buf' x y = some (paint color old) := by
  obtain ⟨b1, e1, hb1, s1⟩ := draw_pixel_spec hb rotation color hx0 hx1 hy0 hy1 hX0 hX1 hY0 hY1
  refine ⟨_, b1, get_pixel_spec hb rotation hx0 hx1 hy0 hy1 hX0 hX1 hY0 hY1, e1, hb1, ?_⟩
  rw [get_pixel_spec hb1 rotation hx0 hx1 hy0 hy1 hX0 hX1 hY0 hY1,
    s1 _ _ (by omega) (by omega), if_pos (by omega)]

/-! ## Horizontal physical run -/

/-- Pixels after the `while (w--)` loop over `w` bytes of page `q` starting at
column `x`, for a byte operation `f` that acts as `g` on bit `k` only. -/
theorem hline_loop_spec (f : Nat → Nat) (g : Bool → Bool) (k : Nat)
    (hf : ∀ b j, j < 8 → (f b % 256).testBit j = if j = k then g (b.testBit j) else b.testBit j)
    (q : Nat) (hq : q < 8) (w : Nat) :
    ∀ (buf : Buffer) (x : Nat) (p : Int), IsBuffer buf → x + w ≤ 128 →
      p = (q : Int) * 128 + (x : Int) →
      ∃ buf', hline_loop f w p buf = some buf' ∧ IsBuffer buf' ∧
        ∀ px py, px < 128 → pixelAt buf' px py =
          if py / 8 = q ∧ py % 8 = k ∧ x ≤ px ∧ px < x + w then g (pixelAt buf px py)
          else pixelAt buf px py := by
  induction w with
  | zero =>
    intro buf x p hb _ _
    refine ⟨buf, rfl, hb, ?_⟩
    intro px py _
    rw [if_neg (by omega)]
  | succ w ih =>
    intro buf x p hb hw hp
    obtain ⟨b1, e1, hb1, s1⟩ := modifyByte_spec hb f (x := x) (q := q) (by omega) hq
      (p := p) (by omega)
    obtain ⟨b2, e2, hb2, s2⟩ := ih b1 (x + 1) (p + 1) hb1 (by omega) (by omega)
    refine ⟨b2, ?_, hb2, ?_⟩
    · show (modifyByte buf p f).bind (hline_loop f w (p + 1)) = some b2
      rw [e1]
      exact e2
    · intro px py hpx
      rw [s2 px py hpx, s1 px py hpx]
      have hpix : px = x → py / 8 = q →
          pixelAt buf px py = (buf.getD (x + q * 128) 0).testBit (py % 8) := by
        intro a b
        unfold pixelAt
        rw [a, b]
      by_cases c1 : px = x ∧ py / 8 = q
      · rw [if_pos c1, hf _ _ (Nat.mod_lt _ (by decide)), ← hpix c1.1 c1.2,
          if_neg (by omega)]
        by_cases c2 : py % 8 = k
        · rw [if_pos c2, if_pos (by omega)]
        · rw [if_neg c2, if_neg (by omega)]
      · rw [if_neg c1]
        by_cases c3 : py / 8 = q ∧ py % 8 = k ∧ x + 1 ≤ px ∧ px < x + 1 + w
        · rw [if_pos c3, if_pos (by omega)]
        · rw [if_neg c3, if_neg (by omega)]

theorem bitMask_mod (y : Int) (hy0 : 0 ≤ y) : bitMask y % 256 = 2 ^ (y.toNat % 8) := by
  unfold bitMask
  rw [Nat.one_shiftLeft]
  have e : (y % 8).toNat = y.toNat % 8 := by omega
  rw [e]
  have h8 : y.toNat % 8 < 8 := Nat.mod_lt _ (by decide)
  have : (2 : Nat) ^ (y.toNat % 8) < 2 ^ 8 := Nat.pow_lt_pow_right (by decide) h8
  exact Nat.mod_eq_of_lt (by simpa using this)

/-- After clipping, a run that is drawn at all lies inside `[0, limit)`. -/
theorem clip_run_range (limit : Int) {s : Int} (n : Int) (hl0 : 0 ≤ limit) (hl1 : limit ≤ 32767)
    (hs : IsInt16 s) :
    0 ≤ (clip_run limit s n).1 ∧
      (0 < (clip_run limit s n).2 →
        (clip_run limit s n).1 + (clip_run limit s n).2 ≤ limit) := by
  unfold IsInt16 at hs
  unfold clip_run
  simp only
  constructor
  · split_ifs <;> omega
  · by_cases c : s < 0
    · simp only [if_pos c]
      by_cases c2 : 0 + wrap16 (n + s) > limit
      · rw [if_pos c2, wrap16_of_isInt16 (by unfold IsInt16; omega)]
        omega
      · rw [if_neg c2]
        omega
    · simp only [if_neg c]
      by_cases c2 : s + n > limit
      · rw [if_pos c2, wrap16_of_isInt16 (by unfold IsInt16; omega)]
        omega
      · rw [if_neg c2]
        omega

/-- For a non-negative length, clipping keeps exactly the points of the run
that lie inside `[0, limit)`. -/
theorem clip_run_nonneg (limit : Int) {s n : Int} (hl0 : 0 ≤ limit) (hl1 : limit ≤ 32767)
    (hs : IsInt16 s) (hn0 : 0 ≤ n) (hn : IsInt16 n) (p : Int) (hp0 : 0 ≤ p) (hp1 : p < limit) :
    ((clip_run limit s n).1 ≤ p ∧ p < (clip_run limit s n).1 + (clip_run limit s n).2) ↔
      (s ≤ p ∧ p < s + n) := by
  unfold IsInt16 at hs hn
  unfold clip_run
  simp only
  by_cases c : s < 0
  · simp only [if_pos c]
    rw [wrap16_of_isInt16 (v := n + s) (by unfold IsInt16; omega)]
    by_cases c2 : 0 + (n + s) > limit
    · rw [if_pos c2, wrap16_of_isInt16 (by unfold IsInt16; omega)]
      omega
    · rw [if_neg c2]
      omega
  · simp only [if_neg c]
    by_cases c2 : s + n > limit
    · rw [if_pos c2, wrap16_of_isInt16 (by unfold IsInt16; omega)]
      omega
    · rw [if_neg c2]

/-- Pixels after `SSD1306_draw_fast_hline_internal`, for all `int16_t`
arguments and any colour value: the clipped run of row `y` is painted. -/
theorem hline_internal_spec {buf : Buffer} (hb : IsBuffer buf) (color : Nat) {x : Int} (y w : Int)
    (hx : IsInt16 x) :
    ∃ buf', SSD1306_draw_fast_hline_internal buf x y w color = some buf' ∧ IsBuffer buf' ∧
      ∀ px py, px < 128 → py < 64 → pixelAt buf' px py =
        if (py : Int) = y ∧ (clip_run 128 x w).1 ≤ (px : Int) ∧
            (px : Int) < (clip_run 128 x w).1 + (clip_run 128 x w).2 then
          paint color (pixelAt buf px py)
        else pixelAt buf px py := by
  obtain ⟨hr0, hr1⟩ := clip_run_range 128 w (by decide) (by decide) hx
  obtain ⟨x1, w2, hc⟩ : ∃ x1 w2, clip_run 128 x w = (x1, w2) := ⟨_, _, rfl⟩
  rw [hc] at hr0 hr1
  rw [hc]
  simp only at hr0 hr1 ⊢
  by_cases hy : 0 ≤ y ∧ y < SSD1306_HEIGHT
  swap
  · refine ⟨buf, ?_, hb, ?_⟩
    · unfold SSD1306_draw_fast_hline_internal
      rw [if_neg hy]
    · intro px py _ hpy
      simp only [SSD1306_HEIGHT] at hy
      rw [if_neg (by omega)]
  obtain ⟨hy0, hy1⟩ := hy
  have hdef : SSD1306_draw_fast_hline_internal buf x y w color =
      if w2 > 0 then
        (match color with
        | 1 => hline_loop (fun b => b ||| (bitMask y % 256)) w2.toNat
                (Int.tdiv y 8 * SSD1306_WIDTH + x1) buf
        | 0 => hline_loop (fun b => b &&& (255 ^^^ (bitMask y % 256))) w2.toNat
                (Int.tdiv y 8 * SSD1306_WIDTH + x1) buf
        | 2 => hline_loop (fun b => b ^^^ (bitMask y % 256)) w2.toNat
                (Int.tdiv y 8 * SSD1306_WIDTH + x1) buf
        | _ => some buf)
      else some buf := by
    unfold SSD1306_draw_fast_hline_internal
    rw [if_pos ⟨hy0, hy1⟩]
    simp only [hc]
  simp only [SSD1306_HEIGHT] at hy1
  rw [hdef]
  by_cases hpos : w2 > 0
  · rw [if_pos hpos]
    have hxw : x1.toNat + w2.toNat ≤ 128 := by have := hr1 hpos; omega
    have hp : Int.tdiv y 8 * SSD1306_WIDTH + x1 =
        ((y.toNat / 8 : Nat) : Int) * 128 + ((x1.toNat : Nat) : Int) := by
      rw [Int.tdiv_eq_ediv hy0 (by decide)]
      simp only [SSD1306_WIDTH]
      omega
    have hrange : ∀ px py : Nat, ((py / 8 = y.toNat / 8 ∧ py % 8 = y.toNat % 8 ∧
        x1.toNat ≤ px ∧ px < x1.toNat + w2.toNat) ↔
        ((py : Int) = y ∧ x1 ≤ (px : Int) ∧ (px : Int) < x1 + w2)) := by
      intro px py
      omega
    have key : ∀ f : Nat → Nat,
        (∀ b j, j < 8 → (f b % 256).testBit j =
          if j = y.toNat % 8 then paint color (b.testBit j) else b.testBit j) →
        ∃ buf', hline_loop f w2.toNat (Int.tdiv y 8 * SSD1306_WIDTH + x1) buf = some buf' ∧
          IsBuffer buf' ∧ ∀ px py, px < 128 → py < 64 → pixelAt buf' px py =
            if (py : Int) = y ∧ x1 ≤ (px : Int) ∧ (px : Int) < x1 + w2 then
              paint color (pixelAt buf px py)
            else pixelAt buf px py := by
      intro f hf
      obtain ⟨b1, e1, hb1, s1⟩ := hline_loop_spec f (paint color) (y.toNat % 8) hf
        (y.toNat / 8) (by omega) w2.toNat buf x1.toNat _ hb hxw hp
      refine ⟨b1, e1, hb1, ?_⟩
      intro px py hpx _
      rw [s1 px py hpx]
      by_cases c : (py : Int) = y ∧ x1 ≤ (px : Int) ∧ (px : Int) < x1 + w2
      · rw [if_pos c, if_pos ((hrange px py).2 c)]
      · rw [if_neg c, if_neg (fun h => c ((hrange px py).1 h))]
    have hm := bitMask_mod y hy0
    match color with
    | 0 =>
      refine key _ ?_
      intro b j hj
      show ((b &&& (255 ^^^ (bitMask y % 256))) % 256).testBit j = _
      rw [testBit_andNot_byte b _ j hj, hm, Nat.testBit_two_pow]
      by_cases c : y.toNat % 8 = j
      · simp [c, paint]
      · have c' : ¬ j = y.toNat % 8 := fun e => c e.symm
        simp [c, c']
    | 1 =>
      refine key _ ?_
      intro b j hj
      show ((b ||| (bitMask y % 256)) % 256).testBit j = _
      rw [testBit_or_byte b _ j hj, hm, Nat.testBit_two_pow]
      by_cases c : y.toNat % 8 = j
      · simp [c, paint]
      · have c' : ¬ j = y.toNat % 8 := fun e => c e.symm
        simp [c, c']
    | 2 =>
      refine key _ ?_
      intro b j hj
      show ((b ^^^ (bitMask y % 256)) % 256).testBit j = _
      rw [testBit_xor_byte b _ j hj, hm, Nat.testBit_two_pow]
      by_cases c : y.toNat % 8 = j
      · simp [c, paint]
      · have c' : ¬ j = y.toNat % 8 := fun e => c e.symm
        simp [c, c']
    | n + 3 =>
      refine ⟨buf, rfl, hb, ?_⟩
      intro px py _ _
      simp [paint]
  · rw [if_neg hpos]
    refine ⟨buf, rfl, hb, ?_⟩
    intro px py hpx _
    rw [if_neg]
    omega

/-! ## Vertical physical run -/

theorem paintFull_eq_paint {color : Nat} (hc : color = 0 ∨ color = 1 ∨ color = 2) (old : Bool) :
    paintFull color old = paint color old := by
  rcases hc with h | h | h <;> subst h <;> simp [paintFull, paint]

theorem testBit_fullByteOp (color b j : Nat) (hj : j < 8) :
    (fullByteOp color b % 256).testBit j = paintFull color (b.testBit j) := by
  unfold fullByteOp paintFull
  by_cases c : color = SSD1306_INVERSE
  · rw [if_pos c, if_pos c]
    show ((b ^^^ 255) % 256).testBit j = _
    rw [testBit_xor_byte b 255 j hj, show (255 : Nat) = 2 ^ 8 - 1 from rfl,
      Nat.testBit_two_pow_sub_one]
    simp [hj]
  · rw [if_neg c, if_neg c]
    by_cases c0 : color ≠ SSD1306_BLACK
    · simp only [if_pos c0]
      rw [show (255 : Nat) % 256 = 2 ^ 8 - 1 from rfl, Nat.testBit_two_pow_sub_one]
      simp [hj, c0]
    · simp only [if_neg c0]
      simp [c0]

theorem premask_testBit : ∀ m, m < 8 → ∀ j, j < 8 →
    (premask.getD m 0).testBit j = decide (8 - m ≤ j) := by
  decide

theorem postmask_testBit : ∀ m, m < 8 → ∀ j, j < 8 →
    (postmask.getD m 0).testBit j = decide (j < m) := by
  decide

theorem testBit_255_shiftRight (s j : Nat) : ((0xFF : Nat) >>> s).testBit j = decide (s + j < 8) := by
  rw [Nat.testBit_shiftRight, show (0xFF : Nat) = 2 ^ 8 - 1 from rfl, Nat.testBit_two_pow_sub_one]

theorem vline_full_loop_lt (f : Nat → Nat) (h : Nat) (hh : h < 8) (p : Int) (buf : Buffer) :
    vline_full_loop f h p buf = some (buf, p, h) := by
  interval_cases h <;> rfl

theorem vline_full_loop_add (f : Nat → Nat) (h : Nat) (p : Int) (buf : Buffer) :
    vline_full_loop f (h + 8) p buf =
      (modifyByte buf p f).bind (vline_full_loop f h (p + SSD1306_WIDTH)) := rfl

/-- Pixels after the full-byte loop started at page `q` of column `x` with
`r + 8 * n` rows to go. -/
theorem vline_full_loop_spec (f : Nat → Nat) (g : Bool → Bool)
    (hf : ∀ b j, j < 8 → (f b % 256).testBit j = g (b.testBit j))
    (x : Nat) (hx : x < 128) (r : Nat) (hr : r < 8) (n : Nat) :
    ∀ (buf : Buffer) (q : Nat) (p : Int), IsBuffer buf → q + n ≤ 8 →
      p = (q : Int) * 128 + (x : Int) →
      ∃ buf', vline_full_loop f (r + 8 * n) p buf = some (buf', p + 128 * (n : Int), r) ∧
        IsBuffer buf' ∧
        ∀ px py, px < 128 → pixelAt buf' px py =
          if px = x ∧ 8 * q ≤ py ∧ py < 8 * q + 8 * n then g (pixelAt buf px py)
          else pixelAt buf px py := by
  induction n with
  | zero =>
    intro buf q p hb _ _
    refine ⟨buf, ?_, hb, ?_⟩
    · rw [vline_full_loop_lt f _ (by omega)]
      simp
    · intro px py _
      rw [if_neg (by omega)]
  | succ n ih =>
    intro buf q p hb hq hp
    obtain ⟨b1, e1, hb1, s1⟩ := modifyByte_spec hb f (x := x) (q := q) hx (by omega)
      (p := p) (by omega)
    obtain ⟨b2, e2, hb2, s2⟩ := ih b1 (q + 1) (p + 128) hb1 (by omega)
      (by push_cast; omega)
    refine ⟨b2, ?_, hb2, ?_⟩
    · rw [show r + 8 * (n + 1) = (r + 8 * n) + 8 by omega, vline_full_loop_add, e1]
      show vline_full_loop f (r + 8 * n) (p + 128) b1 = _
      have e3 : p + 128 + 128 * (n : Int) = p + 128 * ((n + 1 : Nat) : Int) := by
        push_cast; omega
      rw [e2, e3]
    · intro px py hpx
      rw [s2 px py hpx, s1 px py hpx]
      by_cases c1 : px = x ∧ py / 8 = q
      · have e : pixelAt buf px py = (buf.getD (x + q * 128) 0).testBit (py % 8) := by
          unfold pixelAt; rw [c1.1, c1.2]
        rw [if_pos c1, hf _ _ (Nat.mod_lt _ (by decide)), ← e, if_neg (by omega),
          if_pos (by omega)]
      · rw [if_neg c1]
        by_cases c2 : px = x ∧ 8 * (q + 1) ≤ py ∧ py < 8 * (q + 1) + 8 * n
        · rw [if_pos c2, if_pos (by omega)]
        · rw [if_neg c2, if_neg (by omega)]

/-- Pixels after the first partial byte of a vertical run of `h` rows from
row `y` in column `x`. -/
theorem vline_first_spec {buf : Buffer} (hb : IsBuffer buf) (color : Nat) {x y h : Nat}
    (hx : x < 128) (hy : y < 64) (hh : 0 < h) {p : Int}
    (hp : p = ((y / 8 : Nat) : Int) * 128 + (x : Int)) :
    ∃ buf', vline_first color buf p y h =
        some (buf', (if y % 8 = 0 then p else p + 128), (if y % 8 = 0 then 0 else 8 - y % 8)) ∧
      IsBuffer buf' ∧
      ∀ px py, px < 128 → pixelAt buf' px py =
        if px = x ∧ py / 8 = y / 8 ∧ y % 8 ≠ 0 ∧ y ≤ py ∧ py < y + h then
          paint color (pixelAt buf px py)
        else pixelAt buf px py := by
  by_cases c : y % 8 = 0
  · refine ⟨buf, ?_, hb, ?_⟩
    · unfold vline_first
      simp only [c, ne_eq, not_true_eq_false, if_false, if_true]
    · intro px py _
      rw [if_neg (by omega)]
  · obtain ⟨mask, hmask⟩ : ∃ mask : Nat, mask =
        if h < 8 - y % 8 then premask.getD (8 - y % 8) 0 &&& (0xFF >>> (8 - y % 8 - h))
        else premask.getD (8 - y % 8) 0 := ⟨_, rfl⟩
    have hbits : ∀ j, j < 8 → (mask.testBit j = true ↔ (y % 8 ≤ j ∧ j < y % 8 + h)) := by
      intro j hj
      rw [hmask]
      by_cases c2 : h < 8 - y % 8
      · rw [if_pos c2, Nat.testBit_land, premask_testBit _ (by omega) _ hj,
          testBit_255_shiftRight]
        simp only [Bool.and_eq_true, decide_eq_true_eq]
        omega
      · rw [if_neg c2, premask_testBit _ (by omega) _ hj]
        simp only [decide_eq_true_eq]
        omega
    obtain ⟨b1, e1, hb1, s1⟩ := switch_color_spec hb color mask (x := x) (q := y / 8) hx
      (by omega) (p := p) (by omega)
    refine ⟨b1, ?_, hb1, ?_⟩
    · unfold vline_first
      simp only [c, ne_eq, not_false_eq_true, if_true, if_false]
      rw [← hmask, e1]
      rfl
    · intro px py hpx
      rw [s1 px py hpx]
      have hm := hbits (py % 8) (Nat.mod_lt _ (by decide))
      by_cases c3 : px = x ∧ py / 8 = y / 8 ∧ y % 8 ≠ 0 ∧ y ≤ py ∧ py < y + h
      · rw [if_pos c3, if_pos ⟨c3.1, c3.2.1, hm.2 (by omega)⟩]
      · rw [if_neg c3, if_neg]
        intro hh
        have := hm.1 hh.2.2
        omega

/-- Pixels after the solid bytes and the final partial byte: `n` rows from
the top of page `q` in column `x`. -/
theorem vline_rest_spec {buf : Buffer} (hb : IsBuffer buf) (color : Nat) {x q n h m : Nat}
    (hx : x < 128) (hq : 8 * q + n ≤ 64) (hn : h = m + n) {p : Int}
    (hp : p = (q : Int) * 128 + (x : Int)) :
    ∃ buf', vline_rest color buf p h m = some buf' ∧ IsBuffer buf' ∧
      ∀ px py, px < 128 → pixelAt buf' px py =
        if px = x ∧ 8 * q ≤ py ∧ py < 8 * q + n then
          (if py < 8 * q + 8 * (n / 8) then paintFull color (pixelAt buf px py)
           else paint color (pixelAt buf px py))
        else pixelAt buf px py := by
  obtain ⟨b1, e1, hb1, s1⟩ := vline_full_loop_spec (fullByteOp color) (paintFull color)
    (testBit_fullByteOp color) x hx (n % 8) (Nat.mod_lt _ (by decide)) (n / 8) buf q p hb
    (by omega) hp
  have hn8 : n % 8 + 8 * (n / 8) = n := by omega
  rw [hn8] at e1
  have hdef : vline_rest color buf p h m =
      if n % 8 ≠ 0 then
        switch_color color b1 (p + 128 * ((n / 8 : Nat) : Int)) (postmask.getD (n % 8 % 8) 0)
      else some b1 := by
    unfold vline_rest
    rw [if_pos (by omega), show h - m = n by omega]
    simp only [e1, Option.some_bind]
  rw [hdef]
  by_cases c : n % 8 ≠ 0
  · rw [if_pos c]
    obtain ⟨b2, e2, hb2, s2⟩ := switch_color_spec hb1 color (postmask.getD (n % 8 % 8) 0)
      (x := x) (q := q + n / 8) hx (by omega) (p := p + 128 * ((n / 8 : Nat) : Int))
      (by push_cast; omega)
    refine ⟨b2, e2, hb2, ?_⟩
    intro px py hpx
    rw [s2 px py hpx, s1 px py hpx]
    have hm : (postmask.getD (n % 8 % 8) 0).testBit (py % 8) = true ↔ py % 8 < n % 8 := by
      rw [postmask_testBit _ (by omega) _ (Nat.mod_lt _ (by decide)), decide_eq_true_eq]
      omega
    by_cases c1 : px = x ∧ 8 * q ≤ py ∧ py < 8 * q + n
    · rw [if_pos c1]
      by_cases c2 : py < 8 * q + 8 * (n / 8)
      · rw [if_pos c2, if_neg, if_pos (by omega)]
        intro hh
        have := hm.1 hh.2.2
        omega
      · rw [if_neg c2, if_pos ⟨c1.1, by omega, hm.2 (by omega)⟩, if_neg (by omega)]
    · rw [if_neg c1, if_neg, if_neg (by omega)]
      intro hh
      have := hm.1 hh.2.2
      omega
  · rw [if_neg c]
    refine ⟨b1, rfl, hb1, ?_⟩
    intro px py hpx
    rw [s1 px py hpx]
    by_cases c1 : px = x ∧ 8 * q ≤ py ∧ py < 8 * q + n
    · rw [if_pos c1, if_pos (by omega), if_pos (by omega)]
    · rw [if_neg c1, if_neg (by omega)]

/-- Pixels after the body of `SSD1306_draw_fast_vline_internal` for a clipped
run: `h > 0` rows from row `y` of column `x`, all inside the display. -/
theorem vline_body_spec {buf : Buffer} (hb : IsBuffer buf) (color : Nat) {x y h : Nat}
    (hx : x < 128) (hh : 0 < h) (hyh : y + h ≤ 64) {p : Int}
    (hp : p = ((y / 8 : Nat) : Int) * 128 + (x : Int)) :
    ∃ buf', ((vline_first color buf p y h).bind fun r =>
        vline_rest color r.1 r.2.1 h r.2.2) = some buf' ∧ IsBuffer buf' ∧
      ∀ px py, px < 128 → pixelAt buf' px py =
        if px = x ∧ y ≤ py ∧ py < y + h then
          (if y ≤ 8 * (py / 8) ∧ 8 * (py / 8) + 8 ≤ y + h then
            paintFull color (pixelAt buf px py)
           else paint color (pixelAt buf px py))
        else pixelAt buf px py := by
  obtain ⟨b1, e1, hb1, s1⟩ := vline_first_spec hb color hx (by omega : y < 64) hh hp
  rw [e1]
  simp only [Option.some_bind]
  by_cases c : y % 8 = 0
  · simp only [if_pos c]
    obtain ⟨b2, e2, hb2, s2⟩ := vline_rest_spec hb1 color (x := x) (q := y / 8) (n := h)
      (h := h) (m := 0) hx (by omega) (by omega) hp
    refine ⟨b2, e2, hb2, ?_⟩
    intro px py hpx
    have hs1 := s1 px py hpx
    rw [if_neg (fun hc => hc.2.2.1 c)] at hs1
    rw [s2 px py hpx, hs1]
    by_cases c1 : px = x ∧ y ≤ py ∧ py < y + h
    · rw [if_pos c1, if_pos (by omega)]
      by_cases c2 : py < 8 * (y / 8) + 8 * (h / 8)
      · rw [if_pos c2, if_pos (by omega)]
      · rw [if_neg c2, if_neg (by omega)]
    · rw [if_neg c1, if_neg (by omega)]
  · simp only [if_neg c]
    by_cases c0 : h < 8 - y % 8
    · refine ⟨b1, ?_, hb1, ?_⟩
      · unfold vline_rest
        rw [if_neg (by omega)]
      · intro px py hpx
        rw [s1 px py hpx]
        by_cases c1 : px = x ∧ y ≤ py ∧ py < y + h
        · rw [if_pos c1, if_pos (by omega), if_neg (by omega)]
        · rw [if_neg c1, if_neg (by omega)]
    · obtain ⟨b2, e2, hb2, s2⟩ := vline_rest_spec hb1 color (x := x) (q := y / 8 + 1)
        (n := h - (8 - y % 8)) (h := h) (m := 8 - y % 8) hx (by omega) (by omega)
        (p := p + 128) (by push_cast; omega)
      refine ⟨b2, e2, hb2, ?_⟩
      intro px py hpx
      have hs1 := s1 px py hpx
      by_cases c1 : px = x ∧ y ≤ py ∧ py < y + h
      · rw [if_pos c1]
        by_cases c2 : py / 8 = y / 8
        · rw [if_pos (by omega)] at hs1
          rw [s2 px py hpx, if_neg (by omega), hs1, if_neg (by omega)]
        · rw [if_neg (by omega)] at hs1
          rw [s2 px py hpx, hs1, if_pos (by omega)]
          by_cases c3 : py < 8 * (y / 8 + 1) + 8 * ((h - (8 - y % 8)) / 8)
          · rw [if_pos c3, if_pos (by omega)]
          · rw [if_neg c3, if_neg (by omega)]
      · rw [if_neg (by omega)] at hs1
        rw [if_neg c1, s2 px py hpx, hs1, if_neg (by omega)]

/-- Pixels after `SSD1306_draw_fast_vline_internal`, for all `int16_t`
arguments and any colour value: the clipped run of column `x` is painted,
whole pages by the full-byte loop and the remaining rows under a mask. -/
theorem vline_internal_spec {buf : Buffer} (hb : IsBuffer buf) (color : Nat) (x : Int) {y : Int}
    (h : Int) (hy : IsInt16 y) :
    ∃ buf', SSD1306_draw_fast_vline_internal buf x y h color = some buf' ∧ IsBuffer buf' ∧
      ∀ px py, px < 128 → py < 64 → pixelAt buf' px py =
        if (px : Int) = x ∧ (clip_run 64 y h).1 ≤ (py : Int) ∧
            (py : Int) < (clip_run 64 y h).1 + (clip_run 64 y h).2 then
          (if (clip_run 64 y h).1 ≤ 8 * ((py / 8 : Nat) : Int) ∧
              8 * ((py / 8 : Nat) : Int) + 8 ≤ (clip_run 64 y h).1 + (clip_run 64 y h).2 then
            paintFull color (pixelAt buf px py)
           else paint color (pixelAt buf px py))
        else pixelAt buf px py := by
  obtain ⟨hr0, hr1⟩ := clip_run_range 64 h (by decide) (by decide) hy
  obtain ⟨y1, h2, hc⟩ : ∃ y1 h2, clip_run 64 y h = (y1, h2) := ⟨_, _, rfl⟩
  rw [hc] at hr0 hr1
  rw [hc]
  simp only at hr0 hr1 ⊢
  by_cases hx : 0 ≤ x ∧ x < SSD1306_WIDTH
  swap
  · refine ⟨buf, ?_, hb, ?_⟩
    · unfold SSD1306_draw_fast_vline_internal
      rw [if_neg hx]
    · intro px py hpx _
      simp only [SSD1306_WIDTH] at hx
      rw [if_neg (by omega)]
  by_cases hpos : h2 > 0
  swap
  · refine ⟨buf, ?_, hb, ?_⟩
    · unfold SSD1306_draw_fast_vline_internal
      rw [if_pos hx]
      simp only [hc]
      rw [if_neg hpos]
    · intro px py hpx _
      rw [if_neg (by omega)]
  have hdef : SSD1306_draw_fast_vline_internal buf x y h color =
      ((vline_first color buf (((y1.toNat / 8 : Nat) : Int) * 128 + ((x.toNat : Nat) : Int))
          y1.toNat h2.toNat).bind fun r =>
        vline_rest color r.1 r.2.1 h2.toNat r.2.2) := by
    unfold SSD1306_draw_fast_vline_internal
    rw [if_pos hx]
    simp only [hc]
    rw [if_pos hpos]
    have := hr1 hpos
    have e1 : (y1 % 256).toNat = y1.toNat := by omega
    have e2 : (h2 % 256).toNat = h2.toNat := by omega
    have e3 : ((x.toNat : Nat) : Int) = x := by omega
    simp only [e1, e2, e3, SSD1306_WIDTH]
  have hsum := hr1 hpos
  simp only [SSD1306_WIDTH] at hx
  obtain ⟨b1, e1, hb1, s1⟩ := vline_body_spec hb color (x := x.toNat) (y := y1.toNat)
    (h := h2.toNat) (by omega) (by omega) (by omega) rfl
  rw [hdef]
  refine ⟨b1, e1, hb1, ?_⟩
  intro px py hpx _
  rw [s1 px py hpx]
  by_cases c1 : (px : Int) = x ∧ y1 ≤ (py : Int) ∧ (py : Int) < y1 + h2
  · rw [if_pos c1, if_pos (by omega)]
    by_cases c2 : y1 ≤ 8 * ((py / 8 : Nat) : Int) ∧ 8 * ((py / 8 : Nat) : Int) + 8 ≤ y1 + h2
    · rw [if_pos c2, if_pos (by omega)]
    · rw [if_neg c2, if_neg (by omega)]
  · rw [if_neg c1, if_neg (by omega)]

theorem isBuffer_zeroBuffer : IsBuffer zeroBuffer := by
  unfold IsBuffer zeroBuffer
  refine ⟨List.length_replicate 1024 0, ?_⟩
  intro b hb
  rw [List.mem_replicate] at hb
  omega

/-- Pixels after `n` successive `SSD1306_draw_pixel` calls down a column at
orientation 0, the row staying in the `int16_t` range. -/
theorem draw_pixels_v_spec (color : Nat) (x : Int) (hx : IsInt16 x) (n : Nat) :
    ∀ (buf : Buffer) (y : Int), IsBuffer buf → -32768 ≤ y → y + n ≤ 32768 →
      ∃ buf', draw_pixels_v 0 color n buf x y = some buf' ∧ IsBuffer buf' ∧
        ∀ px py, px < 128 → py < 64 → pixelAt buf' px py =
          if (px : Int) = x ∧ y ≤ (py : Int) ∧ (py : Int) < y + n then
            paint color (pixelAt buf px py)
          else pixelAt buf px py := by
  induction n with
  | zero =>
    intro buf y hb _ _
    refine ⟨buf, rfl, hb, ?_⟩
    intro px py _ _
    rw [if_neg (by omega)]
  | succ n ih =>
    intro buf y hb hy0 hy1
    have hwx : wrap16 x = x := wrap16_of_isInt16 hx
    have hwy : wrap16 y = y := wrap16_of_isInt16 ⟨hy0, by push_cast at hy1; omega⟩
    have step : ∃ b1, SSD1306_draw_pixel 0 buf x y color = some b1 ∧ IsBuffer b1 ∧
        ∀ px py, px < 128 → py < 64 → pixelAt b1 px py =
          if (px : Int) = x ∧ (py : Int) = y then paint color (pixelAt buf px py)
          else pixelAt buf px py := by
      by_cases hin : 0 ≤ x ∧ x < SSD1306_WIDTH ∧ 0 ≤ y ∧ y < SSD1306_HEIGHT
      · obtain ⟨h1, h2, h3, h4⟩ := hin
        exact draw_pixel_spec hb 0 color h1 h2 h3 h4 h1 h2 h3 h4
      · refine ⟨buf, ?_, hb, ?_⟩
        · unfold SSD1306_draw_pixel
          rw [if_neg hin]
        · intro px py hpx hpy
          simp only [SSD1306_WIDTH, SSD1306_HEIGHT] at hin
          rw [if_neg (by omega)]
    obtain ⟨b1, e1, hb1, s1⟩ := step
    obtain ⟨b2, e2, hb2, s2⟩ := ih b1 (y + 1) hb1 (by omega) (by push_cast at hy1; omega)
    refine ⟨b2, ?_, hb2, ?_⟩
    · show (SSD1306_draw_pixel 0 buf (wrap16 x) (wrap16 y) color).bind
        (fun b => draw_pixels_v 0 color n b x (y + 1)) = some b2
      rw [hwx, hwy, e1]
      exact e2
    · intro px py hpx hpy
      have hs1 := s1 px py hpx hpy
      rw [s2 px py hpx hpy]
      by_cases c1 : (px : Int) = x ∧ (py : Int) = y
      · rw [if_pos c1] at hs1
        rw [if_neg (by omega), hs1, if_pos (by push_cast; omega)]
      · rw [if_neg c1] at hs1
        rw [hs1]
        by_cases c2 : (px : Int) = x ∧ y + 1 ≤ (py : Int) ∧ (py : Int) < y + 1 + n
        · rw [if_pos c2, if_pos (by push_cast; omega)]
        · rw [if_neg c2, if_neg (by push_cast; omega)]

/-! ## Single pixels on the memory of the target -/

/-- The memory of the target extends the checked model: a pixel write that
stays in the block is the write of the checked model and leaves the memory
outside the block as it was. -/
theorem Machine.draw_pixel_of_checked (m : Machine) (b b1 : Buffer) (x y : Int) (color : Nat)
    (hbuf : m.driver.buffer = some b)
    (h : SSD1306_draw_pixel m.driver.rotation b x y color = some b1) :
    ∃ m1, m.draw_pixel x y color = some m1 ∧ m1.driver.buffer = some b1 ∧
      m1.driver.rotation = m.driver.rotation ∧ m1.outside = m.outside := by
  unfold SSD1306_draw_pixel at h
  unfold Machine.draw_pixel
  by_cases hin : 0 ≤ x ∧ x < SSD1306_WIDTH ∧ 0 ≤ y ∧ y < SSD1306_HEIGHT
  · rw [if_pos hin] at h ⊢
    simp only at h ⊢
    have hmod : ∀ f : Nat → Nat, ∀ i : Int, modifyByte b i f = some b1 →
        ∃ m1, m.modify i f = some m1 ∧ m1.driver.buffer = some b1 ∧
          m1.driver.rotation = m.driver.rotation ∧ m1.outside = m.outside := by
      intro f i hm
      refine ⟨{ m with driver := { m.driver with buffer := some b1 } }, ?_, rfl, rfl, rfl⟩
      unfold Machine.modify
      rw [hbuf]
      simp only [hm]
    unfold SSD1306.switch_color at h
    unfold Machine.switch_color
    match color with
    | 1 => exact hmod _ _ h
    | 0 => exact hmod _ _ h
    | 2 => exact hmod _ _ h
    | n + 3 =>
      simp only [Option.some.injEq] at h
      subst h
      exact ⟨m, rfl, hbuf, rfl, rfl⟩
  · rw [if_neg hin] at h ⊢
    simp only [Option.some.injEq] at h
    subst h
    exact ⟨m, rfl, hbuf, rfl, rfl⟩

/-- The memory of the target extends the checked model: a pixel read that
stays in the block is the read of the checked model. -/
theorem Machine.get_pixel_of_checked (m : Machine) (b : Buffer) (x y : Int) (v : Bool)
    (hbuf : m.driver.buffer = some b)
    (h : SSD1306_get_pixel m.driver.rotation b x y = some v) :
    m.get_pixel x y = some v := by
  unfold SSD1306_get_pixel at h
  unfold Machine.get_pixel
  by_cases hin : 0 ≤ x ∧ x < SSD1306_WIDTH ∧ 0 ≤ y ∧ y < SSD1306_HEIGHT
  · rw [if_pos hin] at h ⊢
    simp only at h ⊢
    unfold Machine.load
    rw [hbuf]
    simp only
    cases hl : loadByte b (byteIndex (rotate_point m.driver.rotation x y).1
        (rotate_point m.driver.rotation x y).2) with
    | none => rw [hl] at h; exact absurd h (by simp)
    | some w =>
      rw [hl] at h
      exact h
  · rw [if_neg hin] at h ⊢
    exact h

section RotatedBoundsCheck

set_option maxRecDepth 100000

/-- At orientation 1 the logical in-bounds pixel `(64, 0)` rotates to the
physical point `(127, 64)`, whose byte index 1151 is outside the 1024-byte
buffer: in the checked model `SSD1306_draw_pixel(64, 0, color)` and
`SSD1306_get_pixel(64, 0)` both leave the buffer. -/
theorem draw_pixel_white_rot1_outside_buffer :
    rotate_point 1 64 0 = (127, 64) ∧ byteIndex 127 64 = 1151 ∧
    SSD1306_draw_pixel 1 zeroBuffer 64 0 SSD1306_WHITE = none ∧
    SSD1306_draw_pixel 1 zeroBuffer 64 0 SSD1306_BLACK = none ∧
    SSD1306_get_pixel 1 zeroBuffer 64 0 = none := by
  decide

/-- At orientation 3 the logical in-bounds pixel `(72, 5)` rotates to the
physical point `(5, -9)`, whose byte index is `5 + (-9 / 8) * 128 = -123`: in
the checked model `SSD1306_draw_pixel(72, 5, SSD1306_INVERSE)` and
`SSD1306_get_pixel(72, 5)` both leave the buffer. -/
theorem draw_pixel_inverse_rot3_outside_buffer :
    rotate_point 3 72 5 = (5, -9) ∧ byteIndex 5 (-9) = -123 ∧
    SSD1306_draw_pixel 3 zeroBuffer 72 5 SSD1306_INVERSE = none ∧
    SSD1306_get_pixel 3 zeroBuffer 72 5 = none := by
  decide

/-- C3 (failing input): at orientation 3 the logical run `(x = 63, y = 0,
w = 2)` drawn by `SSD1306_draw_fast_hline` sets bit 0 of byte 0 only (the
physical run is clipped at row 0), while the two `SSD1306_draw_pixel` calls
also set bit 7 of byte 0, because the pixel `(64, 0)` rotates to the row
`-1`; at orientation 1 the run `(60, 0, 10)` is drawn by the fast path and
leaves the buffer in the per-pixel path. -/
theorem fast_hline_differs_from_draw_pixels :
    (SSD1306_draw_fast_hline 3 zeroBuffer 63 0 2 SSD1306_WHITE).map (fun b => b.take 1)
      = some [1] ∧
    (draw_pixels_h 3 SSD1306_WHITE 2 zeroBuffer 63 0).map (fun b => b.take 1) = some [129] ∧
    (SSD1306_draw_fast_hline 1 zeroBuffer 60 0 10 SSD1306_WHITE).isSome = true ∧
    draw_pixels_h 1 SSD1306_WHITE 10 zeroBuffer 60 0 = none := by
  decide

/-- C4 (failing input): at orientation 3 the logical run `(x = 64, y = 0,
h = 1)` drawn by `SSD1306_draw_fast_vline` is clipped away (physical row
`-1`) and leaves the buffer unchanged, while
`SSD1306_draw_pixel(64, 0, SSD1306_WHITE)` sets bit 7 of byte 0; at
orientation 1 the same run leaves the buffer unchanged in the fast path and
leaves the buffer in the per-pixel path. -/
theorem fast_vline_differs_from_draw_pixels :
    SSD1306_draw_fast_vline 3 zeroBuffer 64 0 1 SSD1306_WHITE = some zeroBuffer ∧
    (draw_pixels_v 3 SSD1306_WHITE 1 zeroBuffer 64 0).map (fun b => b.take 1) = some [128] ∧
    SSD1306_draw_fast_vline 1 zeroBuffer 64 0 1 SSD1306_WHITE = some zeroBuffer ∧
    draw_pixels_v 1 SSD1306_WHITE 1 zeroBuffer 64 0 = none := by
  decide

/-- C10 (failing input): the logical point `(64, 0)` passes the bounds check
of `SSD1306_draw_pixel` and `SSD1306_get_pixel`, yet at orientation 1 its
physical row is 64 and its byte index 1151, and at orientation 3 its
physical row is -1. -/
theorem rotated_point_outside_display :
    ((0 : Int) ≤ 64 ∧ (64 : Int) < SSD1306_WIDTH ∧ (0 : Int) ≤ 0 ∧ (0 : Int) < SSD1306_HEIGHT) ∧
    (rotate_point 1 64 0).2 = 64 ∧
    byteIndex (rotate_point 1 64 0).1 (rotate_point 1 64 0).2 = 1151 ∧
    (rotate_point 3 64 0).2 = -1 := by
  decide

end RotatedBoundsCheck

/-! ## Physical runs -/

/-- The rotation switches of `SSD1306_draw_fast_hline` and
`SSD1306_draw_fast_vline` against the point transform of `SSD1306_draw_pixel`,
for values small enough that no `int16_t` conversion wraps: the physical run
selected for a logical run of length `L >= 1` covers exactly the transformed
points of the logical run, and the primitive of the other axis is selected
exactly when `r` is 1 or 3. -/
theorem route_covers_transformed_points (r : Nat) (x y L : Int) (hr : r < 4)
    (hL : 1 ≤ L) (hL1 : L ≤ 16000) (hx0 : -16000 ≤ x) (hx1 : x ≤ 16000)
    (hy0 : -16000 ≤ y) (hy1 : y ≤ 16000) :
    ((hline_route r x y L).1 = true ↔ (r = 1 ∨ r = 3)) ∧
    ((vline_route r x y L).1 = true ↔ (r = 1 ∨ r = 3)) ∧
    (∀ i : Int, 0 ≤ i → i < L →
      rotate_point r (x + i) y = specTransform r (x + i) y ∧
      rotate_point r x (y + i) = specTransform r x (y + i)) ∧
    (∀ px py : Int,
      run_covers (hline_route r x y L).1 (hline_route r x y L).2.1 (hline_route r x y L).2.2 L
        px py ↔ ∃ i : Int, 0 ≤ i ∧ i < L ∧ rotate_point r (x + i) y = (px, py)) ∧
    (∀ px py : Int,
      run_covers (!(vline_route r x y L).1) (vline_route r x y L).2.1 (vline_route r x y L).2.2 L
        px py ↔ ∃ i : Int, 0 ≤ i ∧ i < L ∧ rotate_point r x (y + i) = (px, py)) := by
  have w : ∀ v : Int, -32768 ≤ v → v ≤ 32767 → wrap16 v = v :=
    fun v h1 h2 => wrap16_of_isInt16 ⟨h1, h2⟩
  have hcases : r = 0 ∨ r = 1 ∨ r = 2 ∨ r = 3 := by omega
  rcases hcases with h | h | h | h <;> subst h
  · refine ⟨by simp [hline_route], by simp [vline_route], ?_, ?_, ?_⟩
    · intro i _ _
      simp [rotate_point, specTransform]
    · intro px py
      simp only [hline_route, run_covers, rotate_point, Prod.mk.injEq, Bool.false_eq_true,
        if_false]
      constructor
      · rintro ⟨h1, h2, h3⟩
        exact ⟨px - x, by omega, by omega, by omega, by omega⟩
      · rintro ⟨i, h1, h2, h3, h4⟩
        omega
    · intro px py
      simp only [vline_route, run_covers, rotate_point, Prod.mk.injEq, Bool.not_false,
        if_true]
      constructor
      · rintro ⟨h1, h2, h3⟩
        exact ⟨py - y, by omega, by omega, by omega, by omega⟩
      · rintro ⟨i, h1, h2, h3, h4⟩
        omega
  · refine ⟨by simp [hline_route], by simp [vline_route], ?_, ?_, ?_⟩
    · intro i _ _
      simp only [rotate_point, specTransform, SSD1306_WIDTH, if_true]
      rw [w _ (by omega) (by omega), w _ (by omega) (by omega)]
      constructor <;> congr 1 <;> omega
    · intro px py
      simp only [hline_route, run_covers, rotate_point, Prod.mk.injEq, if_true, SSD1306_WIDTH]
      rw [w _ (by omega) (by omega)]
      constructor
      · rintro ⟨h1, h2, h3⟩
        exact ⟨py - x, by omega, by omega, by omega, by omega⟩
      · rintro ⟨i, h1, h2, h3, h4⟩
        omega
    · intro px py
      simp only [vline_route, run_covers, rotate_point, Prod.mk.injEq, Bool.not_true,
        Bool.false_eq_true, if_false, SSD1306_WIDTH]
      rw [w (128 - y - 1) (by omega) (by omega), w _ (by omega) (by omega)]
      constructor
      · rintro ⟨h1, h2, h3⟩
        refine ⟨127 - y - px, by omega, by omega, ?_, by omega⟩
        rw [w _ (by omega) (by omega)]
        omega
      · rintro ⟨i, h1, h2, h3, h4⟩
        rw [w _ (by omega) (by omega)] at h3
        omega
  · refine ⟨by simp [hline_route], by simp [vline_route], ?_, ?_, ?_⟩
    · intro i _ _
      simp only [rotate_point, specTransform, SSD1306_WIDTH, SSD1306_HEIGHT]
      rw [w (128 - (x + i) - 1) (by omega) (by omega), w (64 - y - 1) (by omega) (by omega),
        w (128 - x - 1) (by omega) (by omega), w (64 - (y + i) - 1) (by omega) (by omega)]
      simp only [show ¬ (2 = 1) by decide, if_false, if_true]
      constructor <;> congr 1 <;> omega
    · intro px py
      simp only [hline_route, run_covers, rotate_point, Prod.mk.injEq, Bool.false_eq_true,
        if_false, SSD1306_WIDTH, SSD1306_HEIGHT]
      rw [w (128 - x - 1) (by omega) (by omega), w (64 - y - 1) (by omega) (by omega),
        w _ (by omega) (by omega)]
      constructor
      · rintro ⟨h1, h2, h3⟩
        refine ⟨127 - x - px, by omega, by omega, ?_, by omega⟩
        rw [w _ (by omega) (by omega)]
        omega
      · rintro ⟨i, h1, h2, h3, h4⟩
        rw [w _ (by omega) (by omega)] at h3
        omega
    · intro px py
      simp only [vline_route, run_covers, rotate_point, Prod.mk.injEq, Bool.not_false,
        if_true, SSD1306_WIDTH, SSD1306_HEIGHT]
      rw [w (128 - x - 1) (by omega) (by omega), w (64 - y - 1) (by omega) (by omega),
        w _ (by omega) (by omega)]
      constructor
      · rintro ⟨h1, h2, h3⟩
        refine ⟨63 - y - py, by omega, by omega, by omega, ?_⟩
        rw [w _ (by omega) (by omega)]
        omega
      · rintro ⟨i, h1, h2, h3, h4⟩
        rw [w _ (by omega) (by omega)] at h4
        omega
  · refine ⟨by simp [hline_route], by simp [vline_route], ?_, ?_, ?_⟩
    · intro i _ _
      simp only [rotate_point, specTransform, SSD1306_HEIGHT]
      rw [w (64 - (x + i) - 1) (by omega) (by omega), w (64 - x - 1) (by omega) (by omega)]
      simp only [show ¬ (3 = 1) by decide, show ¬ (3 = 2) by decide, if_false, if_true]
      constructor <;> congr 1 <;> omega
    · intro px py
      simp only [hline_route, run_covers, rotate_point, Prod.mk.injEq, if_true, SSD1306_HEIGHT]
      rw [w (64 - x - 1) (by omega) (by omega), w _ (by omega) (by omega)]
      constructor
      · rintro ⟨h1, h2, h3⟩
        refine ⟨63 - x - py, by omega, by omega, by omega, ?_⟩
        rw [w _ (by omega) (by omega)]
        omega
      · rintro ⟨i, h1, h2, h3, h4⟩
        rw [w _ (by omega) (by omega)] at h4
        omega
    · intro px py
      simp only [vline_route, run_covers, rotate_point, Prod.mk.injEq, Bool.not_true,
        Bool.false_eq_true, if_false, SSD1306_HEIGHT]
      rw [w _ (by omega) (by omega)]
      constructor
      · rintro ⟨h1, h2, h3⟩
        exact ⟨px - y, by omega, by omega, by omega, by omega⟩
      · rintro ⟨i, h1, h2, h3, h4⟩
        omega

/-- C6: at orientation 0, for the three paint modes, every 1024-byte buffer,
every `int16_t` `x`, `y` and every length `h >= 0` with `y + h <= 32767`,
`SSD1306_draw_fast_vline_internal(x, y, h, mode)` returns, and returns the very
buffer that the `h` calls `SSD1306_draw_pixel(x, y + i, mode)`, `i = 0 .. h-1`,
produce (a call outside the display being a no-op). -/
theorem vline_internal_eq_draw_pixels (buf : Buffer) (mode : Nat) (x y h : Int)
    (hb : IsBuffer buf)
    (hm : mode = SSD1306_WHITE ∨ mode = SSD1306_BLACK ∨ mode = SSD1306_INVERSE)
    (hx : IsInt16 x) (hy : IsInt16 y) (hh0 : 0 ≤ h) (hh : IsInt16 h) (hyh : y + h ≤ 32767) :
    ∃ buf', SSD1306_draw_fast_vline_internal buf x y h mode = some buf' ∧
      draw_pixels_v 0 mode h.toNat buf x y = some buf' := by
  obtain ⟨b1, e1, hb1, s1⟩ := vline_internal_spec hb mode x h hy
  obtain ⟨b2, e2, hb2, s2⟩ := draw_pixels_v_spec mode x hx h.toNat buf y hb hy.1 (by omega)
  have hm' : mode = 0 ∨ mode = 1 ∨ mode = 2 := by
    simp only [SSD1306_WHITE, SSD1306_BLACK, SSD1306_INVERSE] at hm
    omega
  have heq : b1 = b2 := by
    apply buffer_ext hb1 hb2
    intro px py hpx hpy
    rw [s1 px py hpx hpy, s2 px py hpx hpy]
    have hclip := clip_run_nonneg 64 (by decide) (by decide) hy hh0 hh (py : Int)
      (by omega) (by omega)
    simp only [paintFull_eq_paint hm', ite_self]
    by_cases c : (px : Int) = x ∧ y ≤ (py : Int) ∧ (py : Int) < y + h
    · have c' : (px : Int) = x ∧ y ≤ (py : Int) ∧ (py : Int) < y + ((h.toNat : Nat) : Int) := by
        omega
      rw [if_pos ⟨c.1, hclip.2 c.2⟩, if_pos c']
    · have c' : ¬ ((px : Int) = x ∧ y ≤ (py : Int) ∧
          (py : Int) < y + ((h.toNat : Nat) : Int)) := by omega
      rw [if_neg (fun hc => c ⟨hc.1, hclip.1 hc.2⟩), if_neg c']
  exact ⟨b1, e1, heq ▸ e2⟩

/-- C6 at the run of the specification: `y = 5`, `h = 20`, which crosses
the page boundaries at rows 8, 16 and 24. -/
theorem vline_internal_eq_draw_pixels_witness :
    IsBuffer zeroBuffer ∧
      ∃ buf', SSD1306_draw_fast_vline_internal zeroBuffer 0 5 20 SSD1306_WHITE = some buf' ∧
        draw_pixels_v 0 SSD1306_WHITE (20 : Int).toNat zeroBuffer 0 5 = some buf' :=
  ⟨isBuffer_zeroBuffer,
    vline_internal_eq_draw_pixels zeroBuffer SSD1306_WHITE 0 5 20 isBuffer_zeroBuffer
      (Or.inl rfl) (by decide) (by decide) (by decide) (by decide) (by decide)⟩

/-- C7: for every 1024-byte buffer, every mode in WHITE, BLACK, INVERSE,
every `int16_t` `x`, every row `y` in `[0, 64)` and every width `w >= 0`,
`SSD1306_draw_fast_hline_internal(x, y, w, m)` returns a 1024-byte buffer in
which each physical pixel `(px, py)` holds the mode applied to its old value
when `py = y` and `max(x, 0) <= px < min(x + w, 128)`, and its old value
otherwise. -/
theorem hline_internal_pixels (buf : Buffer) (m : Nat) (x y w : Int)
    (hb : IsBuffer buf)
    (_hm : m = SSD1306_WHITE ∨ m = SSD1306_BLACK ∨ m = SSD1306_INVERSE)
    (hx : IsInt16 x) (_hy0 : 0 ≤ y) (_hy1 : y < 64) (hw0 : 0 ≤ w) (hw : IsInt16 w) :
    ∃ buf', SSD1306_draw_fast_hline_internal buf x y w m = some buf' ∧ IsBuffer buf' ∧
      ∀ px py, px < 128 → py < 64 → pixelAt buf' px py =
        if (py : Int) = y ∧ max x 0 ≤ (px : Int) ∧ (px : Int) < min (x + w) 128 then
          paint m (pixelAt buf px py)
        else pixelAt buf px py := by
  obtain ⟨b1, e1, hb1, s1⟩ := hline_internal_spec hb m y w hx
  refine ⟨b1, e1, hb1, ?_⟩
  intro px py hpx hpy
  rw [s1 px py hpx hpy]
  have hclip := clip_run_nonneg 128 (by decide) (by decide) hx hw0 hw (px : Int)
    (by omega) (by omega)
  by_cases c : (py : Int) = y ∧ max x 0 ≤ (px : Int) ∧ (px : Int) < min (x + w) 128
  · rw [if_pos c, if_pos ⟨c.1, hclip.2 (by omega)⟩]
  · rw [if_neg c, if_neg]
    intro hc
    have := hclip.1 hc.2
    omega

/-- C7 at the runs of the specification: `(x = 2, y = 3, w = 5)`. -/
theorem hline_internal_pixels_witness :
    IsBuffer zeroBuffer ∧
    ∃ buf', SSD1306_draw_fast_hline_internal zeroBuffer 2 3 5 SSD1306_WHITE = some buf' ∧
      IsBuffer buf' ∧
      ∀ px py, px < 128 → py < 64 → pixelAt buf' px py =
        if (py : Int) = 3 ∧ max 2 0 ≤ (px : Int) ∧ (px : Int) < min (2 + 5) 128 then
          paint SSD1306_WHITE (pixelAt zeroBuffer px py)
        else pixelAt zeroBuffer px py :=
  ⟨isBuffer_zeroBuffer,
    hline_internal_pixels zeroBuffer SSD1306_WHITE 2 3 5 isBuffer_zeroBuffer (Or.inl rfl)
      (by decide) (by decide) (by decide) (by decide) (by decide)⟩

/-- C8: a run entirely out of bounds performs no mutation:
`SSD1306_draw_fast_hline_internal` with `y < 0` or `y >= 64`, and
`SSD1306_draw_fast_vline_internal` with `x < 0` or `x >= 128`, return the
buffer unchanged, whatever the buffer, the colour and the other arguments. -/
theorem internal_out_of_bounds_unchanged (buf : Buffer) (color : Nat) (x y n : Int) :
    ((y < 0 ∨ 64 ≤ y) → SSD1306_draw_fast_hline_internal buf x y n color = some buf) ∧
    ((x < 0 ∨ 128 ≤ x) → SSD1306_draw_fast_vline_internal buf x y n color = some buf) := by
  constructor
  · intro h
    unfold SSD1306_draw_fast_hline_internal
    rw [if_neg (by simp only [SSD1306_HEIGHT]; omega)]
  · intro h
    unfold SSD1306_draw_fast_vline_internal
    rw [if_neg (by simp only [SSD1306_WIDTH]; omega)]

/-- C8 at a row below the display and a column right of it. -/
theorem internal_out_of_bounds_unchanged_witness :
    ((64 : Int) < 0 ∨ (64 : Int) ≤ 64) ∧ ((128 : Int) < 0 ∨ (128 : Int) ≤ 128) ∧
    SSD1306_draw_fast_hline_internal [7, 9] 128 64 5 SSD1306_WHITE = some [7, 9] ∧
    SSD1306_draw_fast_vline_internal [7, 9] 128 64 5 SSD1306_WHITE = some [7, 9] :=
  ⟨by decide, by decide,
    (internal_out_of_bounds_unchanged [7, 9] SSD1306_WHITE 128 64 5).1 (by decide),
    (internal_out_of_bounds_unchanged [7, 9] SSD1306_WHITE 128 64 5).2 (by decide)⟩

theorem hline_route_isInt16 (rotation : Nat) {x y : Int} (w : Int) (hx : IsInt16 x)
    (hy : IsInt16 y) :
    IsInt16 (hline_route rotation x y w).2.1 ∧ IsInt16 (hline_route rotation x y w).2.2 := by
  unfold hline_route
  split
  · exact ⟨isInt16_wrap16 _, hx⟩
  · exact ⟨isInt16_wrap16 _, isInt16_wrap16 _⟩
  · exact ⟨hy, isInt16_wrap16 _⟩
  · exact ⟨hx, hy⟩

theorem vline_route_isInt16 (rotation : Nat) {x y : Int} (h : Int) (hx : IsInt16 x)
    (hy : IsInt16 y) :
    IsInt16 (vline_route rotation x y h).2.1 ∧ IsInt16 (vline_route rotation x y h).2.2 := by
  unfold vline_route
  split
  · exact ⟨isInt16_wrap16 _, hx⟩
  · exact ⟨isInt16_wrap16 _, isInt16_wrap16 _⟩
  · exact ⟨hy, isInt16_wrap16 _⟩
  · exact ⟨hx, hy⟩

/-- C9: for every orientation value, every colour value and all `int16_t`
arguments, `SSD1306_draw_fast_hline`, `SSD1306_draw_fast_vline`,
`SSD1306_draw_fast_hline_internal` and `SSD1306_draw_fast_vline_internal`
never access a byte outside the 1024-byte buffer: each of them returns a
buffer (the out-of-range result `none` of a checked access is never reached),
and that buffer has 1024 bytes again. -/
theorem run_accesses_in_buffer (rotation color : Nat) (buf : Buffer) (x y n : Int)
    (hb : IsBuffer buf) (hx : IsInt16 x) (hy : IsInt16 y) (_hn : IsInt16 n) :
    (∃ b, SSD1306_draw_fast_hline rotation buf x y n color = some b ∧ IsBuffer b) ∧
    (∃ b, SSD1306_draw_fast_vline rotation buf x y n color = some b ∧ IsBuffer b) ∧
    (∃ b, SSD1306_draw_fast_hline_internal buf x y n color = some b ∧ IsBuffer b) ∧
    (∃ b, SSD1306_draw_fast_vline_internal buf x y n color = some b ∧ IsBuffer b) := by
  have hH : ∀ a b : Int, IsInt16 a →
      ∃ r, SSD1306_draw_fast_hline_internal buf a b n color = some r ∧ IsBuffer r := by
    intro a b ha
    obtain ⟨r, e, hr, _⟩ := hline_internal_spec hb color b n ha
    exact ⟨r, e, hr⟩
  have hV : ∀ a b : Int, IsInt16 b →
      ∃ r, SSD1306_draw_fast_vline_internal buf a b n color = some r ∧ IsBuffer r := by
    intro a b hb'
    obtain ⟨r, e, hr, _⟩ := vline_internal_spec hb color a n hb'
    exact ⟨r, e, hr⟩
  refine ⟨?_, ?_, hH x y hx, hV x y hy⟩
  · obtain ⟨h1, h2⟩ := hline_route_isInt16 rotation n hx hy
    unfold SSD1306_draw_fast_hline
    simp only
    split_ifs
    · exact hV _ _ h2
    · exact hH _ _ h1
  · obtain ⟨h1, h2⟩ := vline_route_isInt16 rotation n hx hy
    unfold SSD1306_draw_fast_vline
    simp only
    split_ifs
    · exact hH _ _ h1
    · exact hV _ _ h2

section RunExamples

set_option maxRecDepth 100000

/-- C9 at orientation 1 and the run `(x = 10, y = 20, length 30)` on the
all-zero buffer, colour `SSD1306_WHITE`: each of the four functions writes its
bytes (the values of the first and the last byte written are shown) and
returns a 1024-byte buffer. -/
theorem run_accesses_in_buffer_witness :
    IsBuffer zeroBuffer ∧ IsInt16 10 ∧ IsInt16 20 ∧ IsInt16 30 ∧
    ((∃ b, SSD1306_draw_fast_hline 1 zeroBuffer 10 20 30 SSD1306_WHITE = some b ∧ IsBuffer b) ∧
    (∃ b, SSD1306_draw_fast_vline 1 zeroBuffer 10 20 30 SSD1306_WHITE = some b ∧ IsBuffer b) ∧
    (∃ b, SSD1306_draw_fast_hline_internal zeroBuffer 10 20 30 SSD1306_WHITE = some b ∧
      IsBuffer b) ∧
    (∃ b, SSD1306_draw_fast_vline_internal zeroBuffer 10 20 30 SSD1306_WHITE = some b ∧
      IsBuffer b)) ∧
    (SSD1306_draw_fast_hline 1 zeroBuffer 10 20 30 SSD1306_WHITE).map
      (fun b => (b.getD 235 0, b.getD 619 0)) = some (252, 255) ∧
    (SSD1306_draw_fast_vline 1 zeroBuffer 10 20 30 SSD1306_WHITE).map
      (fun b => (b.getD 206 0, b.getD 235 0)) = some (4, 4) ∧
    (SSD1306_draw_fast_hline_internal zeroBuffer 10 20 30 SSD1306_WHITE).map
      (fun b => (b.getD 266 0, b.getD 295 0)) = some (16, 16) ∧
    (SSD1306_draw_fast_vline_internal zeroBuffer 10 20 30 SSD1306_WHITE).map
      (fun b => (b.getD 266 0, b.getD 778 0)) = some (240, 3) :=
  ⟨isBuffer_zeroBuffer, by decide, by decide, by decide,
    run_accesses_in_buffer 1 SSD1306_WHITE zeroBuffer 10 20 30 isBuffer_zeroBuffer
      (by decide) (by decide) (by decide),
    by decide, by decide, by decide, by decide⟩

end RunExamples

/-! ## Single pixels -/

/-- Outside the logical bounds `SSD1306_draw_pixel` and `SSD1306_get_pixel`
return at once, whatever the buffer. -/
theorem pixel_out_of_bounds (rotation color : Nat) (buf : Buffer) (x y : Int)
    (h : x < 0 ∨ 128 ≤ x ∨ y < 0 ∨ 64 ≤ y) :
    SSD1306_draw_pixel rotation buf x y color = some buf ∧
    SSD1306_get_pixel rotation buf x y = some false := by
  have hn : ¬ (0 ≤ x ∧ x < SSD1306_WIDTH ∧ 0 ≤ y ∧ y < SSD1306_HEIGHT) := by
    simp only [SSD1306_WIDTH, SSD1306_HEIGHT]
    omega
  unfold SSD1306_draw_pixel SSD1306_get_pixel
  simp only [if_neg hn, and_self]

/-- C11: for every orientation value, every colour, every buffer (an empty
one included) and every `(x, y)` outside the logical bounds,
`SSD1306_draw_pixel(x, y, colour)` returns the buffer unchanged and
`SSD1306_get_pixel(x, y)` returns false; no byte is accessed, as the result
does not depend on the buffer having any. -/
theorem pixel_out_of_bounds_no_access (rotation color : Nat) (buf : Buffer) (x y : Int)
    (h : x < 0 ∨ 128 ≤ x ∨ y < 0 ∨ 64 ≤ y) :
    SSD1306_draw_pixel rotation buf x y color = some buf ∧
    SSD1306_get_pixel rotation buf x y = some false ∧
    SSD1306_draw_pixel rotation [] x y color = some [] ∧
    SSD1306_get_pixel rotation [] x y = some false :=
  ⟨(pixel_out_of_bounds rotation color buf x y h).1,
    (pixel_out_of_bounds rotation color buf x y h).2,
    (pixel_out_of_bounds rotation color [] x y h).1,
    (pixel_out_of_bounds rotation color [] x y h).2⟩

/-- C11 at a pixel right of the display, orientation 1. -/
theorem pixel_out_of_bounds_no_access_witness :
    ((128 : Int) < 0 ∨ (128 : Int) ≤ 128 ∨ (5 : Int) < 0 ∨ (64 : Int) ≤ 5) ∧
    SSD1306_draw_pixel 1 [7, 9] 128 5 SSD1306_WHITE = some [7, 9] ∧
    SSD1306_get_pixel 1 [7, 9] 128 5 = some false ∧
    SSD1306_draw_pixel 1 [] 128 5 SSD1306_WHITE = some [] ∧
    SSD1306_get_pixel 1 [] 128 5 = some false :=
  ⟨by decide, pixel_out_of_bounds_no_access 1 SSD1306_WHITE [7, 9] 128 5 (by decide)⟩

theorem rotate_point_eq_specTransform (r : Nat) (hr : r < 4) {x y : Int}
    (hx0 : 0 ≤ x) (hx1 : x < 128) (hy0 : 0 ≤ y) (hy1 : y < 64) :
    rotate_point r x y = specTransform r x y := by
  have w : ∀ v : Int, -32768 ≤ v → v ≤ 32767 → wrap16 v = v :=
    fun v h1 h2 => wrap16_of_isInt16 ⟨h1, h2⟩
  have hcases : r = 0 ∨ r = 1 ∨ r = 2 ∨ r = 3 := by omega
  rcases hcases with h | h | h | h <;> subst h
  · simp [rotate_point, specTransform]
  · simp only [rotate_point, specTransform, SSD1306_WIDTH, if_true]
    rw [w _ (by omega) (by omega)]
    congr 1
    omega
  · simp only [rotate_point, specTransform, SSD1306_WIDTH, SSD1306_HEIGHT]
    rw [w (128 - x - 1) (by omega) (by omega), w (64 - y - 1) (by omega) (by omega)]
    simp only [show ¬ (2 = 1) by decide, if_false, if_true]
    congr 1 <;> omega
  · simp only [rotate_point, specTransform, SSD1306_HEIGHT]
    rw [w (64 - x - 1) (by omega) (by omega)]
    simp only [show ¬ (3 = 1) by decide, show ¬ (3 = 2) by decide, if_false, if_true]
    congr 1
    omega

/-- Bits of the byte stored by the colour `switch` with a one-bit mask. -/
theorem switch_color_byte {buf : Buffer} (hb : IsBuffer buf) (m k i : Nat)
    (hm : m = 0 ∨ m = 1 ∨ m = 2) (hi : i < 1024) {p : Int} (hp : p = (i : Int)) :
    ∃ v, switch_color m buf p (1 <<< k) = some (buf.set i v) ∧ v < 256 ∧
      ∀ j, j < 8 → v.testBit j =
        if j = k then paint m ((buf.getD i 0).testBit k) else (buf.getD i 0).testBit j := by
  have hlen : buf.length = 1024 := hb.1
  have hpn : p.toNat = i := by omega
  have key : ∀ f : Nat → Nat,
      (∀ b j, j < 8 → (f b % 256).testBit j =
        if j = k then paint m (b.testBit k) else b.testBit j) →
      ∃ v, modifyByte buf p f = some (buf.set i v) ∧ v < 256 ∧
        ∀ j, j < 8 → v.testBit j =
          if j = k then paint m ((buf.getD i 0).testBit k) else (buf.getD i 0).testBit j := by
    intro f hf
    refine ⟨f (buf.getD i 0) % 256, ?_, Nat.mod_lt _ (by decide), ?_⟩
    · rw [modifyByte_of_lt f (by omega) (by omega), hpn]
    · intro j hj
      exact hf _ j hj
  have hmask : ∀ j, (1 <<< k : Nat).testBit j = decide (k = j) := by
    intro j
    rw [Nat.one_shiftLeft, Nat.testBit_two_pow]
  rcases hm with h | h | h <;> subst h
  · refine key _ ?_
    intro b j hj
    rw [testBit_andNot_byte b _ j hj, hmask]
    by_cases c : k = j
    · subst c; simp [paint]
    · have c2 : ¬ j = k := fun e => c e.symm
      simp [c, c2]
  · refine key _ ?_
    intro b j hj
    rw [testBit_or_byte b _ j hj, hmask]
    by_cases c : k = j
    · subst c; simp [paint]
    · have c2 : ¬ j = k := fun e => c e.symm
      simp [c, c2]
  · refine key _ ?_
    intro b j hj
    rw [testBit_xor_byte b _ j hj, hmask]
    by_cases c : k = j
    · subst c; simp [paint]
    · have c2 : ¬ j = k := fun e => c e.symm
      simp [c, c2]

/-- C12: for every orientation `r` in 0..3, every mode `m` in WHITE, BLACK,
INVERSE and every logical in-bounds `(x, y)`, with `(x', y')` the point the
specification gives for `r`: `SSD1306_draw_pixel(x, y, m)` is the colour
`switch` on byte `x' + (y' / 8) * 128` with mask `1 << (y' & 7)`, and
`SSD1306_get_pixel(x, y)` reads bit `y' & 7` of that same byte; when that byte
is byte `i` of the buffer, the draw stores a byte whose bit `y' & 7` is the
mode applied to the old bit and whose other bits are the old ones, and leaves
every other byte alone. -/
theorem draw_pixel_addresses_transformed_bit (r m : Nat) (buf : Buffer) (x y : Int)
    (hb : IsBuffer buf) (hr : r < 4)
    (hm : m = SSD1306_WHITE ∨ m = SSD1306_BLACK ∨ m = SSD1306_INVERSE)
    (hx0 : 0 ≤ x) (hx1 : x < 128) (hy0 : 0 ≤ y) (hy1 : y < 64) :
    SSD1306_draw_pixel r buf x y m =
      switch_color m buf (byteIndex (specTransform r x y).1 (specTransform r x y).2)
        (1 <<< ((specTransform r x y).2 % 8).toNat) ∧
    SSD1306_get_pixel r buf x y =
      (loadByte buf (byteIndex (specTransform r x y).1 (specTransform r x y).2)).map
        (fun b => b.testBit ((specTransform r x y).2 % 8).toNat) ∧
    ∀ i : Nat, i < 1024 →
      byteIndex (specTransform r x y).1 (specTransform r x y).2 = (i : Int) →
      SSD1306_get_pixel r buf x y =
        some ((buf.getD i 0).testBit ((specTransform r x y).2 % 8).toNat) ∧
      ∃ v, SSD1306_draw_pixel r buf x y m = some (buf.set i v) ∧ v < 256 ∧
        ∀ j, j < 8 → v.testBit j =
          if j = ((specTransform r x y).2 % 8).toNat then
            paint m ((buf.getD i 0).testBit ((specTransform r x y).2 % 8).toNat)
          else (buf.getD i 0).testBit j := by
  have hrot := rotate_point_eq_specTransform r hr hx0 hx1 hy0 hy1
  generalize specTransform r x y = P at hrot
  obtain ⟨X, Y⟩ := P
  simp only
  have hd : SSD1306_draw_pixel r buf x y m =
      switch_color m buf (byteIndex X Y) (1 <<< (Y % 8).toNat) := by
    unfold SSD1306_draw_pixel
    rw [if_pos ⟨hx0, hx1, hy0, hy1⟩, hrot]
    rfl
  have hg : SSD1306_get_pixel r buf x y =
      (loadByte buf (byteIndex X Y)).map (fun b => b.testBit (Y % 8).toNat) := by
    unfold SSD1306_get_pixel
    rw [if_pos ⟨hx0, hx1, hy0, hy1⟩, hrot]
    simp only
    cases loadByte buf (byteIndex X Y) with
    | none => rfl
    | some b =>
      simp only [Option.map_some', bitMask, Nat.one_shiftLeft, land_two_pow_ne_zero]
  refine ⟨hd, hg, ?_⟩
  intro i hi hidx
  have hlen : buf.length = 1024 := hb.1
  have hm' : m = 0 ∨ m = 1 ∨ m = 2 := by
    simp only [SSD1306_WHITE, SSD1306_BLACK, SSD1306_INVERSE] at hm
    omega
  constructor
  · rw [hg, hidx]
    have := @loadByte_of_lt buf (i : Int) (by omega) (by rw [Int.toNat_ofNat]; omega)
    rw [Int.toNat_ofNat] at this
    rw [this]
    rfl
  · rw [hd]
    exact switch_color_byte hb m _ i hm' hi hidx

/-- C12 at orientation 2 and the pixel `(10, 20)`, which is bit 3 of byte
757 (physical point `(117, 43)`). -/
theorem draw_pixel_addresses_transformed_bit_witness :
    IsBuffer zeroBuffer ∧
    specTransform 2 10 20 = (117, 43) ∧ byteIndex 117 43 = 757 ∧
    SSD1306_draw_pixel 2 zeroBuffer 10 20 SSD1306_INVERSE =
      switch_color SSD1306_INVERSE zeroBuffer
        (byteIndex (specTransform 2 10 20).1 (specTransform 2 10 20).2)
        (1 <<< ((specTransform 2 10 20).2 % 8).toNat) :=
  ⟨isBuffer_zeroBuffer, by decide, by decide,
    (draw_pixel_addresses_transformed_bit 2 SSD1306_INVERSE zeroBuffer 10 20
      isBuffer_zeroBuffer (by decide) (Or.inr (Or.inr rfl)) (by decide) (by decide)
      (by decide) (by decide)).1⟩

/-! ## Clearing, initialisation and the orientation state -/

theorem display_clear_of_isBuffer {buf : Buffer} (hb : IsBuffer buf) :
    SSD1306_display_clear buf = some zeroBuffer := by
  have hlen : buf.length = 1024 := hb.1
  unfold SSD1306_display_clear
  rw [if_neg (by simp only [BUFFER_SIZE]; omega),
    List.drop_eq_nil_of_le (by simp only [BUFFER_SIZE]; omega), List.append_nil]
  rfl

theorem getD_zeroBuffer (k : Nat) : zeroBuffer.getD k 0 = 0 := by
  unfold zeroBuffer
  rw [List.getD_eq_getElem?_getD, List.getElem?_replicate]
  split_ifs <;> rfl

theorem pixelAt_zeroBuffer (px py : Nat) : pixelAt zeroBuffer px py = false := by
  unfold pixelAt
  rw [getD_zeroBuffer, Nat.zero_testBit]

/-- After `SSD1306_display_clear` the buffer is the all-zero buffer of 1024
bytes, clearing again changes nothing, and `SSD1306_get_pixel` returns false
wherever the rotated point lies inside the physical display. -/
theorem display_clear_spec {buf : Buffer} (hb : IsBuffer buf) :
    SSD1306_display_clear buf = some zeroBuffer ∧
    SSD1306_display_clear zeroBuffer = some zeroBuffer ∧
    zeroBuffer.length = 1024 ∧ (∀ b ∈ zeroBuffer, b = 0) ∧
    ∀ (r : Nat) (x y : Int), 0 ≤ x → x < 128 → 0 ≤ y → y < 64 →
      0 ≤ (rotate_point r x y).1 → (rotate_point r x y).1 < 128 →
      0 ≤ (rotate_point r x y).2 → (rotate_point r x y).2 < 64 →
      SSD1306_get_pixel r zeroBuffer x y = some false := by
  refine ⟨display_clear_of_isBuffer hb, display_clear_of_isBuffer isBuffer_zeroBuffer,
    isBuffer_zeroBuffer.1, ?_, ?_⟩
  · intro b hmem
    unfold zeroBuffer at hmem
    rw [List.mem_replicate] at hmem
    exact hmem.2
  · intro r x y h1 h2 h3 h4 h5 h6 h7 h8
    rw [get_pixel_spec isBuffer_zeroBuffer r h1 h2 h3 h4 h5 h6 h7 h8, pixelAt_zeroBuffer]

theorem isBuffer_replicate (v : Nat) (hv : v < 256) : IsBuffer (List.replicate 1024 v) := by
  refine ⟨List.length_replicate 1024 v, ?_⟩
  intro b hb
  rw [List.mem_replicate] at hb
  omega

section ClearThenRead

set_option maxRecDepth 100000

/-- C13 (failing input): `SSD1306_display_clear` turns the all-`0xFF` buffer
into the all-zero buffer, but at orientation 1 the following
`SSD1306_get_pixel(64, 0)` reads byte 1151, outside the 1024-byte buffer, and
at orientation 3 `SSD1306_get_pixel(72, 5)` reads byte -123: no `false` is
returned from the buffer there. -/
theorem get_pixel_after_clear_outside_buffer :
    SSD1306_display_clear (List.replicate 1024 255) = some zeroBuffer ∧
    SSD1306_get_pixel 1 zeroBuffer 64 0 = none ∧
    SSD1306_get_pixel 3 zeroBuffer 72 5 = none ∧
    run ⟨some (List.replicate 1024 255), 1, []⟩ [Call.display_clear, Call.get_pixel 64 0]
      = none := by
  have h : SSD1306_display_clear (List.replicate 1024 255) = some zeroBuffer :=
    display_clear_of_isBuffer (isBuffer_replicate 255 (by decide))
  refine ⟨h, by decide, by decide, ?_⟩
  simp only [run, step, Driver.display_clear, Driver.withBuffer, h, Option.map_some',
    Option.some_bind, Driver.get_pixel, Option.getD_some]
  decide

/-- The same read on the memory of the target: at orientation 1,
`SSD1306_get_pixel(64, 0)` after `SSD1306_display_clear()` reads bit 0 of the
byte behind index 1151, outside the cleared block, and returns `true` when
that byte holds `0xFF`. -/
theorem Machine.get_pixel_after_clear_reads_outside :
    (Machine.step ⟨⟨some zeroBuffer, 1, []⟩, fun _ => 255⟩ Call.display_clear).bind
      (fun m => m.get_pixel 64 0) = some true := by
  decide

end ClearThenRead

/-- C14: with a held buffer of 1024 bytes (or none) and a `malloc` that
yields 1024 bytes when it succeeds, `SSD1306_init` returns; it returns false
if and only if no buffer is held and the allocation fails, and then it has
sent no command byte, left the orientation unchanged and holds no buffer; in
every other case it returns true. -/
theorem init_false_iff_allocation_fails (s : Driver) (malloc : Option Buffer)
    (hs : ∀ b, s.buffer = some b → IsBuffer b) (hmalloc : ∀ b, malloc = some b → IsBuffer b) :
    ∃ r s', SSD1306_init s malloc = some (r, s') ∧
      (r = false ↔ (s.buffer = none ∧ malloc = none)) ∧
      (r = false → s'.sent = s.sent ∧ s'.rotation = s.rotation ∧ s'.buffer = none) ∧
      (r = true ↔ ¬ (s.buffer = none ∧ malloc = none)) := by
  obtain ⟨buffer, rotation, sent⟩ := s
  simp only at hs
  cases hbuf : buffer with
  | some b =>
    have hb := hs b hbuf
    refine ⟨true, SSD1306_set_rotation (init_commands.foldl SSD1306_send_com
      ⟨some zeroBuffer, rotation, sent⟩) SSD1306_HORIZONTAL_MODE2, ?_, by simp, by simp, by simp⟩
    unfold SSD1306_init
    simp only [display_clear_of_isBuffer hb]
  | none =>
    cases hmal : malloc with
    | none =>
      refine ⟨false, ⟨none, rotation, sent⟩, ?_, by simp, by simp, by simp⟩
      unfold SSD1306_init
      simp only
    | some b =>
      have hb := hmalloc b hmal
      refine ⟨true, SSD1306_set_rotation (init_commands.foldl SSD1306_send_com
        ⟨some zeroBuffer, rotation, sent⟩) SSD1306_HORIZONTAL_MODE2, ?_, by simp, by simp,
        by simp⟩
      unfold SSD1306_init
      simp only [display_clear_of_isBuffer hb]

/-- C14 at program start with a failing allocation. -/
theorem init_false_iff_allocation_fails_witness :
    (∀ b, Driver.initial.buffer = some b → IsBuffer b) ∧
    (∀ b, (none : Option Buffer) = some b → IsBuffer b) ∧
    ∃ r s', SSD1306_init Driver.initial none = some (r, s') ∧
      (r = false ↔ (Driver.initial.buffer = none ∧ (none : Option Buffer) = none)) ∧
      (r = false → s'.sent = Driver.initial.sent ∧ s'.rotation = Driver.initial.rotation ∧
        s'.buffer = none) ∧
      (r = true ↔ ¬ (Driver.initial.buffer = none ∧ (none : Option Buffer) = none)) :=
  ⟨fun _ h => Option.noConfusion h, fun _ h => Option.noConfusion h,
    init_false_iff_allocation_fails Driver.initial none
      (fun _ h => Option.noConfusion h) (fun _ h => Option.noConfusion h)⟩

/-! ## Calls without a buffer -/

theorem loadByte_nil (p : Int) : loadByte [] p = none := by
  unfold loadByte
  split_ifs <;> rfl

theorem modifyByte_nil (p : Int) (f : Nat → Nat) : modifyByte [] p f = none := by
  unfold modifyByte
  rw [loadByte_nil]

theorem switch_color_nil {m : Nat} (hm : m = 0 ∨ m = 1 ∨ m = 2) (p : Int) (mask : Nat) :
    switch_color m [] p mask = none := by
  rcases hm with h | h | h <;> subst h <;> exact modifyByte_nil _ _

theorem hline_internal_nil {m : Nat} (hm : m = 0 ∨ m = 1 ∨ m = 2) (x y w : Int) :
    SSD1306_draw_fast_hline_internal [] x y w m =
      if run_drawn false x y w then none else some [] := by
  unfold run_drawn
  simp only [Bool.false_eq_true, if_false]
  unfold SSD1306_draw_fast_hline_internal
  by_cases hy : 0 ≤ y ∧ y < SSD1306_HEIGHT
  · rw [if_pos hy]
    simp only
    by_cases hw : (clip_run SSD1306_WIDTH x w).2 > 0
    · rw [if_pos hw, if_pos ⟨hy.1, hy.2, hw⟩]
      obtain ⟨n, hn⟩ : ∃ n, (clip_run SSD1306_WIDTH x w).2.toNat = n + 1 :=
        ⟨(clip_run SSD1306_WIDTH x w).2.toNat - 1, by omega⟩
      rw [hn]
      rcases hm with h | h | h <;> subst h <;>
        simp only [hline_loop, modifyByte_nil, Option.none_bind]
    · rw [if_neg hw, if_neg (fun h => hw h.2.2)]
  · rw [if_neg hy, if_neg (fun h => hy ⟨h.1, h.2.1⟩)]

theorem vline_internal_nil {m : Nat} (hm : m = 0 ∨ m = 1 ∨ m = 2) (x : Int) {y : Int} (h : Int)
    (hy : IsInt16 y) :
    SSD1306_draw_fast_vline_internal [] x y h m =
      if run_drawn true x y h then none else some [] := by
  unfold run_drawn
  simp only [if_true]
  obtain ⟨hr0, hr1⟩ := clip_run_range 64 h (by decide) (by decide) hy
  unfold SSD1306_draw_fast_vline_internal
  by_cases hx : 0 ≤ x ∧ x < SSD1306_WIDTH
  · rw [if_pos hx]
    simp only
    by_cases hh : (clip_run SSD1306_HEIGHT y h).2 > 0
    · rw [if_pos hh, if_pos ⟨hx.1, hx.2, hh⟩]
      have hsum := hr1 hh
      generalize (clip_run SSD1306_HEIGHT y h).1 = y1 at hr0 hsum
      generalize (clip_run SSD1306_HEIGHT y h).2 = h2 at hh hsum
      have hpos : 0 < (h2 % 256).toNat := by omega
      have hlt : (h2 % 256).toNat ≤ 64 := by omega
      generalize (h2 % 256).toNat = hn at hpos hlt
      generalize (y1 % 256).toNat = yn
      generalize ((yn / 8 : Nat) : Int) * SSD1306_WIDTH + x = p
      unfold vline_first
      by_cases c : yn % 8 = 0
      · simp only [c, ne_eq, not_true_eq_false, if_false, Option.some_bind]
        unfold vline_rest
        rw [if_pos (by omega)]
        simp only [Nat.sub_zero]
        by_cases c8 : hn < 8
        · rw [vline_full_loop_lt _ _ c8]
          simp only [Option.some_bind]
          rw [if_pos (by omega)]
          exact switch_color_nil hm _ _
        · obtain ⟨k, hk⟩ : ∃ k, hn = k + 8 := ⟨hn - 8, by omega⟩
          rw [hk, vline_full_loop_add, modifyByte_nil]
          rfl
      · simp only [c, ne_eq, not_false_eq_true, if_true]
        rw [switch_color_nil hm]
        rfl
    · rw [if_neg hh, if_neg (fun h => hh h.2.2)]
  · rw [if_neg hx, if_neg (fun h => hx ⟨h.1, h.2.1⟩)]

/-- C15 as amended: when no buffer has been allocated nothing stops a
drawing call.  `SSD1306_display_clear` always, `SSD1306_get_pixel` for every
logical in-bounds point, and `SSD1306_draw_pixel` there with one of the three
modes, access memory through the null pointer, as do
`SSD1306_draw_fast_hline` and `SSD1306_draw_fast_vline` with one of the three
modes whenever the routed physical run reaches the display; a call performs
no access (and changes nothing) only when its bounds checks reject or clip
away its arguments. -/
theorem calls_without_buffer (s : Driver) (hs : s.buffer = none) :
    s.display_clear = none ∧
    (∀ x y : Int, 0 ≤ x → x < 128 → 0 ≤ y → y < 64 →
      s.get_pixel x y = none ∧
      ∀ m, (m = SSD1306_WHITE ∨ m = SSD1306_BLACK ∨ m = SSD1306_INVERSE) →
        s.draw_pixel x y m = none) ∧
    (∀ (x y : Int) (c : Nat), (x < 0 ∨ 128 ≤ x ∨ y < 0 ∨ 64 ≤ y) →
      s.draw_pixel x y c = some s ∧ s.get_pixel x y = some false) ∧
    (∀ (x y n : Int) (m : Nat), IsInt16 x → IsInt16 y →
      (m = SSD1306_WHITE ∨ m = SSD1306_BLACK ∨ m = SSD1306_INVERSE) →
      s.draw_fast_hline x y n m =
        (if run_drawn (hline_route s.rotation x y n).1 (hline_route s.rotation x y n).2.1
            (hline_route s.rotation x y n).2.2 n then none else some s) ∧
      s.draw_fast_vline x y n m =
        (if run_drawn (!(vline_route s.rotation x y n).1) (vline_route s.rotation x y n).2.1
            (vline_route s.rotation x y n).2.2 n then none else some s)) := by
  have hmodes : ∀ m, (m = SSD1306_WHITE ∨ m = SSD1306_BLACK ∨ m = SSD1306_INVERSE) →
      (m = 0 ∨ m = 1 ∨ m = 2) := by
    intro m hm
    simp only [SSD1306_WHITE, SSD1306_BLACK, SSD1306_INVERSE] at hm
    omega
  refine ⟨?_, ?_, ?_, ?_⟩
  · unfold Driver.display_clear Driver.withBuffer
    rw [hs]
    rfl
  · intro x y hx0 hx1 hy0 hy1
    constructor
    · unfold Driver.get_pixel SSD1306_get_pixel
      rw [hs, if_pos ⟨hx0, hx1, hy0, hy1⟩]
      simp only [Option.getD_none, loadByte_nil]
    · intro m hm
      unfold Driver.draw_pixel Driver.withBuffer SSD1306_draw_pixel
      rw [hs]
      simp only [if_pos (show 0 ≤ x ∧ x < SSD1306_WIDTH ∧ 0 ≤ y ∧ y < SSD1306_HEIGHT from
        ⟨hx0, hx1, hy0, hy1⟩), switch_color_nil (hmodes m hm), Option.map_none']
  · intro x y c hout
    obtain ⟨h3, h4⟩ := pixel_out_of_bounds s.rotation c [] x y hout
    constructor
    · unfold Driver.draw_pixel Driver.withBuffer
      rw [hs]
      simp only [h3, Option.map_some']
    · unfold Driver.get_pixel
      rw [hs]
      exact h4
  · intro x y n m hx hy hm
    have hm' := hmodes m hm
    obtain ⟨h1, h2⟩ := hline_route_isInt16 s.rotation n hx hy
    obtain ⟨v1, v2⟩ := vline_route_isInt16 s.rotation n hx hy
    constructor
    · unfold Driver.draw_fast_hline Driver.withBuffer SSD1306_draw_fast_hline
      rw [hs]
      simp only
      by_cases c : (hline_route s.rotation x y n).1 = true
      · rw [if_pos c, vline_internal_nil hm' _ _ h2, c]
        split_ifs <;> rfl
      · rw [if_neg c, hline_internal_nil hm']
        have c2 : (hline_route s.rotation x y n).1 = false := by
          cases hc : (hline_route s.rotation x y n).1
          · rfl
          · exact absurd hc c
        rw [c2]
        split_ifs <;> rfl
    · unfold Driver.draw_fast_vline Driver.withBuffer SSD1306_draw_fast_vline
      rw [hs]
      simp only
      by_cases c : (vline_route s.rotation x y n).1 = true
      · rw [if_pos c, hline_internal_nil hm', c]
        simp only [Bool.not_true]
        split_ifs <;> rfl
      · rw [if_neg c, vline_internal_nil hm' _ _ v2]
        have c2 : (vline_route s.rotation x y n).1 = false := by
          cases hc : (vline_route s.rotation x y n).1
          · rfl
          · exact absurd hc c
        rw [c2]
        simp only [Bool.not_false]
        split_ifs <;> rfl

/-- C15 as amended, at program start. -/
theorem calls_without_buffer_witness :
    Driver.initial.buffer = none ∧ Driver.initial.display_clear = none ∧
    Driver.initial.get_pixel 0 0 = none ∧
    Driver.initial.draw_pixel 200 0 SSD1306_WHITE = some Driver.initial :=
  ⟨rfl, (calls_without_buffer Driver.initial rfl).1,
    ((calls_without_buffer Driver.initial rfl).2.1 0 0 (by decide) (by decide) (by decide)
      (by decide)).1,
    ((calls_without_buffer Driver.initial rfl).2.2.1 200 0 SSD1306_WHITE (by decide)).1⟩

/-- C15 (counterexample): at program start, and again after an
`SSD1306_init` that returned false, no buffer is held, yet
`SSD1306_draw_pixel(0, 0, SSD1306_WHITE)`, `SSD1306_get_pixel(0, 0)`,
`SSD1306_display_clear()`, `SSD1306_draw_fast_hline(0, 0, 1, SSD1306_WHITE)`
and `SSD1306_draw_fast_vline(0, 0, 1, SSD1306_WHITE)` each access a byte
through the null pointer. -/
theorem drawing_calls_dereference_null :
    Driver.initial.buffer = none ∧
    SSD1306_init Driver.initial none = some (false, Driver.initial) ∧
    Driver.initial.draw_pixel 0 0 SSD1306_WHITE = none ∧
    Driver.initial.get_pixel 0 0 = none ∧
    Driver.initial.display_clear = none ∧
    Driver.initial.draw_fast_hline 0 0 1 SSD1306_WHITE = none ∧
    Driver.initial.draw_fast_vline 0 0 1 SSD1306_WHITE = none := by
  decide

/-! ## The orientation state -/

theorem withBuffer_frame {s s' : Driver} {f : Buffer → Option Buffer}
    (h : s.withBuffer f = some s') : s'.rotation = s.rotation ∧ s'.sent = s.sent := by
  unfold Driver.withBuffer at h
  cases hb : s.buffer with
  | none =>
    rw [hb] at h
    simp only [Option.map_eq_some'] at h
    obtain ⟨_, _, h2⟩ := h
    subst h2
    exact ⟨rfl, rfl⟩
  | some b =>
    rw [hb] at h
    simp only [Option.map_eq_some'] at h
    obtain ⟨_, _, h2⟩ := h
    subst h2
    exact ⟨rfl, rfl⟩

theorem step_drawing_rotation {s s' : Driver} {c : Call} (hc : c.isDrawing = true)
    (h : step s c = some s') : s'.rotation = s.rotation := by
  cases c with
  | draw_pixel x y color => exact (withBuffer_frame h).1
  | draw_fast_hline x y w color => exact (withBuffer_frame h).1
  | draw_fast_vline x y h' color => exact (withBuffer_frame h).1
  | display_clear => exact (withBuffer_frame h).1
  | get_pixel x y =>
    unfold step at h
    simp only [Option.map_eq_some'] at h
    obtain ⟨_, _, h2⟩ := h
    subst h2
    rfl
  | set_rotation rot => exact absurd hc (by simp [Call.isDrawing])
  | init malloc => exact absurd hc (by simp [Call.isDrawing])

theorem run_drawing_rotation (calls : List Call) :
    ∀ (s s' : Driver), (∀ c ∈ calls, c.isDrawing = true) → run s calls = some s' →
      s'.rotation = s.rotation := by
  induction calls with
  | nil =>
    intro s s' _ h
    simp only [run, Option.some.injEq] at h
    subst h
    rfl
  | cons c cs ih =>
    intro s s' hd h
    simp only [run, Option.bind_eq_some] at h
    obtain ⟨s1, h1, h2⟩ := h
    rw [ih s1 s' (fun c' hc' => hd c' (List.mem_cons_of_mem _ hc')) h2]
    exact step_drawing_rotation (hd c (List.mem_cons_self _ _)) h1

section OrientationExamples

set_option maxRecDepth 100000

/-- C17 (counterexample): `SSD1306_set_rotation(7)` at program start leaves
the orientation state at 7, which is none of 0, 1, 2, 3. -/
theorem set_rotation_stores_any_value :
    SSD1306_get_rotation (SSD1306_set_rotation Driver.initial 7) = 7 ∧
    run Driver.initial [Call.set_rotation 7] = some ⟨none, 7, []⟩ ∧
    (run Driver.initial [Call.init (some zeroBuffer), Call.set_rotation 255]).map
      (fun s => s.rotation) = some 255 := by
  decide

end OrientationExamples

theorem init_rotation {s s' : Driver} {malloc : Option Buffer} {r : Bool}
    (h : SSD1306_init s malloc = some (r, s')) :
    s'.rotation = s.rotation ∨ s'.rotation = 2 := by
  unfold SSD1306_init at h
  simp only at h
  split at h
  · simp only [Option.some.injEq, Prod.mk.injEq] at h
    obtain ⟨_, h2⟩ := h
    subst h2
    left
    split <;> rfl
  · split at h
    · exact Option.noConfusion h
    · simp only [Option.some.injEq, Prod.mk.injEq] at h
      obtain ⟨_, h2⟩ := h
      subst h2
      right
      rfl

theorem run_rotation (calls : List Call) :
    ∀ (s s' : Driver), run s calls = some s' →
      s'.rotation = s.rotation ∨ s'.rotation = 2 ∨
        ∃ v, Call.set_rotation v ∈ calls ∧ s'.rotation = v % 256 := by
  induction calls with
  | nil =>
    intro s s' h
    simp only [run, Option.some.injEq] at h
    subst h
    exact Or.inl rfl
  | cons c cs ih =>
    intro s s' h
    simp only [run, Option.bind_eq_some] at h
    obtain ⟨s1, h1, h2⟩ := h
    have hstep : s1.rotation = s.rotation ∨ s1.rotation = 2 ∨
        ∃ v, c = Call.set_rotation v ∧ s1.rotation = v % 256 := by
      cases hc : c.isDrawing
      · cases c with
        | set_rotation rot =>
          simp only [step, Option.some.injEq] at h1
          subst h1
          exact Or.inr (Or.inr ⟨rot, rfl, rfl⟩)
        | init malloc =>
          simp only [step, Option.map_eq_some'] at h1
          obtain ⟨⟨r, s2⟩, h3, h4⟩ := h1
          simp only at h4
          subst h4
          rcases init_rotation h3 with h5 | h5
          · exact Or.inl h5
          · exact Or.inr (Or.inl h5)
        | draw_pixel x y color => simp [Call.isDrawing] at hc
        | draw_fast_hline x y w color => simp [Call.isDrawing] at hc
        | draw_fast_vline x y h' color => simp [Call.isDrawing] at hc
        | display_clear => simp [Call.isDrawing] at hc
        | get_pixel x y => simp [Call.isDrawing] at hc
      · exact Or.inl (step_drawing_rotation hc h1)
    rcases ih s1 s' h2 with h3 | h3 | ⟨v, hv, h3⟩
    · rcases hstep with h4 | h4 | ⟨v, hv, h4⟩
      · exact Or.inl (h3.trans h4)
      · exact Or.inr (Or.inl (h3.trans h4))
      · exact Or.inr (Or.inr ⟨v, by rw [hv]; exact List.mem_cons_self _ _, h3.trans h4⟩)
    · exact Or.inr (Or.inl h3)
    · exact Or.inr (Or.inr ⟨v, List.mem_cons_of_mem _ hv, h3⟩)

/-- C17 as amended: in every state reached from program start through the
public operations, the orientation state is 0 (the initial value), 2 (stored
by an `SSD1306_init` that returned true) or the `uint8_t` argument of one of
the `SSD1306_set_rotation` calls made, whatever value that is; hence it is one
of 0, 1, 2, 3 whenever every `SSD1306_set_rotation` argument is. -/
theorem rotation_of_reachable_state (calls : List Call) (s' : Driver)
    (hrun : run Driver.initial calls = some s') :
    (s'.rotation = 0 ∨ s'.rotation = 2 ∨
      ∃ v, Call.set_rotation v ∈ calls ∧ s'.rotation = v % 256) ∧
    ((∀ v, Call.set_rotation v ∈ calls → v < 4) → s'.rotation < 4) := by
  have h := run_rotation calls Driver.initial s' hrun
  have h0 : Driver.initial.rotation = 0 := rfl
  rw [h0] at h
  refine ⟨h, ?_⟩
  intro hall
  rcases h with h1 | h1 | ⟨v, hv, h1⟩
  · omega
  · omega
  · have := hall v hv
    omega

/-- C17 as amended, at the sequence `set_rotation(3)`, `set_rotation(1)`. -/
theorem rotation_of_reachable_state_witness :
    run Driver.initial [Call.set_rotation 3, Call.set_rotation 1] = some ⟨none, 1, []⟩ ∧
    ((⟨none, 1, []⟩ : Driver).rotation = 0 ∨ (⟨none, 1, []⟩ : Driver).rotation = 2 ∨
      ∃ v, Call.set_rotation v ∈ [Call.set_rotation 3, Call.set_rotation 1] ∧
        (⟨none, 1, []⟩ : Driver).rotation = v % 256) :=
  ⟨rfl, (rotation_of_reachable_state [Call.set_rotation 3, Call.set_rotation 1]
    ⟨none, 1, []⟩ rfl).1⟩

/-- Pixels after `SSD1306_draw_fast_vline_internal` for one of the three
modes and a non-negative height: the rows of the run inside the display are
painted. -/
theorem vline_internal_pixels {buf : Buffer} (hb : IsBuffer buf) {m : Nat}
    (hm : m = 0 ∨ m = 1 ∨ m = 2) (x : Int) {y h : Int} (hy : IsInt16 y) (hh0 : 0 ≤ h)
    (hh : IsInt16 h) :
    ∃ buf', SSD1306_draw_fast_vline_internal buf x y h m = some buf' ∧ IsBuffer buf' ∧
      ∀ px py, px < 128 → py < 64 → pixelAt buf' px py =
        if (px : Int) = x ∧ y ≤ (py : Int) ∧ (py : Int) < y + h then
          paint m (pixelAt buf px py)
        else pixelAt buf px py := by
  obtain ⟨b1, e1, hb1, s1⟩ := vline_internal_spec hb m x h hy
  refine ⟨b1, e1, hb1, ?_⟩
  intro px py hpx hpy
  rw [s1 px py hpx hpy]
  have hclip := clip_run_nonneg 64 (by decide) (by decide) hy hh0 hh (py : Int)
    (by omega) (by omega)
  simp only [paintFull_eq_paint hm, ite_self]
  by_cases c : (px : Int) = x ∧ y ≤ (py : Int) ∧ (py : Int) < y + h
  · rw [if_pos ⟨c.1, hclip.2 c.2⟩, if_pos c]
  · rw [if_neg (fun hc => c ⟨hc.1, hclip.1 hc.2⟩), if_neg c]

/-! ## Runs through the public entry points -/

/-- Pixels after `SSD1306_draw_fast_hline_internal` for a non-negative width:
the columns of the run inside the display are painted. -/
theorem hline_internal_run_pixels {buf : Buffer} (hb : IsBuffer buf) (m : Nat) {x : Int}
    (y : Int) {w : Int} (hx : IsInt16 x) (hw0 : 0 ≤ w) (hw : IsInt16 w) :
    ∃ buf', SSD1306_draw_fast_hline_internal buf x y w m = some buf' ∧ IsBuffer buf' ∧
      ∀ px py, px < 128 → py < 64 → pixelAt buf' px py =
        if (py : Int) = y ∧ x ≤ (px : Int) ∧ (px : Int) < x + w then
          paint m (pixelAt buf px py)
        else pixelAt buf px py := by
  obtain ⟨b1, e1, hb1, s1⟩ := hline_internal_spec hb m y w hx
  refine ⟨b1, e1, hb1, ?_⟩
  intro px py hpx hpy
  rw [s1 px py hpx hpy]
  have hclip := clip_run_nonneg 128 (by decide) (by decide) hx hw0 hw (px : Int)
    (by omega) (by omega)
  by_cases c : (py : Int) = y ∧ x ≤ (px : Int) ∧ (px : Int) < x + w
  · rw [if_pos ⟨c.1, hclip.2 c.2⟩, if_pos c]
  · rw [if_neg (fun hc => c ⟨hc.1, hclip.1 hc.2⟩), if_neg c]

/-- Pixels after a physical run primitive, chosen by `vertical`, for one of
the three modes and a non-negative length: exactly the points of the run
(`run_covers`) are painted. -/
theorem internal_run_pixels {buf : Buffer} (hb : IsBuffer buf) {m : Nat}
    (hm : m = 0 ∨ m = 1 ∨ m = 2) (vertical : Bool) {X Y L : Int}
    (hX : IsInt16 X) (hY : IsInt16 Y) (hL0 : 0 ≤ L) (hL : IsInt16 L) :
    ∃ buf', (if vertical then SSD1306_draw_fast_vline_internal buf X Y L m
        else SSD1306_draw_fast_hline_internal buf X Y L m) = some buf' ∧ IsBuffer buf' ∧
      ∀ px py : Nat, px < 128 → py < 64 →
        (run_covers vertical X Y L px py → pixelAt buf' px py = paint m (pixelAt buf px py)) ∧
        (¬ run_covers vertical X Y L px py → pixelAt buf' px py = pixelAt buf px py) := by
  cases vertical with
  | true =>
    obtain ⟨b1, e1, hb1, s1⟩ := vline_internal_pixels hb hm X hY hL0 hL
    refine ⟨b1, by simpa using e1, hb1, ?_⟩
    intro px py hpx hpy
    rw [s1 px py hpx hpy]
    simp only [run_covers, if_true]
    constructor
    · intro c; rw [if_pos c]
    · intro c; rw [if_neg c]
  | false =>
    obtain ⟨b1, e1, hb1, s1⟩ := hline_internal_run_pixels hb m Y hX hL0 hL
    refine ⟨b1, by simpa using e1, hb1, ?_⟩
    intro px py hpx hpy
    rw [s1 px py hpx hpy]
    simp only [run_covers, Bool.false_eq_true, if_false]
    constructor
    · intro c; rw [if_pos c]
    · intro c; rw [if_neg c]

/-- C5: for every orientation `r` in 0..3 and every logical run of length
`L >= 1` from `(x, y)`, with values small enough that no `int16_t`
conversion wraps.  `SSD1306_draw_fast_hline(x, y, L, color)` is the call of
the vertical primitive when `r` is 1 or 3 and of the horizontal primitive
otherwise, with the start point of `hline_route` and the length `L`, and
`SSD1306_draw_fast_vline(x, y, L, color)` is the call of the horizontal
primitive when `r` is 1 or 3 and of the vertical primitive otherwise, with the
start point of `vline_route` and the length `L`.  The physical run handed on
covers exactly the points `T_r(x + i, y)`, respectively `T_r(x, y + i)`,
`0 <= i < L`, where `T_r` is the point transform of `SSD1306_draw_pixel`
(which is the transform the specification writes down).  On a 1024-byte
buffer and for the three modes the call paints exactly those of these points
that lie in the display. -/
theorem fast_runs_cover_transformed_points (r : Nat) (x y L : Int) (hr : r < 4)
    (hL : 1 ≤ L) (hL1 : L ≤ 16000) (hx0 : -16000 ≤ x) (hx1 : x ≤ 16000)
    (hy0 : -16000 ≤ y) (hy1 : y ≤ 16000) :
    (∀ (buf : Buffer) (color : Nat),
      SSD1306_draw_fast_hline r buf x y L color =
        (if r = 1 ∨ r = 3 then
          SSD1306_draw_fast_vline_internal buf (hline_route r x y L).2.1
            (hline_route r x y L).2.2 L color
        else
          SSD1306_draw_fast_hline_internal buf (hline_route r x y L).2.1
            (hline_route r x y L).2.2 L color) ∧
      SSD1306_draw_fast_vline r buf x y L color =
        (if r = 1 ∨ r = 3 then
          SSD1306_draw_fast_hline_internal buf (vline_route r x y L).2.1
            (vline_route r x y L).2.2 L color
        else
          SSD1306_draw_fast_vline_internal buf (vline_route r x y L).2.1
            (vline_route r x y L).2.2 L color)) ∧
    ((hline_route r x y L).1 = true ↔ (r = 1 ∨ r = 3)) ∧
    ((vline_route r x y L).1 = true ↔ (r = 1 ∨ r = 3)) ∧
    (∀ i : Int, 0 ≤ i → i < L →
      rotate_point r (x + i) y = specTransform r (x + i) y ∧
      rotate_point r x (y + i) = specTransform r x (y + i)) ∧
    (∀ px py : Int,
      run_covers (hline_route r x y L).1 (hline_route r x y L).2.1 (hline_route r x y L).2.2 L
        px py ↔ ∃ i : Int, 0 ≤ i ∧ i < L ∧ rotate_point r (x + i) y = (px, py)) ∧
    (∀ px py : Int,
      run_covers (!(vline_route r x y L).1) (vline_route r x y L).2.1 (vline_route r x y L).2.2 L
        px py ↔ ∃ i : Int, 0 ≤ i ∧ i < L ∧ rotate_point r x (y + i) = (px, py)) ∧
    (∀ (buf : Buffer) (m : Nat), IsBuffer buf →
      m = SSD1306_WHITE ∨ m = SSD1306_BLACK ∨ m = SSD1306_INVERSE →
      (∃ b1, SSD1306_draw_fast_hline r buf x y L m = some b1 ∧ IsBuffer b1 ∧
        ∀ px py : Nat, px < 128 → py < 64 →
          ((∃ i : Int, 0 ≤ i ∧ i < L ∧ rotate_point r (x + i) y = ((px : Int), (py : Int))) →
            pixelAt b1 px py = paint m (pixelAt buf px py)) ∧
          ((¬ ∃ i : Int, 0 ≤ i ∧ i < L ∧ rotate_point r (x + i) y = ((px : Int), (py : Int))) →
            pixelAt b1 px py = pixelAt buf px py)) ∧
      (∃ b1, SSD1306_draw_fast_vline r buf x y L m = some b1 ∧ IsBuffer b1 ∧
        ∀ px py : Nat, px < 128 → py < 64 →
          ((∃ i : Int, 0 ≤ i ∧ i < L ∧ rotate_point r x (y + i) = ((px : Int), (py : Int))) →
            pixelAt b1 px py = paint m (pixelAt buf px py)) ∧
          ((¬ ∃ i : Int, 0 ≤ i ∧ i < L ∧ rotate_point r x (y + i) = ((px : Int), (py : Int))) →
            pixelAt b1 px py = pixelAt buf px py))) := by
  obtain ⟨c1, c2, c3, c4, c5⟩ :=
    route_covers_transformed_points r x y L hr hL hL1 hx0 hx1 hy0 hy1
  have hxi : IsInt16 x := ⟨by omega, by omega⟩
  have hyi : IsInt16 y := ⟨by omega, by omega⟩
  have hLi : IsInt16 L := ⟨by omega, by omega⟩
  have hh : ∀ (buf : Buffer) (color : Nat), SSD1306_draw_fast_hline r buf x y L color =
      (if (hline_route r x y L).1 = true then
        SSD1306_draw_fast_vline_internal buf (hline_route r x y L).2.1
          (hline_route r x y L).2.2 L color
      else
        SSD1306_draw_fast_hline_internal buf (hline_route r x y L).2.1
          (hline_route r x y L).2.2 L color) := fun _ _ => rfl
  have hv : ∀ (buf : Buffer) (color : Nat), SSD1306_draw_fast_vline r buf x y L color =
      (if (!(vline_route r x y L).1) = true then
        SSD1306_draw_fast_vline_internal buf (vline_route r x y L).2.1
          (vline_route r x y L).2.2 L color
      else
        SSD1306_draw_fast_hline_internal buf (vline_route r x y L).2.1
          (vline_route r x y L).2.2 L color) := by
    intro buf color
    unfold SSD1306_draw_fast_vline
    simp only
    cases (vline_route r x y L).1 <;> simp
  refine ⟨?_, c1, c2, c3, c4, c5, ?_⟩
  · intro buf color
    constructor
    · rw [hh]
      by_cases c : r = 1 ∨ r = 3
      · rw [if_pos c, if_pos (c1.2 c)]
      · rw [if_neg c, if_neg (fun h => c (c1.1 h))]
    · unfold SSD1306_draw_fast_vline
      simp only
      by_cases c : r = 1 ∨ r = 3
      · rw [if_pos c, if_pos (c2.2 c)]
      · rw [if_neg c, if_neg (fun h => c (c2.1 h))]
  · intro buf m hb hm
    have hm' : m = 0 ∨ m = 1 ∨ m = 2 := by
      rcases hm with h | h | h
      · exact Or.inr (Or.inl h)
      · exact Or.inl h
      · exact Or.inr (Or.inr h)
    constructor
    · obtain ⟨h1, h2⟩ := hline_route_isInt16 r L hxi hyi
      obtain ⟨b1, e1, hb1, s1⟩ := internal_run_pixels hb hm' (hline_route r x y L).1 h1 h2
        (by omega) hLi
      refine ⟨b1, by rw [hh]; exact e1, hb1, ?_⟩
      intro px py hpx hpy
      obtain ⟨p1, p2⟩ := s1 px py hpx hpy
      exact ⟨fun h => p1 ((c4 px py).2 h), fun h => p2 (fun hc => h ((c4 px py).1 hc))⟩
    · obtain ⟨h1, h2⟩ := vline_route_isInt16 r L hxi hyi
      obtain ⟨b1, e1, hb1, s1⟩ := internal_run_pixels hb hm' (!(vline_route r x y L).1) h1 h2
        (by omega) hLi
      refine ⟨b1, by rw [hv]; exact e1, hb1, ?_⟩
      intro px py hpx hpy
      obtain ⟨p1, p2⟩ := s1 px py hpx hpy
      exact ⟨fun h => p1 ((c5 px py).2 h), fun h => p2 (fun hc => h ((c5 px py).1 hc))⟩

/-- C5 at orientation 1 and the logical run of length 5 from `(10, 20)`:
`SSD1306_draw_fast_hline` calls the vertical primitive at `(107, 10)`,
`SSD1306_draw_fast_vline` the horizontal primitive at `(103, 10)`, each with
length 5. -/
theorem fast_runs_cover_transformed_points_witness :
    (1 : Nat) < 4 ∧ (1 : Int) ≤ 5 ∧ (5 : Int) ≤ 16000 ∧ (-16000 : Int) ≤ 10 ∧
    (10 : Int) ≤ 16000 ∧ (-16000 : Int) ≤ 20 ∧ (20 : Int) ≤ 16000 ∧
    hline_route 1 10 20 5 = (true, 107, 10) ∧ vline_route 1 10 20 5 = (true, 103, 10) ∧
    (∀ (buf : Buffer) (color : Nat),
      SSD1306_draw_fast_hline 1 buf 10 20 5 color =
        (if 1 = 1 ∨ 1 = 3 then
          SSD1306_draw_fast_vline_internal buf (hline_route 1 10 20 5).2.1
            (hline_route 1 10 20 5).2.2 5 color
        else
          SSD1306_draw_fast_hline_internal buf (hline_route 1 10 20 5).2.1
            (hline_route 1 10 20 5).2.2 5 color) ∧
      SSD1306_draw_fast_vline 1 buf 10 20 5 color =
        (if 1 = 1 ∨ 1 = 3 then
          SSD1306_draw_fast_hline_internal buf (vline_route 1 10 20 5).2.1
            (vline_route 1 10 20 5).2.2 5 color
        else
          SSD1306_draw_fast_vline_internal buf (vline_route 1 10 20 5).2.1
            (vline_route 1 10 20 5).2.2 5 color)) ∧
    ((hline_route 1 10 20 5).1 = true ↔ (1 = 1 ∨ 1 = 3)) ∧
    ((vline_route 1 10 20 5).1 = true ↔ (1 = 1 ∨ 1 = 3)) ∧
    (∀ i : Int, 0 ≤ i → i < 5 →
      rotate_point 1 (10 + i) 20 = specTransform 1 (10 + i) 20 ∧
      rotate_point 1 10 (20 + i) = specTransform 1 10 (20 + i)) ∧
    (∀ px py : Int,
      run_covers (hline_route 1 10 20 5).1 (hline_route 1 10 20 5).2.1 (hline_route 1 10 20 5).2.2 5
        px py ↔ ∃ i : Int, 0 ≤ i ∧ i < 5 ∧ rotate_point 1 (10 + i) 20 = (px, py)) ∧
    (∀ px py : Int,
      run_covers (!(vline_route 1 10 20 5).1) (vline_route 1 10 20 5).2.1 (vline_route 1 10 20 5).2.2 5
        px py ↔ ∃ i : Int, 0 ≤ i ∧ i < 5 ∧ rotate_point 1 10 (20 + i) = (px, py)) ∧
    (∀ (buf : Buffer) (m : Nat), IsBuffer buf →
      m = SSD1306_WHITE ∨ m = SSD1306_BLACK ∨ m = SSD1306_INVERSE →
      (∃ b1, SSD1306_draw_fast_hline 1 buf 10 20 5 m = some b1 ∧ IsBuffer b1 ∧
        ∀ px py : Nat, px < 128 → py < 64 →
          ((∃ i : Int, 0 ≤ i ∧ i < 5 ∧ rotate_point 1 (10 + i) 20 = ((px : Int), (py : Int))) →
            pixelAt b1 px py = paint m (pixelAt buf px py)) ∧
          ((¬ ∃ i : Int, 0 ≤ i ∧ i < 5 ∧ rotate_point 1 (10 + i) 20 = ((px : Int), (py : Int))) →
            pixelAt b1 px py = pixelAt buf px py)) ∧
      (∃ b1, SSD1306_draw_fast_vline 1 buf 10 20 5 m = some b1 ∧ IsBuffer b1 ∧
        ∀ px py : Nat, px < 128 → py < 64 →
          ((∃ i : Int, 0 ≤ i ∧ i < 5 ∧ rotate_point 1 10 (20 + i) = ((px : Int), (py : Int))) →
            pixelAt b1 px py = paint m (pixelAt buf px py)) ∧
          ((¬ ∃ i : Int, 0 ≤ i ∧ i < 5 ∧ rotate_point 1 10 (20 + i) = ((px : Int), (py : Int))) →
            pixelAt b1 px py = pixelAt buf px py))) :=
  ⟨by decide, by decide, by decide, by decide, by decide, by decide, by decide,
    by decide, by decide,
    fast_runs_cover_transformed_points 1 10 20 5 (by decide) (by decide) (by decide)
      (by decide) (by decide) (by decide) (by decide)⟩

/-! ## The column loop of `GFX_draw_fill_rect` -/

/-- Pixels after the column loop of `GFX_draw_fill_rect` at orientation 0,
with `n` columns to go and enough fuel for them. -/
theorem fill_rect_loop_spec {m : Nat} (hm : m = 0 ∨ m = 1 ∨ m = 2) {y h : Int}
    (hy : IsInt16 y) (hh0 : 0 ≤ h) (hh : IsInt16 h) (bound : Int) (hbound : bound ≤ 32767)
    (n : Nat) :
    ∀ (fuel : Nat) (i : Int) (buf : Buffer), n < fuel → IsBuffer buf → -32768 ≤ i →
      i + n = bound →
      ∃ buf', fill_rect_loop 0 y h m bound fuel i buf = some buf' ∧ IsBuffer buf' ∧
        ∀ px py, px < 128 → py < 64 → pixelAt buf' px py =
          if (i ≤ (px : Int) ∧ (px : Int) < i + n) ∧ y ≤ (py : Int) ∧ (py : Int) < y + h then
            paint m (pixelAt buf px py)
          else pixelAt buf px py := by
  induction n with
  | zero =>
    intro fuel i buf hf hb _ hi
    obtain ⟨f, rfl⟩ : ∃ f, fuel = f + 1 := ⟨fuel - 1, by omega⟩
    refine ⟨buf, ?_, hb, ?_⟩
    · unfold fill_rect_loop
      rw [if_neg (by push_cast at hi; omega)]
    · intro px py _ _
      rw [if_neg (by push_cast; omega)]
  | succ n ih =>
    intro fuel i buf hf hb hi0 hi
    obtain ⟨f, rfl⟩ : ∃ f, fuel = f + 1 := ⟨fuel - 1, by omega⟩
    push_cast at hi
    obtain ⟨b1, e1, hb1, s1⟩ := vline_internal_pixels hb hm i hy hh0 hh
    have hw : wrap16 (i + 1) = i + 1 := wrap16_of_isInt16 ⟨by omega, by omega⟩
    obtain ⟨b2, e2, hb2, s2⟩ := ih f (i + 1) b1 (by omega) hb1 (by omega) (by omega)
    refine ⟨b2, ?_, hb2, ?_⟩
    · unfold fill_rect_loop
      rw [if_pos (by omega)]
      have hv : SSD1306_draw_fast_vline 0 buf i y h m =
          SSD1306_draw_fast_vline_internal buf i y h m := rfl
      rw [hv, e1, hw]
      exact e2
    · intro px py hpx hpy
      have hs1 := s1 px py hpx hpy
      rw [s2 px py hpx hpy]
      by_cases c1 : (px : Int) = i ∧ y ≤ (py : Int) ∧ (py : Int) < y + h
      · rw [if_pos c1] at hs1
        rw [if_neg (by omega), hs1, if_pos (by push_cast; omega)]
      · rw [if_neg c1] at hs1
        rw [hs1]
        by_cases c2 : (i + 1 ≤ (px : Int) ∧ (px : Int) < i + 1 + n) ∧
            y ≤ (py : Int) ∧ (py : Int) < y + h
        · rw [if_pos c2, if_pos (by push_cast; omega)]
        · rw [if_neg c2, if_neg (by push_cast; omega)]

/-- C19: at orientation 0, for every 1024-byte buffer, every mode in WHITE,
BLACK and every rectangle `(x, y, w, h)` with `w, h >= 0` and
`x + w, y + h <= 32767`, `GFX_draw_fill_rect(x, y, w, h, mode)` returns (its
loop ends after `w` columns), and afterwards `SSD1306_get_pixel(px, py)` is
`mode = WHITE` for every in-bounds pixel with `x <= px < x + w` and
`y <= py < y + h`, and unchanged for every other in-bounds pixel. -/
theorem fill_rect_fills_rectangle (fuel : Nat) (buf : Buffer) (mode : Nat) (x y w h : Int)
    (hb : IsBuffer buf) (hm : mode = SSD1306_WHITE ∨ mode = SSD1306_BLACK)
    (hx : IsInt16 x) (hy : IsInt16 y) (_hw : IsInt16 w) (hh : IsInt16 h)
    (hw0 : 0 ≤ w) (hh0 : 0 ≤ h) (hxw : x + w ≤ 32767) (_hyh : y + h ≤ 32767)
    (hfuel : w < (fuel : Int)) :
    ∃ buf', GFX_draw_fill_rect fuel 0 buf x y w h mode = some buf' ∧ IsBuffer buf' ∧
      ∀ px py : Int, 0 ≤ px → px < 128 → 0 ≤ py → py < 64 →
        SSD1306_get_pixel 0 buf' px py =
          if x ≤ px ∧ px < x + w ∧ y ≤ py ∧ py < y + h then
            some (decide (mode = SSD1306_WHITE))
          else SSD1306_get_pixel 0 buf px py := by
  have hm' : mode = 0 ∨ mode = 1 ∨ mode = 2 := by
    simp only [SSD1306_WHITE, SSD1306_BLACK] at hm
    omega
  obtain ⟨b1, e1, hb1, s1⟩ := fill_rect_loop_spec hm' hy hh0 hh (x + w) hxw w.toNat fuel x buf
    (by omega) hb hx.1 (by omega)
  refine ⟨b1, e1, hb1, ?_⟩
  intro px py hx0 hx1 hy0 hy1
  rw [get_pixel_spec hb1 0 hx0 hx1 hy0 hy1 hx0 hx1 hy0 hy1,
    get_pixel_spec hb 0 hx0 hx1 hy0 hy1 hx0 hx1 hy0 hy1]
  have e : rotate_point 0 px py = (px, py) := rfl
  rw [e]
  simp only
  rw [s1 px.toNat py.toNat (by omega) (by omega)]
  by_cases c : x ≤ px ∧ px < x + w ∧ y ≤ py ∧ py < y + h
  · rw [if_pos c, if_pos (by omega)]
    rcases hm with h1 | h1 <;> subst h1 <;> simp [paint]
  · rw [if_neg c, if_neg (by omega)]

/-- C19 at the rectangle `(2, 3, 4, 7)` on the all-zero buffer. -/
theorem fill_rect_fills_rectangle_witness :
    IsBuffer zeroBuffer ∧ (4 : Int) < ((5 : Nat) : Int) ∧
    ∃ buf', GFX_draw_fill_rect 5 0 zeroBuffer 2 3 4 7 SSD1306_WHITE = some buf' ∧
      IsBuffer buf' ∧
      ∀ px py : Int, 0 ≤ px → px < 128 → 0 ≤ py → py < 64 →
        SSD1306_get_pixel 0 buf' px py =
          if 2 ≤ px ∧ px < 2 + 4 ∧ 3 ≤ py ∧ py < 3 + 7 then
            some (decide (SSD1306_WHITE = SSD1306_WHITE))
          else SSD1306_get_pixel 0 zeroBuffer px py :=
  ⟨isBuffer_zeroBuffer, by decide,
    fill_rect_fills_rectangle 5 zeroBuffer SSD1306_WHITE 2 3 4 7 isBuffer_zeroBuffer
      (Or.inl rfl) (by decide) (by decide) (by decide) (by decide) (by decide) (by decide)
      (by decide) (by decide) (by decide)⟩

/-- Where both rotated points lie inside the physical display, drawing one
logical pixel leaves every other logical pixel as it was. -/
theorem get_pixel_draw_pixel_other {buf : Buffer} (hb : IsBuffer buf) (r color : Nat)
    (hr : r < 4) {px py qx qy : Int}
    (hp : 0 ≤ px ∧ px < 128 ∧ 0 ≤ py ∧ py < 64) (hq : 0 ≤ qx ∧ qx < 128 ∧ 0 ≤ qy ∧ qy < 64)
    (hP : 0 ≤ (rotate_point r px py).1 ∧ (rotate_point r px py).1 < 128 ∧
      0 ≤ (rotate_point r px py).2 ∧ (rotate_point r px py).2 < 64)
    (hQ : 0 ≤ (rotate_point r qx qy).1 ∧ (rotate_point r qx qy).1 < 128 ∧
      0 ≤ (rotate_point r qx qy).2 ∧ (rotate_point r qx qy).2 < 64)
    (hne : px ≠ qx ∨ py ≠ qy) :
    ∃ buf', SSD1306_draw_pixel r buf px py color = some buf' ∧
      SSD1306_get_pixel r buf' qx qy = SSD1306_get_pixel r buf qx qy := by
  obtain ⟨b1, e1, hb1, s1⟩ := draw_pixel_spec hb r color hp.1 hp.2.1 hp.2.2.1 hp.2.2.2
    hP.1 hP.2.1 hP.2.2.1 hP.2.2.2
  refine ⟨b1, e1, ?_⟩
  rw [get_pixel_spec hb1 r hq.1 hq.2.1 hq.2.2.1 hq.2.2.2 hQ.1 hQ.2.1 hQ.2.2.1 hQ.2.2.2,
    get_pixel_spec hb r hq.1 hq.2.1 hq.2.2.1 hq.2.2.2 hQ.1 hQ.2.1 hQ.2.2.1 hQ.2.2.2,
    s1 _ _ (by omega) (by omega), if_neg]
  intro hc
  have e1 := rotate_point_eq_specTransform r hr hp.1 hp.2.1 hp.2.2.1 hp.2.2.2
  have e2 := rotate_point_eq_specTransform r hr hq.1 hq.2.1 hq.2.2.1 hq.2.2.2
  rw [e1] at hc hP
  rw [e2] at hc hQ
  have hcases : r = 0 ∨ r = 1 ∨ r = 2 ∨ r = 3 := by omega
  rcases hcases with h | h | h | h <;> subst h <;>
    simp only [specTransform, show ¬ (0 = 1) by decide, show ¬ (0 = 2) by decide,
      show ¬ (0 = 3) by decide, show ¬ (2 = 1) by decide, show ¬ (3 = 1) by decide,
      show ¬ (3 = 2) by decide, if_true, if_false] at hc hP hQ <;> omega

section SharedBit

set_option maxRecDepth 100000

/-- C20 (failing input): at orientation 3 the logical in-bounds pixels
`(64, 0)` and `(56, 0)` are different, yet both are bit 7 of byte 0 (the
first rotates to row -1, the second to row 7): `SSD1306_get_pixel(56, 0)`
reads false on the all-zero buffer and true after
`SSD1306_draw_pixel(64, 0, SSD1306_WHITE)`. -/
theorem distinct_pixels_share_bit_rot3 :
    rotate_point 3 64 0 = (0, -1) ∧ rotate_point 3 56 0 = (0, 7) ∧
    byteIndex 0 (-1) = 0 ∧ byteIndex 0 7 = 0 ∧ bitMask (-1) = 128 ∧ bitMask 7 = 128 ∧
    SSD1306_get_pixel 3 zeroBuffer 56 0 = some false ∧
    (SSD1306_draw_pixel 3 zeroBuffer 64 0 SSD1306_WHITE).bind
      (fun b => SSD1306_get_pixel 3 b 56 0) = some true := by
  decide

end SharedBit

/-! ## Runs drawn in two parts, and runs inverted twice -/

/-- Rows kept by the clipping of `SSD1306_draw_fast_vline_internal` when the
height argument is the `int16_t` narrowing of a sum `h1 + h2` of two
non-negative heights with `y + h1 + h2 <= 32767`: the rows of the run
`[y, y + h1 + h2)` inside the display, also when the sum itself wraps. -/
theorem clip_run_sum {y h1 h2 : Int} (hy : IsInt16 y) (h10 : 0 ≤ h1) (h11 : IsInt16 h1)
    (h20 : 0 ≤ h2) (h21 : IsInt16 h2) (hsum : y + h1 + h2 ≤ 32767) (p : Int) (hp0 : 0 ≤ p)
    (hp1 : p < 64) :
    ((clip_run 64 y (wrap16 (h1 + h2))).1 ≤ p ∧
      p < (clip_run 64 y (wrap16 (h1 + h2))).1 + (clip_run 64 y (wrap16 (h1 + h2))).2) ↔
      (y ≤ p ∧ p < y + h1 + h2) := by
  unfold IsInt16 at hy h11 h21
  unfold clip_run wrap16
  simp only
  split_ifs <;> omega

/-- C23: for every 1024-byte buffer, every mode in WHITE, BLACK, INVERSE,
every `int16_t` `x`, `y` and all `h1, h2 >= 0` with `y + h1 + h2 <= 32767`,
`SSD1306_draw_fast_vline_internal(x, y, h1, mode)` followed by
`SSD1306_draw_fast_vline_internal(x, y + h1, h2, mode)` returns the very
buffer that the single call
`SSD1306_draw_fast_vline_internal(x, y, h1 + h2, mode)` returns (all
arguments narrowed to `int16_t`), wherever the split falls. -/
theorem vline_runs_concatenate (buf : Buffer) (mode : Nat) (x y h1 h2 : Int)
    (hb : IsBuffer buf)
    (hm : mode = SSD1306_WHITE ∨ mode = SSD1306_BLACK ∨ mode = SSD1306_INVERSE)
    (_hx : IsInt16 x) (hy : IsInt16 y) (h10 : 0 ≤ h1) (h11 : IsInt16 h1)
    (h20 : 0 ≤ h2) (h21 : IsInt16 h2) (hsum : y + h1 + h2 ≤ 32767) :
    ∃ b1 b2, SSD1306_draw_fast_vline_internal buf x y h1 mode = some b1 ∧
      SSD1306_draw_fast_vline_internal b1 x (wrap16 (y + h1)) h2 mode = some b2 ∧
      SSD1306_draw_fast_vline_internal buf x y (wrap16 (h1 + h2)) mode = some b2 := by
  have hm' : mode = 0 ∨ mode = 1 ∨ mode = 2 := by
    simp only [SSD1306_WHITE, SSD1306_BLACK, SSD1306_INVERSE] at hm
    omega
  have hy2 : IsInt16 (y + h1) := by
    unfold IsInt16 at hy ⊢
    omega
  rw [wrap16_of_isInt16 hy2]
  obtain ⟨b1, e1, hb1, s1⟩ := vline_internal_pixels hb hm' x hy h10 h11
  obtain ⟨b2, e2, hb2, s2⟩ := vline_internal_pixels hb1 hm' x hy2 h20 h21
  obtain ⟨b3, e3, hb3, s3⟩ := vline_internal_spec hb mode x (wrap16 (h1 + h2)) hy
  have heq : b3 = b2 := by
    apply buffer_ext hb3 hb2
    intro px py hpx hpy
    have hs1 := s1 px py hpx hpy
    have hclip := clip_run_sum hy h10 h11 h20 h21 hsum (py : Int) (by omega) (by omega)
    have hl : pixelAt b3 px py =
        if (px : Int) = x ∧ y ≤ (py : Int) ∧ (py : Int) < y + h1 + h2 then
          paint mode (pixelAt buf px py)
        else pixelAt buf px py := by
      rw [s3 px py hpx hpy]
      simp only [paintFull_eq_paint hm', ite_self]
      by_cases c : (px : Int) = x ∧ y ≤ (py : Int) ∧ (py : Int) < y + h1 + h2
      · rw [if_pos c, if_pos ⟨c.1, hclip.2 c.2⟩]
      · rw [if_neg c, if_neg (fun hc => c ⟨hc.1, hclip.1 hc.2⟩)]
    have hr : pixelAt b2 px py =
        if (px : Int) = x ∧ y ≤ (py : Int) ∧ (py : Int) < y + h1 + h2 then
          paint mode (pixelAt buf px py)
        else pixelAt buf px py := by
      rw [s2 px py hpx hpy]
      by_cases c1 : (px : Int) = x ∧ y ≤ (py : Int) ∧ (py : Int) < y + h1
      · rw [if_pos c1] at hs1
        rw [if_neg (by omega), hs1, if_pos (by omega)]
      · rw [if_neg c1] at hs1
        rw [hs1]
        by_cases c2 : (px : Int) = x ∧ y + h1 ≤ (py : Int) ∧ (py : Int) < y + h1 + h2
        · rw [if_pos c2, if_pos (by omega)]
        · rw [if_neg c2, if_neg (by omega)]
    rw [hl, hr]
  exact ⟨b1, b2, e1, e2, heq ▸ e3⟩

/-- C23 at `y = 5`, `h1 = 6`, `h2 = 14`: the split at row 11 is inside the
second page. -/
theorem vline_runs_concatenate_witness :
    IsBuffer zeroBuffer ∧ (5 : Int) + 6 + 14 ≤ 32767 ∧
    ∃ b1 b2, SSD1306_draw_fast_vline_internal zeroBuffer 3 5 6 SSD1306_INVERSE = some b1 ∧
      SSD1306_draw_fast_vline_internal b1 3 (wrap16 (5 + 6)) 14 SSD1306_INVERSE = some b2 ∧
      SSD1306_draw_fast_vline_internal zeroBuffer 3 5 (wrap16 (6 + 14)) SSD1306_INVERSE
        = some b2 :=
  ⟨isBuffer_zeroBuffer, by decide,
    vline_runs_concatenate zeroBuffer SSD1306_INVERSE 3 5 6 14 isBuffer_zeroBuffer
      (Or.inr (Or.inr rfl)) (by decide) (by decide) (by decide) (by decide) (by decide)
      (by decide) (by decide)⟩

theorem hline_internal_inverse_twice {buf : Buffer} (hb : IsBuffer buf) {x : Int} (y w : Int)
    (hx : IsInt16 x) :
    ∃ b1, SSD1306_draw_fast_hline_internal buf x y w SSD1306_INVERSE = some b1 ∧
      IsBuffer b1 ∧ SSD1306_draw_fast_hline_internal b1 x y w SSD1306_INVERSE = some buf := by
  obtain ⟨b1, e1, hb1, s1⟩ := hline_internal_spec hb SSD1306_INVERSE y w hx
  obtain ⟨b2, e2, hb2, s2⟩ := hline_internal_spec hb1 SSD1306_INVERSE y w hx
  have heq : b2 = buf := by
    apply buffer_ext hb2 hb
    intro px py hpx hpy
    rw [s2 px py hpx hpy, s1 px py hpx hpy]
    split_ifs <;> simp [paint]
  exact ⟨b1, e1, hb1, heq ▸ e2⟩

theorem vline_internal_inverse_twice {buf : Buffer} (hb : IsBuffer buf) (x : Int) {y : Int}
    (h : Int) (hy : IsInt16 y) :
    ∃ b1, SSD1306_draw_fast_vline_internal buf x y h SSD1306_INVERSE = some b1 ∧
      IsBuffer b1 ∧ SSD1306_draw_fast_vline_internal b1 x y h SSD1306_INVERSE = some buf := by
  obtain ⟨b1, e1, hb1, s1⟩ := vline_internal_spec hb SSD1306_INVERSE x h hy
  obtain ⟨b2, e2, hb2, s2⟩ := vline_internal_spec hb1 SSD1306_INVERSE x h hy
  have heq : b2 = buf := by
    apply buffer_ext hb2 hb
    intro px py hpx hpy
    rw [s2 px py hpx hpy, s1 px py hpx hpy]
    split_ifs <;> simp [paint, paintFull]
  exact ⟨b1, e1, hb1, heq ▸ e2⟩

/-- C24: for every orientation value, every 1024-byte buffer and all
`int16_t` `x`, `y` and length `n` (negative lengths and wrap-around included),
`SSD1306_draw_fast_hline(x, y, n, SSD1306_INVERSE)` called twice returns the
buffer it started from, byte for byte, and so does
`SSD1306_draw_fast_vline(x, y, n, SSD1306_INVERSE)` called twice. -/
theorem inverse_run_twice_restores (rotation : Nat) (buf : Buffer) (x y n : Int)
    (hb : IsBuffer buf) (hx : IsInt16 x) (hy : IsInt16 y) (_hn : IsInt16 n) :
    (∃ b1, SSD1306_draw_fast_hline rotation buf x y n SSD1306_INVERSE = some b1 ∧
      SSD1306_draw_fast_hline rotation b1 x y n SSD1306_INVERSE = some buf) ∧
    (∃ b1, SSD1306_draw_fast_vline rotation buf x y n SSD1306_INVERSE = some b1 ∧
      SSD1306_draw_fast_vline rotation b1 x y n SSD1306_INVERSE = some buf) := by
  constructor
  · obtain ⟨h1, h2⟩ := hline_route_isInt16 rotation n hx hy
    unfold SSD1306_draw_fast_hline
    simp only
    split_ifs
    · obtain ⟨b1, e1, _, e2⟩ := vline_internal_inverse_twice hb
        (hline_route rotation x y n).2.1 n h2
      exact ⟨b1, e1, e2⟩
    · obtain ⟨b1, e1, _, e2⟩ := hline_internal_inverse_twice hb
        (hline_route rotation x y n).2.2 n h1
      exact ⟨b1, e1, e2⟩
  · obtain ⟨h1, h2⟩ := vline_route_isInt16 rotation n hx hy
    unfold SSD1306_draw_fast_vline
    simp only
    split_ifs
    · obtain ⟨b1, e1, _, e2⟩ := hline_internal_inverse_twice hb
        (vline_route rotation x y n).2.2 n h1
      exact ⟨b1, e1, e2⟩
    · obtain ⟨b1, e1, _, e2⟩ := vline_internal_inverse_twice hb
        (vline_route rotation x y n).2.1 n h2
      exact ⟨b1, e1, e2⟩

section InverseExamples

set_option maxRecDepth 100000

/-- C24 at orientation 1 and the run `(x = 10, y = 20, length 30)` on the
all-zero buffer: the first call inverts the bits of the run (the values of the
first and the last byte written are shown), the second call restores the
buffer. -/
theorem inverse_run_twice_restores_witness :
    IsBuffer zeroBuffer ∧ IsInt16 10 ∧ IsInt16 20 ∧ IsInt16 30 ∧
    ((∃ b1, SSD1306_draw_fast_hline 1 zeroBuffer 10 20 30 SSD1306_INVERSE = some b1 ∧
      SSD1306_draw_fast_hline 1 b1 10 20 30 SSD1306_INVERSE = some zeroBuffer) ∧
    (∃ b1, SSD1306_draw_fast_vline 1 zeroBuffer 10 20 30 SSD1306_INVERSE = some b1 ∧
      SSD1306_draw_fast_vline 1 b1 10 20 30 SSD1306_INVERSE = some zeroBuffer)) ∧
    (SSD1306_draw_fast_hline 1 zeroBuffer 10 20 30 SSD1306_INVERSE).map
      (fun b => (b.getD 235 0, b.getD 619 0)) = some (252, 255) ∧
    (SSD1306_draw_fast_vline 1 zeroBuffer 10 20 30 SSD1306_INVERSE).map
      (fun b => (b.getD 206 0, b.getD 235 0)) = some (4, 4) :=
  ⟨isBuffer_zeroBuffer, by decide, by decide, by decide,
    inverse_run_twice_restores 1 zeroBuffer 10 20 30 isBuffer_zeroBuffer
      (by decide) (by decide) (by decide),
    by decide, by decide⟩

end InverseExamples

/-! ## State after a successful `SSD1306_init` -/

theorem foldl_send_com_frame (cs : List Nat) :
    ∀ s : Driver, (cs.foldl SSD1306_send_com s).buffer = s.buffer ∧
      (cs.foldl SSD1306_send_com s).rotation = s.rotation := by
  induction cs with
  | nil => intro s; exact ⟨rfl, rfl⟩
  | cons c cs ih =>
    intro s
    simp only [List.foldl_cons]
    obtain ⟨h1, h2⟩ := ih (SSD1306_send_com s c)
    exact ⟨h1, h2⟩

theorem init_of_buffer (b : Buffer) (rotation : Nat) (sent : List Nat)
    (malloc : Option Buffer) (hb : IsBuffer b) :
    SSD1306_init ⟨some b, rotation, sent⟩ malloc =
      some (true, SSD1306_set_rotation (init_commands.foldl SSD1306_send_com
        ⟨some zeroBuffer, rotation, sent⟩) SSD1306_HORIZONTAL_MODE2) := by
  unfold SSD1306_init
  simp only [display_clear_of_isBuffer hb]

theorem init_of_malloc (b : Buffer) (rotation : Nat) (sent : List Nat) (hb : IsBuffer b) :
    SSD1306_init ⟨none, rotation, sent⟩ (some b) =
      some (true, SSD1306_set_rotation (init_commands.foldl SSD1306_send_com
        ⟨some zeroBuffer, rotation, sent⟩) SSD1306_HORIZONTAL_MODE2) := by
  unfold SSD1306_init
  simp only [display_clear_of_isBuffer hb]

theorem init_true_state {s s' : Driver} {malloc : Option Buffer}
    (hs : ∀ b, s.buffer = some b → IsBuffer b) (hmalloc : ∀ b, malloc = some b → IsBuffer b)
    (h : SSD1306_init s malloc = some (true, s')) :
    s'.buffer = some zeroBuffer ∧ s'.rotation = 2 := by
  obtain ⟨buffer, rotation, sent⟩ := s
  simp only at hs
  have fin : ∀ t : Driver, some (true, SSD1306_set_rotation (init_commands.foldl
      SSD1306_send_com ⟨some zeroBuffer, rotation, sent⟩) SSD1306_HORIZONTAL_MODE2) =
      some (true, t) → t.buffer = some zeroBuffer ∧ t.rotation = 2 := by
    intro t ht
    injection ht with ht
    injection ht with _ ht
    subst ht
    have hf := foldl_send_com_frame init_commands ⟨some zeroBuffer, rotation, sent⟩
    simp only [SSD1306_set_rotation, SSD1306_HORIZONTAL_MODE2]
    exact ⟨hf.1, by decide⟩
  cases buffer with
  | some b =>
    rw [init_of_buffer b rotation sent malloc (hs b rfl)] at h
    exact fin s' h
  | none =>
    cases malloc with
    | none =>
      have e : SSD1306_init ⟨none, rotation, sent⟩ none = some (false, ⟨none, rotation, sent⟩) :=
        rfl
      rw [e] at h
      injection h with h
      injection h with h
      exact Bool.noConfusion h
    | some b =>
      rw [init_of_malloc b rotation sent (hmalloc b rfl)] at h
      exact fin s' h

/-- C25: whenever `SSD1306_init` returns true (the buffer held before, if
any, and a fresh allocation having 1024 bytes), whatever the buffer contents
and the orientation were before the call, afterwards the buffer has 1024
bytes, every one of them 0, and `SSD1306_get_rotation()` returns 2
(`SSD1306_HORIZONTAL_MODE2`). -/
theorem init_true_clears_and_sets_rotation (s : Driver) (malloc : Option Buffer) (s' : Driver)
    (hs : ∀ b, s.buffer = some b → IsBuffer b) (hmalloc : ∀ b, malloc = some b → IsBuffer b)
    (h : SSD1306_init s malloc = some (true, s')) :
    (∃ b, s'.buffer = some b ∧ b.length = 1024 ∧ ∀ v ∈ b, v = 0) ∧
    SSD1306_get_rotation s' = SSD1306_HORIZONTAL_MODE2 := by
  obtain ⟨h1, h2⟩ := init_true_state hs hmalloc h
  refine ⟨⟨zeroBuffer, h1, isBuffer_zeroBuffer.1, ?_⟩, h2⟩
  intro v hv
  unfold zeroBuffer at hv
  rw [List.mem_replicate] at hv
  exact hv.2

/-- C25 at program start with a successful allocation of 1024 bytes of
`0xFF`. -/
theorem init_true_clears_and_sets_rotation_witness :
    ∃ s', SSD1306_init Driver.initial (some (List.replicate 1024 255)) = some (true, s') ∧
      (∃ b, s'.buffer = some b ∧ b.length = 1024 ∧ ∀ v ∈ b, v = 0) ∧
      SSD1306_get_rotation s' = SSD1306_HORIZONTAL_MODE2 :=
  ⟨_, init_of_malloc _ 0 [] (isBuffer_replicate 255 (by decide)),
    init_true_clears_and_sets_rotation Driver.initial (some (List.replicate 1024 255)) _
      (fun _ h => Option.noConfusion h)
      (fun b h => by
        injection h with h
        subst h
        exact isBuffer_replicate 255 (by decide))
      (init_of_malloc _ 0 [] (isBuffer_replicate 255 (by decide)))⟩

/-! ## Lengths that are not positive, colours that are no mode -/

/-- Without wrap-around in `n += s`, a run of non-positive length is clipped
to a non-positive length. -/
theorem clip_run_nonpos (limit : Int) {s n : Int} (hl0 : 0 ≤ limit) (hs : IsInt16 s)
    (hn : n ≤ 0) (hwrap : 0 ≤ s ∨ -32768 ≤ n + s) : (clip_run limit s n).2 ≤ 0 := by
  unfold IsInt16 at hs
  unfold clip_run wrap16
  simp only
  split_ifs <;> omega

/-- A run of non-positive requested length draws nothing as long as the
clipping statement `w += x` (resp. `__h += __y`) does not wrap. -/
theorem nonpositive_run_unchanged_of_no_wrap (buf : Buffer) (color : Nat) (x y n : Int)
    (hx : IsInt16 x) (hy : IsInt16 y) (hn : n ≤ 0) :
    ((0 ≤ x ∨ -32768 ≤ n + x) →
      SSD1306_draw_fast_hline_internal buf x y n color = some buf) ∧
    ((0 ≤ y ∨ -32768 ≤ n + y) →
      SSD1306_draw_fast_vline_internal buf x y n color = some buf) := by
  constructor
  · intro hw
    have hc := clip_run_nonpos 128 (by decide) hx hn hw
    unfold SSD1306_draw_fast_hline_internal
    by_cases hy' : 0 ≤ y ∧ y < SSD1306_HEIGHT
    · rw [if_pos hy']
      simp only [SSD1306_WIDTH]
      rw [if_neg (by omega)]
    · rw [if_neg hy']
  · intro hw
    have hc := clip_run_nonpos 64 (by decide) hy hn hw
    unfold SSD1306_draw_fast_vline_internal
    by_cases hx' : 0 ≤ x ∧ x < SSD1306_WIDTH
    · rw [if_pos hx']
      simp only [SSD1306_HEIGHT]
      rw [if_neg (by omega)]
    · rw [if_neg hx']

/-- A colour that is none of the three modes leaves the buffer unchanged in
`SSD1306_draw_pixel` and `SSD1306_draw_fast_hline_internal`. -/
theorem unknown_color_pixel_hline_unchanged (rotation : Nat) (buf : Buffer) (color : Nat)
    (x y w : Int) (hc : 3 ≤ color) :
    SSD1306_draw_pixel rotation buf x y color = some buf ∧
    SSD1306_draw_fast_hline_internal buf x y w color = some buf := by
  obtain ⟨k, rfl⟩ : ∃ k, color = k + 3 := ⟨color - 3, by omega⟩
  constructor
  · unfold SSD1306_draw_pixel
    by_cases hin : 0 ≤ x ∧ x < SSD1306_WIDTH ∧ 0 ≤ y ∧ y < SSD1306_HEIGHT
    · rw [if_pos hin]
      rfl
    · rw [if_neg hin]
  · unfold SSD1306_draw_fast_hline_internal
    by_cases hy' : 0 ≤ y ∧ y < SSD1306_HEIGHT
    · rw [if_pos hy']
      simp only
      split_ifs <;> rfl
    · rw [if_neg hy']

section WrapAndColour

set_option maxRecDepth 100000

/-- C21 (failing input): with `x = -1` and the requested width `-32768`,
`w += x` wraps to `32767`, the clipping leaves `x = 0`, `w = 128`, and
`SSD1306_draw_fast_hline_internal(-1, 0, -32768, SSD1306_WHITE)` sets the
whole row 0; likewise `SSD1306_draw_fast_vline_internal(0, -1, -32768,
SSD1306_WHITE)` clips to `y = 0`, `h = 64` and sets the whole column 0. -/
theorem negative_length_run_draws :
    wrap16 (-32768 + -1) = 32767 ∧
    clip_run 128 (-1) (-32768) = (0, 128) ∧
    (SSD1306_draw_fast_hline_internal zeroBuffer (-1) 0 (-32768) SSD1306_WHITE).map
      (fun b => [b.take 2, (b.drop 127).take 2]) = some [[1, 1], [1, 0]] ∧
    clip_run 64 (-1) (-32768) = (0, 64) ∧
    (SSD1306_draw_fast_vline_internal zeroBuffer 0 (-1) (-32768) SSD1306_WHITE).map
      (fun b => [b.getD 0 0, b.getD 128 0, b.getD 896 0, b.getD 1 0])
      = some [255, 255, 255, 0] := by
  decide

/-- C22 (failing input): with the colour value 3,
`SSD1306_draw_fast_vline_internal(0, 0, 8, 3)` stores `0xFF` in byte 0, and
`SSD1306_draw_fast_vline_internal(0, 5, 20, 3)` stores `0xFF` in the two
whole pages of the run (bytes 128 and 256) while leaving its partial pages
(bytes 0 and 384) alone; `SSD1306_draw_pixel` and
`SSD1306_draw_fast_hline_internal` with colour 3 change nothing. -/
theorem unknown_color_vline_sets_full_bytes :
    fullByteOp 3 0 = 255 ∧
    (SSD1306_draw_fast_vline_internal zeroBuffer 0 0 8 3).map (fun b => b.getD 0 0)
      = some 255 ∧
    (SSD1306_draw_fast_vline_internal zeroBuffer 0 5 20 3).map
      (fun b => [b.getD 0 0, b.getD 128 0, b.getD 256 0, b.getD 384 0])
      = some [0, 255, 255, 0] ∧
    SSD1306_draw_pixel 0 zeroBuffer 0 0 3 = some zeroBuffer ∧
    SSD1306_draw_fast_hline_internal zeroBuffer 0 0 8 3 = some zeroBuffer := by
  refine ⟨by decide, by decide, by decide, ?_, ?_⟩
  · exact (unknown_color_pixel_hline_unchanged 0 zeroBuffer 3 0 0 8 (by decide)).1
  · exact (unknown_color_pixel_hline_unchanged 0 zeroBuffer 3 0 0 8 (by decide)).2

end WrapAndColour

/-! ## Character positions of `GFX_draw_string` -/

/-- The calls made by the loop of `GFX_draw_string` on a string of non-zero
characters followed by a NUL: one call per character, the `k`-th at the
horizontal position `x + (offset + 7 * size_x * k) % 256`, narrowed to
`int16_t`. -/
theorem draw_string_loop_spec (x y : Int) (color bg size_x size_y : Nat) (chars : List Nat) :
    ∀ (rest : List Nat) (offset : Nat), offset < 256 → (∀ ch ∈ chars, ch ≠ 0) →
      ∃ calls : List CharCall,
        draw_string_loop x y color bg size_x size_y (chars ++ 0 :: rest) offset = some calls ∧
        calls.length = chars.length ∧
        ∀ k ch, chars[k]? = some ch →
          calls[k]? = some (CharCall.mk (wrap16 (x + ((offset + 7 * size_x * k) % 256 : Nat)))
            y ch color bg size_x size_y) := by
  induction chars with
  | nil =>
    intro rest offset _ _
    refine ⟨[], ?_, rfl, ?_⟩
    · simp [draw_string_loop]
    · intro k ch hk
      rw [List.getElem?_nil] at hk
      exact Option.noConfusion hk
  | cons c cs ih =>
    intro rest offset hoff hne
    have hc : c ≠ 0 := hne c (List.mem_cons_self _ _)
    obtain ⟨calls, e, hlen, hcalls⟩ := ih rest ((offset + (5 + 2) * size_x) % 256)
      (Nat.mod_lt _ (by decide)) (fun ch hch => hne ch (List.mem_cons_of_mem _ hch))
    refine ⟨CharCall.mk (wrap16 (x + offset)) y c color bg size_x size_y :: calls, ?_,
      by simp [hlen], ?_⟩
    · have hstep : draw_string_loop x y color bg size_x size_y (c :: (cs ++ 0 :: rest)) offset =
          (draw_string_loop x y color bg size_x size_y (cs ++ 0 :: rest)
            ((offset + (5 + 2) * size_x) % 256)).map
            (fun calls => CharCall.mk (wrap16 (x + offset)) y c color bg size_x size_y :: calls) := by
        rw [draw_string_loop, if_neg hc]
      rw [List.cons_append, hstep, e]
      rfl
    · intro k ch hk
      cases k with
      | zero =>
        simp only [List.getElem?_cons_zero, Option.some.injEq] at hk ⊢
        subst hk
        have e0 : (offset + 7 * size_x * 0) % 256 = offset := by
          rw [Nat.mul_zero, Nat.add_zero]
          exact Nat.mod_eq_of_lt hoff
        rw [e0]
      | succ k =>
        simp only [List.getElem?_cons_succ] at hk ⊢
        rw [hcalls k ch hk]
        have e1 : ((offset + (5 + 2) * size_x) % 256 + 7 * size_x * k) % 256 =
            (offset + 7 * size_x * (k + 1)) % 256 := by
          have e2 : 7 * size_x * (k + 1) = 7 * size_x * k + 7 * size_x := by ring
          rw [e2]
          omega
        rw [e1]

/-- The `GFX_draw_char` calls of `GFX_draw_string` on a NUL-terminated string:
one per character, in order, the `k`-th with the character `k`, the vertical
position `y` and the horizontal position `x + (7 * size_x * k) % 256` narrowed
to `int16_t`; this is `x + 7 * size_x * k` as long as `7 * size_x * k < 256`
and the sum is an `int16_t`. -/
theorem draw_string_calls (x y : Int) (color bg size_x size_y : Nat) (chars rest : List Nat)
    (hne : ∀ ch ∈ chars, ch ≠ 0) :
    ∃ calls : List CharCall,
      GFX_draw_string x y (chars ++ 0 :: rest) color bg size_x size_y = some calls ∧
      calls.length = chars.length ∧
      ∀ k ch, chars[k]? = some ch →
        calls[k]? = some (CharCall.mk (wrap16 (x + ((7 * size_x * k) % 256 : Nat))) y ch
          color bg size_x size_y) ∧
        (7 * size_x * k < 256 → IsInt16 (x + ((7 * size_x * k : Nat) : Int)) →
          calls[k]? = some (CharCall.mk (x + ((7 * size_x * k : Nat) : Int)) y ch color bg
            size_x size_y)) := by
  obtain ⟨calls, e, hlen, hcalls⟩ := draw_string_loop_spec x y color bg size_x size_y chars rest
    0 (by decide) hne
  refine ⟨calls, e, hlen, ?_⟩
  intro k ch hk
  have h := hcalls k ch hk
  rw [Nat.zero_add] at h
  refine ⟨h, ?_⟩
  intro hlt hint
  rw [h, Nat.mod_eq_of_lt hlt, wrap16_of_isInt16 hint]

/-- C26 (failing input): with `size_x = 2` the twentieth character
(`k = 19`) of a string of twenty `'A'` goes to `GFX_draw_char` at the
horizontal position `0 + (7 * 2 * 19) % 256 = 10`, not at `266`; with
`size_x = 37` already the second character of `"AB"` goes to position
`259 % 256 = 3`. -/
theorem draw_string_offset_wraps :
    (GFX_draw_string 0 0 (List.replicate 20 65 ++ [0]) 1 0 2 2).map
      (fun calls => (calls.length, (calls.getD 18 ⟨0, 0, 0, 0, 0, 0, 0⟩).x,
        (calls.getD 19 ⟨0, 0, 0, 0, 0, 0, 0⟩).x)) = some (20, 252, 10) ∧
    GFX_draw_string 0 0 [65, 66, 0] 1 0 37 1 =
      some [⟨0, 0, 65, 1, 0, 37, 1⟩, ⟨3, 0, 66, 1, 0, 37, 1⟩] := by
  decide

end SSD1306
